import Mathlib

/-! # Azure-UnrealPixelStreaming-Scaler: a shallow embedding of the control loops

The five control loops (Provisioner, Reconciler, Simulator, Starter, Cleaner) share one
scheduling skeleton (`run`) and act on two external stores: the cloud scale set and a
Redis state store.  The definitions below transcribe the Go sources; the external
collaborators (Redis, the Azure SDK, `encoding/json`, `time`, `fmt.Sscanf`) are modelled
by what the code consumes of them.

Conventions:
* a Redis set is kept as a list that stands for the set of its elements; `SMembers`, `SPop`
  and `Keys` hand out elements in list order, so quantifying over every list covers every
  order and every choice Redis may make;
* a Go map is an association list with unique keys; where the code ranges over a map, the
  order of the visit is a parameter (any permutation);
* every external call may fail; each work function takes a record of fault oracles that
  decide which calls fail.  A store is failure-free when none of the store oracles fires;
* times are nanoseconds since the Unix epoch; what the code uses of package `time` is a
  parameter (`Clock`);
* the scale set changes behind the Provisioner (VMs appear, change power state): the VMs
  present at each of its listings are parameters of `provision`;
* a nil pointer the code dereferences is a run-time panic: the function returns `none`.
-/

namespace Scaler

/-! ## internal/vmss/types.go -/

/-- Go: `type VMStatus string`. -/
abbrev VMStatus := String

def VMStatusAvailable : VMStatus := "Available"
def VMStatusReserved : VMStatus := "Reserved"
def VMStatusUnavailable : VMStatus := "Unavailable"

/-- Go: `type VMPowerState string`; the zero value `""` stands for "no power status found". -/
abbrev VMPowerState := String

def PowerStateRunning : VMPowerState := "PowerState/running"
def PowerStateStopped : VMPowerState := "PowerState/stopped"
def PowerStateDeallocated : VMPowerState := "PowerState/deallocated"

/-- Go: `type VMInstance struct`. -/
structure VMInstance where
  VMID : String
  InstanceID : String
  PublicIP : String
  PrivateIP : String
  Status : VMStatus
  State : VMPowerState
deriving DecidableEq, Repr

/-- Go: `type VMRedisRecord struct` (all eleven JSON fields). -/
structure VMRedisRecord where
  VMID : String
  InstanceID : String
  PublicIP : String
  ClientIP : String
  SessionID : String
  Status : String
  CreatedAt : String
  UpdatedAt : String
  Region : String
  Used : Bool
  Warm : Bool
deriving DecidableEq, Repr

/-- Go: `type ListInstancesOptions struct`; only `VMPowerStates` is ever read. -/
structure ListInstancesOptions where
  VMPowerStates : List VMPowerState := []
deriving DecidableEq, Repr

/-- Go: `type VMMetrics struct`; `Duration` in nanoseconds.  A composite literal leaves the
fields it does not name at their zero value. -/
structure VMMetrics where
  Operation : String := ""
  Duration : Int := 0
  Success : Bool := false
  ErrorMessage : String := ""
  ResourceID : String := ""
  Region : String := ""
deriving DecidableEq, Repr

/-! ## The scheduling skeleton: `Service.run` (identical in all five loops) -/

/-- What can happen to one `run()` loop.
* `tick`: the outer `select` takes `case <-ticker.C`;
* `workReturns ok`: the dispatched goroutine's work function returns (`ok = true` when
  `err == nil`) and the goroutine executes `done <- true`;
* `stop`: the outer `select` takes `case <-s.ctx.Done()` and `run` returns. -/
inductive Event where
  | tick
  | workReturns (ok : Bool)
  | stop
deriving DecidableEq, Repr

/-- State of one `run()` loop. `done` is the number of tokens buffered in the channel
`done` (capacity 1), `inFlight` the number of dispatched goroutines that have not yet put
their token back.  The three counters are ghost state recording what was logged. -/
structure LoopState where
  done : Nat
  inFlight : Nat
  returned : Bool
  dispatched : Nat
  dropped : Nat
  errorsLogged : Nat
deriving DecidableEq, Repr

/-- State after `done := make(chan bool, 1); done <- true`. -/
def LoopState.init : LoopState :=
  { done := 1, inFlight := 0, returned := false, dispatched := 0, dropped := 0,
    errorsLogged := 0 }

/-- One step of `run`.
* `tick`: the inner `select` receives from `done` when a token is buffered and starts the
  goroutine, otherwise takes `default` and logs "Operation still running ...".
* `workReturns ok`: needs a goroutine in flight; the error (if any) is logged and the send
  `done <- true` completes when the buffer has room (a send on a full buffer would block,
  which leaves the state as it is).
* `stop`: `run` returns; goroutines already dispatched keep running. -/
def step (s : LoopState) : Event → LoopState
  | .tick =>
    if s.returned then s
    else if 0 < s.done then
      { s with done := s.done - 1, inFlight := s.inFlight + 1, dispatched := s.dispatched + 1 }
    else { s with dropped := s.dropped + 1 }
  | .workReturns ok =>
    if s.inFlight = 0 then s
    else if s.done < 1 then
      { s with done := s.done + 1, inFlight := s.inFlight - 1,
               errorsLogged := if ok then s.errorsLogged else s.errorsLogged + 1 }
    else s
  | .stop => { s with returned := true }

/-- The loop state after a sequence of events, starting from `LoopState.init`. -/
def run (es : List Event) : LoopState :=
  es.foldl step LoopState.init

/-! ## pkg/redis/client.go: the state store -/

/-- The three status index sets `VMStatusAvailableSet`, `VMStatusReservedSet`,
`VMStatusUnavailableSet`. -/
inductive StatusSet where
  | available
  | reserved
  | unavailable
deriving DecidableEq, Repr

/-- The Redis key of a status set (the Go constants). -/
def StatusSet.key : StatusSet → String
  | .available => "vmss:status:available"
  | .reserved => "vmss:status:reserved"
  | .unavailable => "vmss:status:unavailable"

/-- A string value of the store, as `encoding/json` sees it: either a text that
`json.Unmarshal` decodes into a `VMRedisRecord` (`json r`; `json.Marshal r` produces such a
text), or a text it rejects (`raw s`). -/
inductive Blob where
  | json (r : VMRedisRecord)
  | raw (s : String)
deriving DecidableEq, Repr

/-- Go: `json.Marshal(record)`; it cannot fail on a struct of strings and booleans. -/
def marshal (r : VMRedisRecord) : Blob := .json r

/-- Go: `json.Unmarshal([]byte(data), &record)` into a fresh record; `none` is an error. -/
def unmarshal : Blob → Option VMRedisRecord
  | .json r => some r
  | .raw _ => none

/-- The state store: string keys with their values, and the three status sets.  A list
stands for the set of its elements (a repetition does not count); a set that does not exist
in Redis is the empty list. -/
structure Store where
  kv : List (String × Blob)
  available : List String
  reserved : List String
  unavailable : List String
deriving DecidableEq, Repr

/-- The list that stands for a status set. -/
def Store.members (st : Store) : StatusSet → List String
  | .available => st.available
  | .reserved => st.reserved
  | .unavailable => st.unavailable

/-- Redis `SMEMBERS set`: the members, each once, in the order Redis hands them out. -/
def Store.SMembers (st : Store) (s : StatusSet) : List String :=
  (st.members s).dedup

def Store.setMembers (st : Store) (s : StatusSet) (l : List String) : Store :=
  match s with
  | .available => { st with available := l }
  | .reserved => { st with reserved := l }
  | .unavailable => { st with unavailable := l }

/-- Redis `GET key` on a store that answers: `none` is `redis.Nil` (no such key). -/
def Store.get (st : Store) (key : String) : Option Blob :=
  (st.kv.find? (fun p => p.1 = key)).map Prod.snd

/-- Redis `SET key value`. -/
def Store.set (st : Store) (key : String) (value : Blob) : Store :=
  { st with kv := (key, value) :: st.kv.filter (fun p => p.1 ≠ key) }

/-- Redis `DEL key`. -/
def Store.del (st : Store) (key : String) : Store :=
  { st with kv := st.kv.filter (fun p => p.1 ≠ key) }

/-- Redis `SADD set member`. -/
def Store.sadd (st : Store) (s : StatusSet) (member : String) : Store :=
  if member ∈ st.members s then st else st.setMembers s (st.members s ++ [member])

/-- Redis `SREM set member`. -/
def Store.srem (st : Store) (s : StatusSet) (member : String) : Store :=
  st.setMembers s ((st.members s).filter (fun m => m ≠ member))

/-- Redis `KEYS pfx*`: every string key that starts with `pfx`. -/
def Store.Keys (st : Store) (pfx : String) : List String :=
  (st.kv.map Prod.fst).filter (fun k => pfx.data.isPrefixOf k.data)

/-- Redis `SPOP set count`: removes and returns up to `count` members, each once; which
ones is Redis's choice, here the first in the order of the list. -/
def Store.SPop (st : Store) (s : StatusSet) (count : Nat) : List String × Store :=
  ((st.SMembers s).take count,
   st.setMembers s ((st.members s).filter (fun m => m ∉ (st.SMembers s).take count)))

/-- A command queued on a `Pipeline`. -/
inductive Cmd where
  | set (key : String) (value : Blob)
  | sadd (s : StatusSet) (member : String)
  | srem (s : StatusSet) (member : String)
  | del (key : String)
deriving DecidableEq, Repr

def Store.apply (st : Store) : Cmd → Store
  | .set key value => st.set key value
  | .sadd s member => st.sadd s member
  | .srem s member => st.srem s member
  | .del key => st.del key

/-- How a `Pipeline.Exec` goes wrong: `none` is success (every queued command is applied, in
order); `some mask` is an error return, where the commands whose mask bit is set were
nevertheless applied by the server (a pipeline is no transaction). -/
abbrev ExecFault := Option (List Bool)

/-- Go: `pipe.Exec(ctx)`; returns the store afterwards and whether `err == nil`. -/
def Store.Exec (st : Store) (fault : ExecFault) (cmds : List Cmd) : Store × Bool :=
  match fault with
  | none => (cmds.foldl Store.apply st, true)
  | some mask =>
    ((cmds.zip mask).foldl (fun acc p => if p.2 then acc.apply p.1 else acc) st, false)

/-! ## Record keys -/

/-- Go: `fmt.Sprintf("vmss:instance:%s", vmID)`. -/
def instanceKey (vmID : String) : String := "vmss:instance:" ++ vmID

/-- The white space of package `fmt`'s scanner (`isSpace` in `fmt/scan.go`). -/
def isSpace (c : Char) : Bool :=
  let n := c.toNat
  (0x0009 ≤ n && n ≤ 0x000d) || n == 0x0020 || n == 0x0085 || n == 0x00a0 || n == 0x1680 ||
  (0x2000 ≤ n && n ≤ 0x200a) || n == 0x2028 || n == 0x2029 || n == 0x202f || n == 0x205f ||
  n == 0x3000

/-- The scanner's `SkipSpace` in `Sscanf` mode: skips white space, and a newline is the error
"unexpected newline" (`none`). -/
def skipSpace : List Char → Option (List Char)
  | [] => some []
  | c :: cs =>
    if c = '\n' then none
    else if isSpace c then skipSpace cs
    else some (c :: cs)

/-- The verb `%s`: skip white space, fail at end of input, else read the next run of
non-space characters. -/
def scanString (input : List Char) : Option String :=
  match skipSpace input with
  | none => none
  | some [] => none
  | some (c :: cs) => some (String.mk ((c :: cs).takeWhile (fun x => !isSpace x)))

/-- Go: `fmt.Sscanf(key, "vmss:instance:%s", &vmID)`; `none` when it returns an error.  The
literal part of the format must match the input exactly; input left over after the verb is
ignored. -/
def sscanfVMID (key : String) : Option String :=
  if "vmss:instance:".data.isPrefixOf key.data then
    scanString (key.data.drop "vmss:instance:".data.length)
  else none

/-! ## pkg/config/config.go and the clock -/

/-- Go: `type ScalerConfig struct`. -/
structure ScalerConfig where
  PoolCapacity : Int
  JobInterval : Int
  JobTimeout : Int
  VMRuntime : Int
  JobDelay : Int
  GeoName : String
  WarmPoolSize : Int
  WarmPoolEnabled : Bool
deriving DecidableEq, Repr

/-- What the loops use of package `time`.  Instants are nanoseconds since the Unix epoch.
* `now key`: the reading of `time.Now()` while the record `key` is being processed;
* `format t`: `t.UTC().Format(time.RFC3339)`;
* `parse s`: `time.Parse(time.RFC3339, s)`, `none` when it returns an error. -/
structure Clock where
  now : String → Int
  format : Int → String
  parse : String → Option Int

/-! ## internal/vmss/provider.go -/

/-- Go: the power-state filter of `AzureVMSSProvider.ListInstances` over the scale set's VMs
(`cloud` is what the unfiltered listing yields). -/
def ListInstances (cloud : List VMInstance) (opts : ListInstancesOptions) : List VMInstance :=
  cloud.filter (fun inst =>
    if 0 < opts.VMPowerStates.length then
      opts.VMPowerStates.any (fun state => inst.State = state)
    else true)

/-! ## internal/scaling/reconciler/service.go -/

/-- Go: `var statusSets`. -/
def statusSets : List StatusSet := [.available, .reserved, .unavailable]

/-- Which external calls of one `reconcile()` fail. -/
structure ReconcilerFaults where
  listAll : Bool
  keys : Bool
  execOrphans : ExecFault
  keysAgain : Bool
  listInactive : Bool
  execNew : ExecFault

/-- No call to the state store fails. -/
def ReconcilerFaults.storeOk (f : ReconcilerFaults) : Prop :=
  f.keys = false ∧ f.execOrphans = none ∧ f.keysAgain = false ∧ f.execNew = none

/-- The loop "Queue all deletions": the commands queued on the pipeline and `orphanedKeys`.
`allInstancesMap` is given by its key set. -/
def queueOrphans (allInstancesMap : List String) : List String → List Cmd × List String
  | [] => ([], [])
  | key :: rest =>
    let (cmds, orphanedKeys) := queueOrphans allInstancesMap rest
    match sscanfVMID key with
    | none => (cmds, orphanedKeys)
    | some vmID =>
      if vmID ∈ allInstancesMap then (cmds, orphanedKeys)
      else (Cmd.del key :: statusSets.map (fun set => Cmd.srem set key) ++ cmds,
            key :: orphanedKeys)

/-- The record built for an inactive instance without a key. -/
def newRecord (clock : Clock) (cfg : ScalerConfig) (inst : VMInstance) : VMRedisRecord :=
  { VMID := inst.VMID
    InstanceID := inst.InstanceID
    PublicIP := inst.PublicIP
    ClientIP := ""
    SessionID := ""
    Status := VMStatusAvailable
    CreatedAt := clock.format (clock.now (instanceKey inst.VMID))
    UpdatedAt := ""
    Region := cfg.GeoName
    Used := false
    Warm := inst.State = PowerStateStopped }

/-- The loop "Create new records only for stopped/deallocated instances": the commands
queued on the second pipeline and `newRecords`.  `redisMap` is given by its key set. -/
def queueNewRecords (clock : Clock) (cfg : ScalerConfig) (redisMap : List String) :
    List VMInstance → List Cmd × List String
  | [] => ([], [])
  | inst :: rest =>
    let (cmds, newRecords) := queueNewRecords clock cfg redisMap rest
    if instanceKey inst.VMID ∈ redisMap then (cmds, newRecords)
    else (Cmd.set (instanceKey inst.VMID) (marshal (newRecord clock cfg inst)) ::
            Cmd.sadd .available (instanceKey inst.VMID) :: cmds,
          inst.VMID :: newRecords)

/-- Go: `Service.reconcile`.  Returns the store afterwards and the error, if any. -/
def reconcile (f : ReconcilerFaults) (clock : Clock) (cfg : ScalerConfig)
    (cloud : List VMInstance) (st : Store) : Store × Option String :=
  if f.listAll then (st, some "failed to list all VMSS instances") else
  let allInstances := ListInstances cloud {}
  let allInstancesMap := allInstances.map (fun inst => inst.VMID)
  if f.keys then (st, some "failed to get Redis records") else
  let redisRecords := st.Keys "vmss:instance:"
  let (cmds, orphanedKeys) := queueOrphans allInstancesMap redisRecords
  let afterOrphans : Store × Option String × List String :=
    if 0 < orphanedKeys.length then
      let (st1, ok) := st.Exec f.execOrphans cmds
      if !ok then (st1, some "failed to remove orphaned records", redisRecords)
      else if f.keysAgain then
        (st1, some "failed to refresh Redis records after orphan deletion", redisRecords)
      else (st1, none, st1.Keys "vmss:instance:")
    else (st, none, redisRecords)
  match afterOrphans with
  | (st1, some e, _) => (st1, some e)
  | (st1, none, redisRecords) =>
    if f.listInactive then (st1, some "failed to list inactive VMSS instances") else
    let stoppedInstances :=
      ListInstances cloud { VMPowerStates := [PowerStateStopped, PowerStateDeallocated] }
    let (cmds2, newRecords) := queueNewRecords clock cfg redisRecords stoppedInstances
    if 0 < newRecords.length then
      let (st2, ok) := st1.Exec f.execNew cmds2
      if !ok then (st2, some "failed to create new records") else (st2, none)
    else (st1, none)

/-- The command writes the string key `k`. -/
def Cmd.writes (k : String) : Cmd → Prop
  | .set key _ => key = k
  | .del key => key = k
  | _ => False

/-! ## The invariants of the data model (spec §3), as predicates on the two stores -/

/-- The status set a status field names. -/
def statusSetOf (status : String) : Option StatusSet :=
  if status = VMStatusAvailable then some .available
  else if status = VMStatusReserved then some .reserved
  else if status = VMStatusUnavailable then some .unavailable
  else none

/-- Invariant 1: the key of every record (every value that `GET` returns and that parses) is
in exactly the status set its status field names. -/
def invariant1 (st : Store) : Bool :=
  (st.kv.map Prod.fst).all (fun key =>
    match (st.get key).bind unmarshal with
    | none => true
    | some r =>
      statusSets.all (fun s => decide (key ∈ st.members s) == (statusSetOf r.Status == some s)))

/-- The three status sets are pairwise disjoint. -/
def disjointSets (st : Store) : Bool :=
  st.available.all (fun key => decide (key ∉ st.reserved) && decide (key ∉ st.unavailable)) &&
  st.reserved.all (fun key => decide (key ∉ st.unavailable))

/-- What the Reconciler establishes of invariant 2, by record key as it reads one: the
vmId scanned from a record key, when one can be scanned, is in the cloud inventory.  A key
that does not scan passes, and the `vmId` field of the record is not looked at. -/
def invariant2 (cloud : List VMInstance) (st : Store) : Bool :=
  (st.Keys "vmss:instance:").all (fun key =>
    match sscanfVMID key with
    | none => true
    | some vmID => decide (vmID ∈ cloud.map (fun inst => inst.VMID)))

/-- Invariant 3: every stopped or deallocated cloud VM has a record under its key. -/
def invariant3 (cloud : List VMInstance) (st : Store) : Bool :=
  cloud.all (fun vm =>
    if vm.State = PowerStateStopped ∨ vm.State = PowerStateDeallocated then
      (st.get (instanceKey vm.VMID)).isSome
    else true)

/-! ## What a work function does to the outside world, besides the state store -/

/-- An externally visible call of a work function, in program order:
* `exec cmds ok`: `pipe.Exec(ctx)` of the queued commands, `ok` when it returned no error;
* `startInstance id ok`, `stopInstance id ok` (deallocate), `deleteInstance id ok`: the
  calls of the scale-set provider;
* `telemetry metrics geoName`: `telemetry.TrackVMSSOperation(ctx, metrics, geoName)`;
* `listInstances opts ok`, `createInstances desiredCount ok`: the Provisioner's calls of the
  scale-set provider;
* `updatePathBasedRules instances ok`: the Provisioner's call of the gateway provider. -/
inductive Effect where
  | exec (cmds : List Cmd) (ok : Bool)
  | startInstance (instanceID : String) (ok : Bool)
  | stopInstance (instanceID : String) (ok : Bool)
  | deleteInstance (instanceID : String) (ok : Bool)
  | telemetry (metrics : VMMetrics) (geoName : String)
  | listInstances (opts : ListInstancesOptions) (ok : Bool)
  | createInstances (desiredCount : Int) (ok : Bool)
  | updatePathBasedRules (instances : List VMInstance) (ok : Bool)
deriving DecidableEq, Repr

/-! ## Package `time`: durations -/

/-- Go: `time.Second`, in nanoseconds. -/
def second : Int := 1000000000

/-- A Go `int64` product or sum: the mathematical value reduced into `[-2^63, 2^63)`. -/
def wrapInt64 (x : Int) : Int := (x + 2 ^ 63) % 2 ^ 64 - 2 ^ 63

/-- Go: `time.Since(t)`, that is `time.Now().Sub(t)`: the difference, saturated to the
largest and smallest `Duration`. -/
def since (now t : Int) : Int := max (-(2 ^ 63)) (min (2 ^ 63 - 1) (now - t))

/-! ## internal/scaling/cleaner/service.go -/

/-- Which external calls of one `clean()` fail: `SMEMBERS`, the `GET` of a key, the pipeline
of a key, the `DeleteInstance` of an instance id. -/
structure CleanerFaults where
  smembers : Bool
  get : String → Bool
  exec : String → ExecFault
  deleteInstance : String → Bool

/-- No call to the state store fails. -/
def CleanerFaults.storeOk (f : CleanerFaults) : Prop :=
  f.smembers = false ∧ (∀ key, f.get key = false) ∧ (∀ key, f.exec key = none)

/-- The decision `shouldCleanup` for a parsed record (lines 140-168 of the loop body); the
`continue` on an unparseable `UpdatedAt` and the `continue` below the threshold both leave
the record alone. -/
def shouldCleanup (clock : Clock) (cfg : ScalerConfig) (key : String) (record : VMRedisRecord) :
    Bool :=
  if record.Used then true
  else
    match clock.parse record.UpdatedAt with
    | none => false
    | some updatedAt =>
      decide (since (clock.now key) updatedAt ≥ wrapInt64 (cfg.VMRuntime * second))

/-- The body of the loop over the members of the unavailable set, for one member. -/
def cleanOne (f : CleanerFaults) (clock : Clock) (cfg : ScalerConfig) (st : Store)
    (key : String) : Store × List Effect :=
  if f.get key then (st, [])
  else
    match st.get key with
    | none => (st, [])
    | some instanceData =>
      match unmarshal instanceData with
      | none => (st, [])
      | some record =>
        if !shouldCleanup clock cfg key record then (st, [])
        else
          let cmds := [Cmd.srem .unavailable key, Cmd.del key]
          let (st1, ok) := st.Exec (f.exec key) cmds
          if !ok then (st1, [.exec cmds false])
          else if f.deleteInstance record.InstanceID then
            (st1, [.exec cmds true, .deleteInstance record.InstanceID false])
          else
            (st1, [.exec cmds true, .deleteInstance record.InstanceID true,
                   .telemetry { Operation := "clean", Success := true,
                                ResourceID := record.InstanceID } cfg.GeoName])

/-- The loop of a work function over its selected keys: the body runs on each key in turn,
on the store the previous keys left, and the effects accumulate in order. -/
def forEachKey (body : Store → String → Store × List Effect) :
    List String → Store → Store × List Effect
  | [], st => (st, [])
  | key :: rest, st =>
    let (st1, effects) := body st key
    let (st2, more) := forEachKey body rest st1
    (st2, effects ++ more)

/-- Go: `Service.clean`.  Returns the store afterwards, the effects and the error, if any. -/
def clean (f : CleanerFaults) (clock : Clock) (cfg : ScalerConfig) (st : Store) :
    Store × List Effect × Option String :=
  if f.smembers then (st, [], some "failed to get unavailable instances")
  else
    let selectedInstances := st.SMembers .unavailable
    if selectedInstances.length = 0 then (st, [], none)
    else
      let (st1, effects) := forEachKey (cleanOne f clock cfg) selectedInstances st
      (st1, effects, none)

/-- What the pass of `clean()` over one member `key` of the unavailable set may emit, `st`
being the store at the start of the tick: nothing (the member is skipped); or a failed
batch and nothing else; or the successful batch followed by the `DeleteInstance` of the
record's instance id, which failed; or the successful batch, the successful `DeleteInstance`
and then the `clean` telemetry event. -/
def CleanSegment (f : CleanerFaults) (cfg : ScalerConfig) (st : Store) (key : String)
    (seg : List Effect) : Prop :=
  seg = [] ∨
  (f.exec key ≠ none ∧ seg = [.exec [Cmd.srem .unavailable key, Cmd.del key] false]) ∨
  ∃ record, (st.get key).bind unmarshal = some record ∧ f.exec key = none ∧
    ((f.deleteInstance record.InstanceID = true ∧
        seg = [.exec [Cmd.srem .unavailable key, Cmd.del key] true,
               .deleteInstance record.InstanceID false]) ∨
     (f.deleteInstance record.InstanceID = false ∧
        seg = [.exec [Cmd.srem .unavailable key, Cmd.del key] true,
               .deleteInstance record.InstanceID true,
               .telemetry { Operation := "clean", Success := true,
                            ResourceID := record.InstanceID } cfg.GeoName]))

/-! ## pkg/appgw/provider.go -/

/-- Go: `type AppGWConfig struct`. -/
structure AppGWConfig where
  SubscriptionID : String
  ResourceGroup : String
  GWName : String
  PathMapName : String
deriving DecidableEq, Repr

/-- What the diff reads and writes of an `armnetwork.ApplicationGatewayPathRule`: its name,
its paths, and the ids of its backend address pool and backend HTTP settings. -/
structure PathRule where
  Name : String
  Paths : List String
  BackendAddressPool : String
  BackendHTTPSettings : String
deriving DecidableEq, Repr

/-- An `armnetwork.ApplicationGatewayURLPathMap`: its name and its path rules. -/
structure URLPathMap where
  Name : String
  PathRules : List PathRule
deriving DecidableEq, Repr

/-- Go: `strings.TrimPrefix(s, "/")`. -/
def trimPrefixSlash (s : String) : String :=
  match s.data with
  | '/' :: rest => String.mk rest
  | _ => s

/-- Go: `strings.ReplaceAll(s, ".", "-")`. -/
def replaceDots (s : String) : String :=
  String.mk (s.data.map (fun c => if c = '.' then '-' else c))

/-- Go: `activeInstances[vmID] = inst` on a map kept as an association list. -/
def mapInsert (m : List (String × VMInstance)) (vmID : String) (inst : VMInstance) :
    List (String × VMInstance) :=
  m.filter (fun p => p.1 ≠ vmID) ++ [(vmID, inst)]

/-- Go: `delete(activeInstances, vmid)`. -/
def mapDelete (m : List (String × VMInstance)) (vmID : String) : List (String × VMInstance) :=
  m.filter (fun p => p.1 ≠ vmID)

/-- The map `activeInstances`: the instances with a private IP, by vmId (a later instance
with the same vmId replaces an earlier one). -/
def buildActive (instances : List VMInstance) : List (String × VMInstance) :=
  instances.foldl (fun m inst => if inst.PrivateIP ≠ "" then mapInsert m inst.VMID inst else m) []

/-- The vmId a rule stands for: its first path without the leading slash; `none` for a rule
without paths. -/
def ruleVMID (rule : PathRule) : Option String :=
  rule.Paths.head?.map trimPrefixSlash

/-- The loop "Filter out old rules": `validRules`, what is left of `activeInstances`,
`updateFlag` and `changes.removed`. -/
def filterRules :
    List (String × VMInstance) → List PathRule →
      List PathRule × List (String × VMInstance) × Bool × Nat
  | active, [] => ([], active, false, 0)
  | active, rule :: rest =>
    match rule.Paths with
    | [] => filterRules active rest
    | path :: _ =>
      let vmid := trimPrefixSlash path
      if vmid = "default" then
        let (validRules, active', updateFlag, removed) := filterRules active rest
        (rule :: validRules, active', updateFlag, removed)
      else if vmid ∈ active.map Prod.fst then
        let (validRules, active', updateFlag, removed) := filterRules (mapDelete active vmid) rest
        (rule :: validRules, active', updateFlag, removed)
      else
        let (validRules, active', _, removed) := filterRules active rest
        (validRules, active', true, removed + 1)

/-- The rule synthesized for a new instance. -/
def newRule (cfg : AppGWConfig) (vmid : String) (inst : VMInstance) : PathRule :=
  { Name := "instance" ++ inst.InstanceID
    Paths := ["/" ++ vmid]
    BackendAddressPool :=
      "/subscriptions/" ++ cfg.SubscriptionID ++ "/resourceGroups/" ++ cfg.ResourceGroup ++
        "/providers/Microsoft.Network/applicationGateways/" ++ cfg.GWName ++
        "/backendAddressPools/" ++ replaceDots inst.PrivateIP
    BackendHTTPSettings :=
      "/subscriptions/" ++ cfg.SubscriptionID ++ "/resourceGroups/" ++ cfg.ResourceGroup ++
        "/providers/Microsoft.Network/applicationGateways/" ++ cfg.GWName ++
        "/backendHttpSettingsCollection/wss" }

/-- Which external calls of one `UpdatePathBasedRules` fail. -/
structure AppGWFaults where
  get : Bool
  createOrUpdate : Bool

/-- What one `UpdatePathBasedRules` did: the gateway's path maps afterwards, the rule list
it computed, whether it called `BeginCreateOrUpdate`, the two change counters, the error. -/
structure UpdateOutcome where
  gateway : List URLPathMap
  validRules : List PathRule
  published : Bool
  added : Nat
  removed : Nat
  err : Option String
deriving DecidableEq, Repr

/-- The gateway with the rules of its first path map named `name` replaced (the assignment
`pathMap.Properties.PathRules = validRules` through the pointer found by the lookup). -/
def setPathRules (name : String) (rules : List PathRule) : List URLPathMap → List URLPathMap
  | [] => []
  | pm :: rest =>
    if pm.Name = name then { pm with PathRules := rules } :: rest
    else pm :: setPathRules name rules rest

/-- Go: `AzureAppGWProvider.UpdatePathBasedRules`.  `range` is the order in which the Go
runtime ranges over the map of new instances (any permutation).  The gateway is given by
its URL path maps; a successful `BeginCreateOrUpdate` makes the updated definition the
gateway's. -/
def UpdatePathBasedRules (f : AppGWFaults) (cfg : AppGWConfig)
    (range : List (String × VMInstance) → List (String × VMInstance))
    (gateway : List URLPathMap) (instances : List VMInstance) : UpdateOutcome :=
  if f.get then
    { gateway := gateway, validRules := [], published := false, added := 0, removed := 0,
      err := some "failed to get app gateway" }
  else
    match gateway.find? (fun pm => pm.Name = cfg.PathMapName) with
    | none =>
      { gateway := gateway, validRules := [], published := false, added := 0, removed := 0,
        err := some "URL path map not found" }
    | some pathMap =>
      let activeInstances := buildActive instances
      let (kept, remaining, flag, removed) := filterRules activeInstances pathMap.PathRules
      let updateFlag := if 0 < remaining.length then true else flag
      let added := if 0 < remaining.length then remaining.length else 0
      let validRules :=
        if 0 < remaining.length then
          kept ++ (range remaining).map (fun p => newRule cfg p.1 p.2)
        else kept
      if updateFlag then
        if f.createOrUpdate then
          { gateway := gateway, validRules := validRules, published := true, added := added,
            removed := removed, err := some "failed to update application gateway" }
        else
          { gateway := setPathRules cfg.PathMapName validRules gateway,
            validRules := validRules, published := true, added := added, removed := removed,
            err := none }
      else
        { gateway := gateway, validRules := validRules, published := false, added := added,
          removed := removed, err := none }

/-- The vmIds of the rules that have a path other than the default path, in order. -/
def vmRuleKeys (rules : List PathRule) : List String :=
  rules.filterMap (fun rule =>
    match ruleVMID rule with
    | none => none
    | some vmid => if vmid = "default" then none else some vmid)

/-! ## internal/scaling/starter/service.go -/

/-- Which external calls of one `start()` fail: the `SPOP`, the `GET` of a key, the pipeline
of a key, the `StartInstance` of an instance id. -/
structure StarterFaults where
  spop : Bool
  get : String → Bool
  exec : String → ExecFault
  startInstance : String → Bool

/-- No call to the state store fails. -/
def StarterFaults.storeOk (f : StarterFaults) : Prop :=
  f.spop = false ∧ (∀ key, f.get key = false) ∧ (∀ key, f.exec key = none)

/-- The body of the loop over the popped keys, for one key. -/
def startOne (f : StarterFaults) (clock : Clock) (cfg : ScalerConfig) (st : Store)
    (key : String) : Store × List Effect :=
  if f.get key then (st, [])
  else
    match st.get key with
    | none => (st, [])
    | some instanceData =>
      match unmarshal instanceData with
      | none => (st, [])
      | some parsed =>
        let record :=
          { parsed with Status := VMStatusUnavailable,
                        UpdatedAt := clock.format (clock.now key) }
        let cmds := [Cmd.set key (marshal record), Cmd.sadd .unavailable key]
        let (st1, ok) := st.Exec (f.exec key) cmds
        if !ok then (st1, [.exec cmds false])
        else if f.startInstance record.InstanceID then
          (st1, [.exec cmds true, .startInstance record.InstanceID false])
        else
          (st1, [.exec cmds true, .startInstance record.InstanceID true,
                 .telemetry { Operation := "start", Success := true,
                              ResourceID := record.InstanceID } cfg.GeoName])

/-- Go: `Service.start`.  Returns the store afterwards, the effects and the error, if any.
A failed `SPOP` is taken to have popped nothing. -/
def start (f : StarterFaults) (clock : Clock) (cfg : ScalerConfig) (st : Store) :
    Store × List Effect × Option String :=
  if f.spop then (st, [], some "failed to get reserved instances")
  else
    let (selectedInstances, st0) := st.SPop .reserved 100
    if selectedInstances.length = 0 then (st0, [], none)
    else
      let (st1, effects) := forEachKey (startOne f clock cfg) selectedInstances st0
      (st1, effects, none)

/-! ## internal/scaling/simulator/service.go -/

/-- Go: `s.schedule`, the `recordsToUpdate` of the six steps set up by `NewService`. -/
def schedule : List Nat := [1, 0, 2, 1, 0, 2]

/-- Which external calls of one `simulate()` fail. -/
structure SimulatorFaults where
  spop : Bool
  get : String → Bool
  exec : String → ExecFault

/-- No call to the state store fails. -/
def SimulatorFaults.storeOk (f : SimulatorFaults) : Prop :=
  f.spop = false ∧ (∀ key, f.get key = false) ∧ (∀ key, f.exec key = none)

/-- The body of the loop over the popped keys, for one key. -/
def simulateOne (f : SimulatorFaults) (clock : Clock) (st : Store) (key : String) :
    Store × List Effect :=
  if f.get key then (st, [])
  else
    match st.get key with
    | none => (st, [])
    | some instanceData =>
      match unmarshal instanceData with
      | none => (st, [])
      | some parsed =>
        let record :=
          { parsed with Status := VMStatusReserved,
                        UpdatedAt := clock.format (clock.now key) }
        let cmds := [Cmd.set key (marshal record), Cmd.sadd .reserved key]
        let (st1, ok) := st.Exec (f.exec key) cmds
        if !ok then (st1, [.exec cmds false]) else (st1, [.exec cmds true])

/-- What one `simulate()` leaves behind: the step index, the store, the effects, the
error. -/
structure SimulateOutcome where
  currentStep : Nat
  store : Store
  effects : List Effect
  err : Option String
deriving DecidableEq, Repr

/-- Go: `Service.simulate`, from the step index `currentStep`.  `none` is the run-time panic
of `s.schedule[s.currentStep]` on an index out of range.  A failed `SPOP` is taken to have
popped nothing. -/
def simulate (f : SimulatorFaults) (clock : Clock) (currentStep : Nat) (st : Store) :
    Option SimulateOutcome :=
  match schedule[currentStep]? with
  | none => none
  | some recordsToUpdate =>
    if f.spop then
      some { currentStep := currentStep, store := st, effects := [],
             err := some "failed to pop available instances" }
    else
      let (selectedInstances, st0) := st.SPop .available recordsToUpdate
      if selectedInstances.length = 0 then
        some { currentStep := (currentStep + 1) % schedule.length, store := st0, effects := [],
               err := none }
      else
        let (st1, effects) := forEachKey (simulateOne f clock) selectedInstances st0
        some { currentStep := (currentStep + 1) % schedule.length, store := st1,
               effects := effects, err := none }

/-- The store after the body of the Starter's or the Simulator's loop ran on `key` with no
store call failing: a record that loads and parses is rewritten with the new status and
`updatedAt`, and its key is added to the target set. -/
def transitionStore (status : String) (target : StatusSet) (clock : Clock) (st : Store)
    (key : String) : Store :=
  match (st.get key).bind unmarshal with
  | none => st
  | some parsed =>
    (st.set key (marshal { parsed with Status := status,
                                       UpdatedAt := clock.format (clock.now key) })).sadd
      target key

/-! ## internal/vmss/provider.go: `CreateInstances` -/

/-- What `CreateInstances` reads and writes of an `armcompute.SKU`; `none` is a nil
pointer. -/
structure SKU where
  Name : Option String
  Tier : Option String
  Capacity : Option Int
deriving DecidableEq, Repr

/-- What `CreateInstances` reads of the `armcompute.VirtualMachineScaleSet` that
`vmssClient.Get` returns; `none` is a nil pointer. -/
structure ScaleSet where
  SKU : Option SKU
deriving DecidableEq, Repr

/-- Which calls of one `CreateInstances` fail.  `BeginUpdate` and `PollUntilDone` together
are the long-running update; when one of them returns an error, `applied` tells whether the
scale set took the new SKU all the same. -/
structure CreateFaults where
  get : Bool
  beginUpdate : Bool
  pollUntilDone : Bool
  applied : Bool
deriving DecidableEq, Repr

/-- What one `CreateInstances` did: the scale set afterwards, the SKU of the update handed
to `BeginUpdate` (when it was called), the error. -/
structure CreateOutcome where
  vmss : ScaleSet
  update : Option SKU
  err : Option String
deriving DecidableEq, Repr

/-- The local `currentCount` of `CreateInstances`: the capacity, or 0 when the SKU or its
capacity is nil. -/
def currentCount (vmss : ScaleSet) : Int :=
  match vmss.SKU with
  | none => 0
  | some sku =>
    match sku.Capacity with
    | none => 0
    | some capacity => capacity

/-- Go: `AzureVMSSProvider.CreateInstances`.  `none` is the run-time panic of
`vmss.SKU.Name` on a nil SKU. -/
def CreateInstances (f : CreateFaults) (vmss : ScaleSet) (desiredCount : Int) :
    Option CreateOutcome :=
  if f.get then
    some { vmss := vmss, update := none, err := some "failed to get current VMSS" }
  else if currentCount vmss ≥ desiredCount then
    some { vmss := vmss, update := none, err := none }
  else
    match vmss.SKU with
    | none => none
    | some sku =>
      let update : SKU := { Name := sku.Name, Tier := sku.Tier, Capacity := some desiredCount }
      if f.beginUpdate then
        some { vmss := if f.applied then { vmss with SKU := some update } else vmss,
               update := some update, err := some "failed to begin update" }
      else if f.pollUntilDone then
        some { vmss := if f.applied then { vmss with SKU := some update } else vmss,
               update := some update, err := some "failed to scale VMSS" }
      else
        some { vmss := { vmss with SKU := some update }, update := some update, err := none }

/-! ## pkg/appconfig/provider.go -/

/-- Go: `type ScalerPoolConfig struct`. -/
structure ScalerPoolConfig where
  PoolCapacity : Int
  WarmPoolSize : Int
  WarmPoolEnabled : Bool
deriving DecidableEq, Repr

/-- What an `AzureAppConfigProvider` consumes of the outside:
* `GetSetting key`: `client.GetSetting(ctx, key, nil)`; `none` when it returns an error,
  else the `Value` of the response (`none` for nil);
* `scanInt s`: `fmt.Sscanf(s, "%d", &n)`, `none` when it returns an error;
* `scanBool s`: `fmt.Sscanf(s, "%t", &b)`, `none` when it returns an error. -/
structure AppConfigProvider where
  GetSetting : String → Option (Option String)
  scanInt : String → Option Int
  scanBool : String → Option Bool

/-- Go: `AzureAppConfigProvider.GetConfiguration`. -/
def GetConfiguration (p : AppConfigProvider) (key : String) : Except String String :=
  match p.GetSetting key with
  | none => .error ("failed to get configuration for key " ++ key)
  | some none => .error ("configuration value not found for key " ++ key)
  | some (some value) => .ok value

/-- Go: `AzureAppConfigProvider.ParseConfiguration`. -/
def ParseConfiguration (p : AppConfigProvider) : Except String ScalerPoolConfig :=
  match GetConfiguration p "SCALER_POOL_CAPACITY" with
  | .error _ => .error "failed to get pool capacity"
  | .ok poolCapStr =>
    match p.scanInt poolCapStr with
    | none => .error ("invalid pool capacity value: " ++ poolCapStr)
    | some poolCapacity =>
      match GetConfiguration p "SCALER_WARMPOOL_SIZE" with
      | .error _ => .error "failed to get warm pool size"
      | .ok warmPoolStr =>
        match p.scanInt warmPoolStr with
        | none => .error ("invalid warm pool size value: " ++ warmPoolStr)
        | some warmPoolSize =>
          match GetConfiguration p "SCALER_WARMPOOL_ENABLED" with
          | .error _ => .error "failed to get warm pool enabled flag"
          | .ok enabledStr =>
            match p.scanBool enabledStr with
            | none => .error ("invalid warm pool enabled value: " ++ enabledStr)
            | some warmPoolEnabled =>
              .ok { PoolCapacity := poolCapacity, WarmPoolSize := warmPoolSize,
                    WarmPoolEnabled := warmPoolEnabled }

/-! ## `NewService` of the five loops -/

/-- The check of the three durations that opens every `NewService`: the error of the first
one that is not positive. -/
def validateJob (scalerConfig : ScalerConfig) : Option String :=
  if scalerConfig.JobInterval ≤ 0 then
    some ("invalid job interval: " ++ toString scalerConfig.JobInterval ++ ", must be positive")
  else if scalerConfig.JobTimeout ≤ 0 then
    some ("invalid job timeout: " ++ toString scalerConfig.JobTimeout ++ ", must be positive")
  else if scalerConfig.JobDelay ≤ 0 then
    some ("invalid job delay: " ++ toString scalerConfig.JobDelay ++ ", must be positive")
  else none

/-- Go: `type Service struct` of package `reconciler`, without the context and the clients. -/
structure reconciler.Service where
  scalerConfig : ScalerConfig
deriving DecidableEq, Repr

/-- Go: `NewService` of package `reconciler`, on a non-nil configuration: the service (nil
is `none`) and the error. -/
def reconciler.NewService (scalerConfig : ScalerConfig) :
    Option reconciler.Service × Option String :=
  match validateJob scalerConfig with
  | some e => (none, some e)
  | none => (some { scalerConfig := scalerConfig }, none)

/-- Go: `type Service struct` of package `starter`, without the context and the clients. -/
structure starter.Service where
  scalerConfig : ScalerConfig
deriving DecidableEq, Repr

/-- Go: `NewService` of package `starter`. -/
def starter.NewService (scalerConfig : ScalerConfig) :
    Option starter.Service × Option String :=
  match validateJob scalerConfig with
  | some e => (none, some e)
  | none => (some { scalerConfig := scalerConfig }, none)

/-- Go: `type Service struct` of package `cleaner`, without the context and the clients. -/
structure cleaner.Service where
  scalerConfig : ScalerConfig
deriving DecidableEq, Repr

/-- Go: `NewService` of package `cleaner`. -/
def cleaner.NewService (scalerConfig : ScalerConfig) :
    Option cleaner.Service × Option String :=
  match validateJob scalerConfig with
  | some e => (none, some e)
  | none =>
    if scalerConfig.VMRuntime ≤ 0 then
      (none, some ("invalid VM runtime: " ++ toString scalerConfig.VMRuntime ++
        ", must be positive"))
    else (some { scalerConfig := scalerConfig }, none)

/-- Go: `type Service struct` of package `simulator`, without the context and the client. -/
structure simulator.Service where
  currentStep : Nat
  schedule : List Nat
  scalerConfig : ScalerConfig
deriving DecidableEq, Repr

/-- Go: `NewService` of package `simulator`. -/
def simulator.NewService (scalerConfig : ScalerConfig) :
    Option simulator.Service × Option String :=
  match validateJob scalerConfig with
  | some e => (none, some e)
  | none => (some { currentStep := 0, schedule := schedule, scalerConfig := scalerConfig }, none)

/-- Go: `type Service struct` of package `provisioner`, without the context and the
clients. -/
structure provisioner.Service where
  scalerConfig : ScalerConfig
  poolCapacity : Int
  warmPoolSize : Int
  warmPoolEnabled : Bool
deriving DecidableEq, Repr

/-- Go: `NewService` of package `provisioner`; `appConfigProvider = none` is the nil
interface. -/
def provisioner.NewService (scalerConfig : ScalerConfig)
    (appConfigProvider : Option AppConfigProvider) :
    Option provisioner.Service × Option String :=
  match validateJob scalerConfig with
  | some e => (none, some e)
  | none =>
    let static : provisioner.Service :=
      { scalerConfig := scalerConfig, poolCapacity := scalerConfig.PoolCapacity,
        warmPoolSize := scalerConfig.WarmPoolSize,
        warmPoolEnabled := scalerConfig.WarmPoolEnabled }
    match appConfigProvider with
    | none => (some static, none)
    | some p =>
      match ParseConfiguration p with
      | .ok config =>
        (some { static with poolCapacity := config.PoolCapacity,
                            warmPoolSize := config.WarmPoolSize,
                            warmPoolEnabled := config.WarmPoolEnabled }, none)
      | .error _ => (some static, none)

/-! ## internal/scaling/provisioner/service.go -/

/-- Which external calls of one `provision()` fail: the three listings, the calls inside
`CreateInstances` and `UpdatePathBasedRules`, the `StopInstance` of an instance id. -/
structure ProvisionerFaults where
  listBefore : Bool
  create : CreateFaults
  listAfter : Bool
  appgw : AppGWFaults
  listWarm : Bool
  stopInstance : String → Bool

/-- The loop "Identify newly provisioned instances"; `oldInstanceMap` is given by its key
set. -/
def identifyProvisioned (oldInstanceMap : List String) : List VMInstance → List String
  | [] => []
  | inst :: rest =>
    if inst.InstanceID ∈ oldInstanceMap then identifyProvisioned oldInstanceMap rest
    else inst.InstanceID :: identifyProvisioned oldInstanceMap rest

/-- The loop "Handle warm and cold instances", entered with the counter at `warmCount`: the
`StopInstance` calls it makes, in order, and the counter at the end. -/
def handleInstances (stopInstance : String → Bool) (effectiveWarmPoolSize : Int) :
    List String → Int → List Effect × Int
  | [], warmCount => ([], warmCount)
  | instanceID :: rest, warmCount =>
    if warmCount < effectiveWarmPoolSize then
      handleInstances stopInstance effectiveWarmPoolSize rest (warmCount + 1)
    else
      let (effects, final) := handleInstances stopInstance effectiveWarmPoolSize rest warmCount
      (.stopInstance instanceID (!stopInstance instanceID) :: effects, final)

/-- What one `provision()` leaves behind: the scale set, the gateway's path maps,
`provisionedInstances` (empty while not yet computed), the external calls in program order
(the deferred telemetry call last), the error. -/
structure ProvisionOutcome where
  vmss : ScaleSet
  gateway : List URLPathMap
  provisionedInstances : List String
  effects : List Effect
  err : Option String
deriving DecidableEq, Repr

/-- Go: `Service.provision`.  `started` and `finished` are the readings of the clock at
`start := time.Now()` and in the deferred function; `cloudBefore`, `cloudAfter` and
`cloudWarm` are the VMs of the scale set at the time of the three listings; `vmss` is the
scale set and `gateway` the gateway's path maps at the start.  `none` is the run-time panic
inside `CreateInstances`. -/
def provision (f : ProvisionerFaults) (s : provisioner.Service) (appgwConfig : AppGWConfig)
    (range : List (String × VMInstance) → List (String × VMInstance))
    (started finished : Int) (cloudBefore cloudAfter cloudWarm : List VMInstance)
    (vmss : ScaleSet) (gateway : List URLPathMap) : Option ProvisionOutcome :=
  let metrics : VMMetrics := { Operation := "provision", Success := true }
  let track (metrics : VMMetrics) : Effect :=
    .telemetry { metrics with Duration := since finished started } s.scalerConfig.GeoName
  if f.listBefore then
    some { vmss := vmss, gateway := gateway, provisionedInstances := [],
           effects := [.listInstances {} false, track metrics],
           err := some "failed to list instances before scaling" }
  else
    let oldInstances := ListInstances cloudBefore {}
    let oldInstanceMap := oldInstances.map (fun inst => inst.InstanceID)
    match CreateInstances f.create vmss s.poolCapacity with
    | none => none
    | some created =>
      match created.err with
      | some e =>
        some { vmss := created.vmss, gateway := gateway, provisionedInstances := [],
               effects := [.listInstances {} true, .createInstances s.poolCapacity false,
                           track { metrics with Success := false, ErrorMessage := e }],
               err := some e }
      | none =>
        if f.listAfter then
          some { vmss := created.vmss, gateway := gateway, provisionedInstances := [],
                 effects := [.listInstances {} true, .createInstances s.poolCapacity true,
                             .listInstances {} false, track metrics],
                 err := some "failed to list instances after scaling" }
        else
          let newInstances := ListInstances cloudAfter {}
          let updated := UpdatePathBasedRules f.appgw appgwConfig range gateway newInstances
          match updated.err with
          | some e =>
            some { vmss := created.vmss, gateway := updated.gateway, provisionedInstances := [],
                   effects := [.listInstances {} true, .createInstances s.poolCapacity true,
                               .listInstances {} true,
                               .updatePathBasedRules newInstances false,
                               track { metrics with Success := false, ErrorMessage := e }],
                   err := some e }
          | none =>
            let provisionedInstances := identifyProvisioned oldInstanceMap newInstances
            let calls : List Effect :=
              [.listInstances {} true, .createInstances s.poolCapacity true,
               .listInstances {} true, .updatePathBasedRules newInstances true]
            if f.listWarm then
              some { vmss := created.vmss, gateway := updated.gateway,
                     provisionedInstances := provisionedInstances,
                     effects := calls ++
                       [.listInstances { VMPowerStates := [PowerStateStopped] } false,
                        track metrics],
                     err := some "failed to list of warm instances" }
            else
              let warmInstances :=
                ListInstances cloudWarm { VMPowerStates := [PowerStateStopped] }
              let currentWarmPoolSize : Int := warmInstances.length
              let effectiveWarmPoolSize : Int :=
                if s.warmPoolEnabled ∧ s.warmPoolSize > 0 ∧ s.warmPoolSize ≤ s.poolCapacity then
                  s.warmPoolSize - currentWarmPoolSize
                else 0
              let (stops, _) :=
                handleInstances f.stopInstance effectiveWarmPoolSize provisionedInstances 0
              some { vmss := created.vmss, gateway := updated.gateway,
                     provisionedInstances := provisionedInstances,
                     effects := calls ++
                       [.listInstances { VMPowerStates := [PowerStateStopped] } true] ++
                       stops ++ [track metrics],
                     err := none }

/-- The spec's `effectiveWarm` (§4.2, step 7): `max(0, warmPoolSize − currentWarm)` when the
warm pool is enabled and `0 < warmPoolSize ≤ poolCapacity`, and 0 otherwise. -/
def specEffectiveWarm (s : provisioner.Service) (currentWarm : Nat) : Nat :=
  if s.warmPoolEnabled = true ∧ 0 < s.warmPoolSize ∧ s.warmPoolSize ≤ s.poolCapacity then
    (max 0 (s.warmPoolSize - (currentWarm : Int))).toNat
  else 0

/-- The instance ids of the `StopInstance` calls among the effects, in order. -/
def stopCalls (effects : List Effect) : List String :=
  effects.filterMap (fun effect =>
    match effect with
    | .stopInstance instanceID _ => some instanceID
    | _ => none)

/-- The spec's `provisioned` (§4.2, steps 1 and 5): `[v.instanceId for v in newList if
v.vmId ∉ oldSet]` with `oldSet` the vmIds of the snapshot taken before growth. -/
def specProvisioned (oldList newList : List VMInstance) : List String :=
  (newList.filter (fun v => v.VMID ∉ oldList.map (fun u => u.VMID))).map
    (fun v => v.InstanceID)

/-- The stores `st` and `st'` hold the same value under `key` and have `key` in the same
status sets. -/
def agreeAt (key : String) (st st' : Store) : Prop :=
  st'.get key = st.get key ∧ ∀ s, key ∈ st'.members s ↔ key ∈ st.members s

/-! ## pkg/monitoring/telemetry.go -/

/-- What `TrackVMSSOperation` sets of an `appinsights.EventTelemetry`: its name and its
properties, a Go map kept as an association list in the order of the assignments. -/
structure EventTelemetry where
  Name : String
  Properties : List (String × String)
deriving DecidableEq, Repr

/-- Go: `Monitor.TrackVMSSOperation`: the event it hands to `client.Track`.  `operationID` is
the fresh `uuid.New().String()`; `wholeSeconds d` is `int(d.Seconds())`, a float64
computation that is kept as a parameter. -/
def TrackVMSSOperation (operationID : String) (wholeSeconds : Int → Int) (metrics : VMMetrics)
    (geoName : String) : EventTelemetry :=
  { Name := "VMSSOperation"
    Properties :=
      [("operationId", operationID),
       ("operation", metrics.Operation),
       ("resourceId", metrics.ResourceID),
       ("region", geoName),
       ("duration", toString (wholeSeconds metrics.Duration))] }

/-- The Simulator's step index after a run of ticks, from the step index `currentStep`.  Each
tick has its own failures and clock and runs on the store as it is at that time (other
processes change the store between ticks); `none` when a tick panics. -/
def simulateTicks : List (SimulatorFaults × Clock × Store) → Nat → Option Nat
  | [], currentStep => some currentStep
  | (f, clock, st) :: rest, currentStep =>
    match simulate f clock currentStep st with
    | none => none
    | some out => simulateTicks rest out.currentStep

/-- The store after the body of the Starter's or the Simulator's loop ran on `key`, with the
failures of its `GET` and of its batch: nothing changes when the `GET` fails or the value
does not load or parse; otherwise the batch (record write, add to the target set) runs. -/
def rewriteStore (getFails : String → Bool) (exec : String → ExecFault) (status : String)
    (target : StatusSet) (clock : Clock) (st : Store) (key : String) : Store :=
  if getFails key then st
  else
    match (st.get key).bind unmarshal with
    | none => st
    | some parsed =>
      (st.Exec (exec key)
        [Cmd.set key (marshal { parsed with Status := status,
                                            UpdatedAt := clock.format (clock.now key) }),
         Cmd.sadd target key]).1


/-- The nine fields of a record other than `status` and `updatedAt`: `vmId`, `instanceId`,
`publicIp`, `clientIp`, `sessionId`, `createdAt`, `region`, `used`, `warm`. -/
def otherFields (r : VMRedisRecord) :
    String × String × String × String × String × String × String × Bool × Bool :=
  (r.VMID, r.InstanceID, r.PublicIP, r.ClientIP, r.SessionID, r.CreatedAt, r.Region, r.Used,
    r.Warm)

/-! ## Concrete inputs used by the witnesses and counterexamples -/

/-- A clock that reads 1000 s after the epoch everywhere and whose text form of an instant
is its number of whole seconds since the epoch, in decimal (standing in for RFC 3339
text). -/
def testClock : Clock :=
  { now := fun _ => 1000000000000
    format := fun t => Nat.repr (t / 1000000000).toNat
    parse := fun s =>
      if s.data = [] then none
      else (s.data.foldl (fun acc c => acc.bind (fun n =>
        if c.isDigit then some (10 * n + (c.toNat - 48)) else none)) (some 0)).map
          (fun n => (n : Int) * 1000000000) }

/-- The default configuration of `LoadScalerConfig`, in region `"westeurope"`. -/
def testConfig : ScalerConfig :=
  { PoolCapacity := 4, JobInterval := 60, JobTimeout := 180, VMRuntime := 360, JobDelay := 10,
    GeoName := "westeurope", WarmPoolSize := 0, WarmPoolEnabled := false }

def testInstance (vmID instanceID : String) (state : VMPowerState) : VMInstance :=
  { VMID := vmID, InstanceID := instanceID, PublicIP := "0.0.0.0", PrivateIP := "",
    Status := VMStatusAvailable, State := state }

def testRecord (vmID instanceID status updatedAt : String) (used : Bool) : VMRedisRecord :=
  { VMID := vmID, InstanceID := instanceID, PublicIP := "0.0.0.0", ClientIP := "",
    SessionID := "", Status := status, CreatedAt := "900", UpdatedAt := updatedAt,
    Region := "westeurope", Used := used, Warm := false }

def emptyStore : Store := { kv := [], available := [], reserved := [], unavailable := [] }

def noReconcilerFaults : ReconcilerFaults :=
  { listAll := false, keys := false, execOrphans := none, keysAgain := false,
    listInactive := false, execNew := none }

/-- Scenario S2: three stopped VMs, empty state store. -/
def cloudS2 : List VMInstance :=
  [testInstance "A" "0" PowerStateStopped, testInstance "B" "1" PowerStateStopped,
   testInstance "C" "2" PowerStateStopped]

/-- Scenario S3: a record for `X` in the reserved set, and no VM `X` in the cloud. -/
def storeS3 : Store :=
  { kv := [("vmss:instance:X", marshal (testRecord "X" "7" VMStatusReserved "" false))],
    available := [], reserved := ["vmss:instance:X"], unavailable := [] }

/-- A running VM `A` whose record says `Available` while its key sits in the reserved
set. -/
def driftCloud : List VMInstance := [testInstance "A" "0" PowerStateRunning]

def driftStore : Store :=
  { kv := [("vmss:instance:A", marshal (testRecord "A" "0" VMStatusAvailable "" false))],
    available := [], reserved := ["vmss:instance:A"], unavailable := [] }

/-- A stopped VM whose vmId contains a blank, with a record under its key in the reserved
set. -/
def blankCloud : List VMInstance := [testInstance "X Y" "0" PowerStateStopped]

def blankStore : Store :=
  { kv := [("vmss:instance:X Y", marshal (testRecord "X Y" "0" VMStatusReserved "" false))],
    available := [], reserved := ["vmss:instance:X Y"], unavailable := [] }

def noCleanerFaults : CleanerFaults :=
  { smembers := false, get := fun _ => false, exec := fun _ => none,
    deleteInstance := fun _ => false }

/-- A Cleaner whose batch for `Y` fails and whose `DeleteInstance` of instance `3` fails. -/
def someCleanerFaults : CleanerFaults :=
  { smembers := false, get := fun _ => false,
    exec := fun key => if key = "vmss:instance:Y" then some [] else none,
    deleteInstance := fun instanceID => instanceID = "3" }

/-- Scenarios S4 and S5 in one store, at the clock reading 1000 s with `VMRuntime = 360`:
`Y` was updated at 500 s (age 500 s), `Z` at 990 s (age 10 s), `W` at 640 s (age exactly
360 s), `U` is marked used. -/
def storeS4 : Store :=
  { kv := [("vmss:instance:Y", marshal (testRecord "Y" "1" VMStatusUnavailable "500" false)),
           ("vmss:instance:Z", marshal (testRecord "Z" "2" VMStatusUnavailable "990" false)),
           ("vmss:instance:W", marshal (testRecord "W" "3" VMStatusUnavailable "640" false)),
           ("vmss:instance:U", marshal (testRecord "U" "4" VMStatusUnavailable "999" true))],
    available := [], reserved := [],
    unavailable := ["vmss:instance:Y", "vmss:instance:Z", "vmss:instance:W",
                    "vmss:instance:U"] }

def noAppGWFaults : AppGWFaults := { get := false, createOrUpdate := false }

def testAppGWConfig : AppGWConfig :=
  { SubscriptionID := "sub", ResourceGroup := "rg", GWName := "gw", PathMapName := "pm" }

def testRule (name path : String) : PathRule :=
  { Name := name, Paths := [path], BackendAddressPool := "pool", BackendHTTPSettings := "wss" }

/-- A gateway with a default rule, a rule for `A`, a second rule for `A` and a rule for a VM
`Q` that is gone. -/
def testGateway : List URLPathMap :=
  [{ Name := "other", PathRules := [] },
   { Name := "pm",
     PathRules := [testRule "default" "/default", testRule "instance0" "/A",
                   testRule "dup" "/A", testRule "instance9" "/Q"] }]

/-- An inventory: `A` and `B` with private IPs, `C` without one. -/
def testInventory : List VMInstance :=
  [{ testInstance "A" "0" PowerStateRunning with PrivateIP := "10.0.0.4" },
   { testInstance "B" "1" PowerStateRunning with PrivateIP := "10.0.0.5" },
   testInstance "C" "2" PowerStateDeallocated]

/-- A gateway whose path map holds the default rule only, and an inventory whose one VM has
the vmId `default`. -/
def defaultGateway : List URLPathMap :=
  [{ Name := "pm", PathRules := [testRule "default" "/default"] }]

def defaultInventory : List VMInstance :=
  [{ testInstance "default" "0" PowerStateRunning with PrivateIP := "10.0.0.4" }]

/-- A gateway whose rule for `A` has the path `A`, without the leading slash. -/
def bareGateway : List URLPathMap :=
  [{ Name := "pm", PathRules := [testRule "instance0" "A"] }]

def bareInventory : List VMInstance :=
  [{ testInstance "A" "0" PowerStateRunning with PrivateIP := "10.0.0.4" }]

/-- A gateway whose one rule has two paths, `/A` and `/B`. -/
def twoPathGateway : List URLPathMap :=
  [{ Name := "pm",
     PathRules := [{ testRule "instance0" "/A" with Paths := ["/A", "/B"] }] }]

def noStarterFaults : StarterFaults :=
  { spop := false, get := fun _ => false, exec := fun _ => none,
    startInstance := fun _ => false }

/-- Two reserved VMs with records, and a reserved key `vmss:instance:G` without one. -/
def storeReserved : Store :=
  { kv := [("vmss:instance:E", marshal (testRecord "E" "5" VMStatusReserved "950" false)),
           ("vmss:instance:F", marshal (testRecord "F" "6" VMStatusReserved "960" false))],
    available := [], unavailable := [],
    reserved := ["vmss:instance:E", "vmss:instance:G", "vmss:instance:F"] }

def noSimulatorFaults : SimulatorFaults :=
  { spop := false, get := fun _ => false, exec := fun _ => none }

/-- Scenario S6: the available set is `{K1, K2, K3}`. -/
def storeS6 : Store :=
  { kv := [("K1", marshal (testRecord "K1" "1" VMStatusAvailable "" false)),
           ("K2", marshal (testRecord "K2" "2" VMStatusAvailable "" false)),
           ("K3", marshal (testRecord "K3" "3" VMStatusAvailable "" false))],
    available := ["K1", "K2", "K3"], reserved := [], unavailable := [] }

/-- A Simulator whose `SPOP` fails. -/
def failingPop : SimulatorFaults :=
  { spop := true, get := fun _ => false, exec := fun _ => none }

def noCreateFaults : CreateFaults :=
  { get := false, beginUpdate := false, pollUntilDone := false, applied := false }

def noProvisionerFaults : ProvisionerFaults :=
  { listBefore := false, create := noCreateFaults, listAfter := false, appgw := noAppGWFaults,
    listWarm := false, stopInstance := fun _ => false }

/-- A scale set of the given capacity. -/
def testScaleSet (capacity : Int) : ScaleSet :=
  { SKU := some { Name := some "Standard_NV6", Tier := some "Standard",
                  Capacity := some capacity } }

/-- Scenario S1: `poolCapacity = 2`, warm pool disabled. -/
def serviceS1 : provisioner.Service :=
  { scalerConfig := testConfig, poolCapacity := 2, warmPoolSize := 0,
    warmPoolEnabled := false }

/-- Scenario S1: the two VMs the growth adds, without private IPs yet. -/
def cloudS1 : List VMInstance :=
  [testInstance "A" "0" PowerStateRunning, testInstance "B" "1" PowerStateRunning]

/-- A Provisioner with `poolCapacity = 3` and a warm pool of size 1. -/
def serviceWarm : provisioner.Service :=
  { scalerConfig := testConfig, poolCapacity := 3, warmPoolSize := 1, warmPoolEnabled := true }

/-- The inventory after growth from `[Z]` to capacity 3: the stopped VM `Z` of before, and
the new VMs `A` and `B` and `C`. -/
def cloudGrown : List VMInstance :=
  [testInstance "Z" "9" PowerStateDeallocated, testInstance "A" "0" PowerStateRunning,
   testInstance "B" "1" PowerStateRunning, testInstance "C" "2" PowerStateRunning]

/-- A Provisioner whose `StopInstance` of instance `1` fails. -/
def stopFaults : ProvisionerFaults :=
  { noProvisionerFaults with stopInstance := fun instanceID => instanceID = "1" }

/-- What the tick of `serviceWarm` leaves behind when the scale set grows from `[Z]` to
`cloudGrown` and no VM is in the stopped state: instance `0` is left alone, instances `1` and
`2` are deallocated (the first attempt fails). -/
def outcomeWarm : ProvisionOutcome :=
  { vmss := testScaleSet 3
    gateway := defaultGateway
    provisionedInstances := ["0", "1", "2"]
    effects :=
      [.listInstances {} true, .createInstances 3 true, .listInstances {} true,
       .updatePathBasedRules cloudGrown true,
       .listInstances { VMPowerStates := [PowerStateStopped] } true,
       .stopInstance "1" false, .stopInstance "2" true,
       .telemetry { Operation := "provision", Success := true, Duration := 5000000000 }
         "westeurope"]
    err := none }

/-- A Provisioner whose `Get` of the scale set fails inside `CreateInstances`. -/
def growthFaults : ProvisionerFaults :=
  { noProvisionerFaults with create := { noCreateFaults with get := true } }

/-- A Provisioner whose `Get` of the gateway fails inside `UpdatePathBasedRules`. -/
def routeFaults : ProvisionerFaults :=
  { noProvisionerFaults with appgw := { get := true, createOrUpdate := false } }

/-- The default configuration with `SCALER_VM_RUNTIME=0`. -/
def zeroRuntimeConfig : ScalerConfig := { testConfig with VMRuntime := 0 }

/-- A dynamic-configuration source that holds `8`, `2` and `true` under the three keys; the
two scanners read the texts that occur here. -/
def testAppConfig : AppConfigProvider :=
  { GetSetting := fun key =>
      if key = "SCALER_POOL_CAPACITY" then some (some "8")
      else if key = "SCALER_WARMPOOL_SIZE" then some (some "2")
      else if key = "SCALER_WARMPOOL_ENABLED" then some (some "true")
      else none
    scanInt := fun s => if s = "8" then some 8 else if s = "2" then some 2 else none
    scanBool := fun s => if s = "true" then some true else if s = "false" then some false
      else none }

/-- The same source with a warm pool size that is no number. -/
def brokenAppConfig : AppConfigProvider :=
  { testAppConfig with
    GetSetting := fun key =>
      if key = "SCALER_WARMPOOL_SIZE" then some (some "two") else testAppConfig.GetSetting key }

/-- Two snapshots of a scale set of one VM: instance `0` has the vmId `A` before and the vmId
`B` after. -/
def cloudReimaged : List VMInstance := [testInstance "B" "0" PowerStateRunning]

/-- A Starter whose `GET` of `vmss:instance:E` fails. -/
def getFaults : StarterFaults :=
  { noStarterFaults with get := fun key => key = "vmss:instance:E" }

/-- A gateway whose path map holds the default rule and a rule without paths. -/
def pathlessGateway : List URLPathMap :=
  [{ Name := "pm",
     PathRules := [testRule "default" "/default",
                   { Name := "empty", Paths := [], BackendAddressPool := "pool",
                     BackendHTTPSettings := "wss" }] }]

/-- The store of scenarios S4 and S5 with bad records around `W`: the `updatedAt` of `Y` is no
timestamp, the value under the key of `Z` does not parse, and `U` has no record. -/
def storeS4Bad : Store :=
  { kv := [("vmss:instance:Y",
             marshal (testRecord "Y" "1" VMStatusUnavailable "yesterday" false)),
           ("vmss:instance:Z", .raw "not json"),
           ("vmss:instance:W", marshal (testRecord "W" "3" VMStatusUnavailable "640" false))],
    available := [], reserved := [],
    unavailable := ["vmss:instance:Y", "vmss:instance:Z", "vmss:instance:W",
                    "vmss:instance:U"] }

/-- Metrics of a failed provisioning that took 5 s, with a region of their own. -/
def testMetrics : VMMetrics :=
  { Operation := "provision", Duration := 5000000000, Success := false,
    ErrorMessage := "failed to scale VMSS", ResourceID := "7", Region := "eastus" }

/-- A Starter whose batch for `vmss:instance:E` returns an error after the record write took
effect. -/
def execFaults : StarterFaults :=
  { noStarterFaults with
    exec := fun key => if key = "vmss:instance:E" then some [true, false] else none }

/-- The default configuration with a `VMRuntime` whose seconds do not fit a
`time.Duration`: `9223372037 * 10^9 > 2^63`. -/
def overflowConfig : ScalerConfig := { testConfig with VMRuntime := 9223372037 }

/-- A cloud inventory with the one VM `X`, and a store that holds, under a key with white
space, the record of a vmId `X junk`, its key in the available set. -/
def junkCloud : List VMInstance := [testInstance "X" "0" PowerStateRunning]

def junkStore : Store :=
  { kv := [("vmss:instance:X junk",
             marshal (testRecord "X junk" "9" VMStatusAvailable "" false))],
    available := ["vmss:instance:X junk"], reserved := [], unavailable := [] }

/-- A reserved set of 101 keys, `0` to `100`, the first of them with a record. -/
def crowdedStore : Store :=
  { kv := [("0", marshal (testRecord "0" "0" VMStatusReserved "950" false))],
    available := [], unavailable := [],
    reserved := (List.range 101).map toString }

/-! ## Theorems -/

/-! ### The scheduling skeleton -/

theorem step_turnstile (s : LoopState) (e : Event) (h : s.done + s.inFlight = 1) :
    (step s e).done + (step s e).inFlight = 1 := by
  cases e with
  | tick =>
    unfold step
    split_ifs <;> simp only [] <;> omega
  | workReturns ok =>
    unfold step
    split_ifs <;> simp only [] <;> omega
  | stop => simpa [step] using h

theorem foldl_step_turnstile (es : List Event) (s : LoopState)
    (h : s.done + s.inFlight = 1) :
    (es.foldl step s).done + (es.foldl step s).inFlight = 1 := by
  induction es generalizing s with
  | nil => simpa using h
  | cons e es ih => exact ih (step s e) (step_turnstile s e h)

theorem run_turnstile (es : List Event) : (run es).done + (run es).inFlight = 1 :=
  foldl_step_turnstile es LoopState.init rfl

/-- C1: in every reachable state of `run` at most one invocation of the work function is
in flight (the token and the invocation are never both present, never both absent); a tick
that arrives while an invocation is in flight changes nothing but the log (nothing is
dispatched, nothing is queued); a dispatch happens only on a tick with no invocation in
flight; and the return of the work function, with or without an error, puts the token back
without dispatching anything. -/
theorem run_overlap_free (es : List Event) :
    (run es).inFlight ≤ 1 ∧
    (run es).done + (run es).inFlight = 1 ∧
    (0 < (run es).inFlight →
      step (run es) .tick =
        if (run es).returned then run es
        else { run es with dropped := (run es).dropped + 1 }) ∧
    (∀ e, (step (run es) e).dispatched ≠ (run es).dispatched →
      e = .tick ∧ (run es).inFlight = 0 ∧ (step (run es) e).inFlight = 1 ∧
      (step (run es) e).dispatched = (run es).dispatched + 1) ∧
    (∀ ok, 0 < (run es).inFlight →
      (step (run es) (.workReturns ok)).inFlight = 0 ∧
      (step (run es) (.workReturns ok)).done = 1 ∧
      (step (run es) (.workReturns ok)).dispatched = (run es).dispatched) := by
  have h := run_turnstile es
  refine ⟨by omega, h, ?_, ?_, ?_⟩
  · intro hpos
    have hd : (run es).done = 0 := by omega
    simp [step, hd]
  · intro e hne
    cases e with
    | tick =>
      by_cases hr : (run es).returned = true
      · simp [step, hr] at hne
      · by_cases hd : 0 < (run es).done
        · have hi : (run es).inFlight = 0 := by omega
          simp [step, hr, hd, hi]
        · simp [step, hr, hd] at hne
    | workReturns ok =>
      exfalso
      apply hne
      unfold step
      split_ifs <;> rfl
    | stop => simp [step] at hne
  · intro ok hpos
    have hd : (run es).done = 0 := by omega
    have hi : (run es).inFlight = 1 := by omega
    simp [step, hd, hi]

/-- Witness for C1: after two ticks with the first invocation still running, one
invocation is in flight and a third tick only logs. -/
theorem run_overlap_free_witness :
    (run [.tick, .tick]).inFlight = 1 ∧ (run [.tick, .tick]).dispatched = 1 ∧
    (run [.tick, .tick]).dropped = 1 ∧
    step (run [.tick, .tick]) .tick =
      (if (run [.tick, .tick]).returned then run [.tick, .tick]
       else { run [.tick, .tick] with dropped := (run [.tick, .tick]).dropped + 1 }) :=
  ⟨by decide, by decide, by decide, (run_overlap_free [.tick, .tick]).2.2.1 (by decide)⟩

/-! ### The state store -/

@[simp] theorem members_setMembers (st : Store) (s t : StatusSet) (l : List String) :
    (st.setMembers s l).members t = if t = s then l else st.members t := by
  cases s <;> cases t <;> simp [Store.setMembers, Store.members]

@[simp] theorem kv_setMembers (st : Store) (s : StatusSet) (l : List String) :
    (st.setMembers s l).kv = st.kv := by
  cases s <;> rfl

theorem find?_filter_ne (l : List (String × Blob)) (key k : String) (h : k ≠ key) :
    (l.filter (fun p => p.1 ≠ key)).find? (fun p => p.1 = k) = l.find? (fun p => p.1 = k) := by
  induction l with
  | nil => rfl
  | cons p ps ih =>
    by_cases hp : p.1 = key
    · have hpk : ¬ p.1 = k := fun e => h (e.symm.trans hp)
      rw [List.filter_cons_of_neg (by simpa using hp),
        List.find?_cons_of_neg _ (by simpa using hpk)]
      exact ih
    · rw [List.filter_cons_of_pos (by simpa using hp)]
      by_cases hpk : p.1 = k
      · rw [List.find?_cons_of_pos _ (by simpa using hpk),
          List.find?_cons_of_pos _ (by simpa using hpk)]
      · rw [List.find?_cons_of_neg _ (by simpa using hpk),
          List.find?_cons_of_neg _ (by simpa using hpk)]
        exact ih

theorem get_eq_none_iff (st : Store) (key : String) :
    st.get key = none ↔ key ∉ st.kv.map Prod.fst := by
  simp only [Store.get, Option.map_eq_none', List.find?_eq_none, List.mem_map, not_exists,
    not_and]
  constructor
  · intro h p hp hk
    exact h p hp (by simpa using hk)
  · intro h p hp hk
    exact h p hp (by simpa using hk)

theorem get_set (st : Store) (key k : String) (v : Blob) :
    (st.set key v).get k = if k = key then some v else st.get k := by
  by_cases h : k = key
  · simp [Store.get, Store.set, h]
  · have h' : ¬ key = k := fun e => h e.symm
    simp only [Store.get, Store.set, h, if_false]
    rw [List.find?_cons_of_neg _ (by simpa using h'), find?_filter_ne _ _ _ h]

theorem get_del (st : Store) (key k : String) :
    (st.del key).get k = if k = key then none else st.get k := by
  by_cases h : k = key
  · subst h
    simp [Store.get, Store.del, List.find?_eq_none]
  · simp only [Store.get, Store.del, h, if_false]
    rw [find?_filter_ne _ _ _ h]

@[simp] theorem get_sadd (st : Store) (s : StatusSet) (m k : String) :
    (st.sadd s m).get k = st.get k := by
  unfold Store.sadd
  split <;> simp [Store.get]

@[simp] theorem get_srem (st : Store) (s : StatusSet) (m k : String) :
    (st.srem s m).get k = st.get k := by
  simp [Store.srem, Store.get]

@[simp] theorem members_set (st : Store) (key : String) (v : Blob) (t : StatusSet) :
    (st.set key v).members t = st.members t := by
  cases t <;> rfl

@[simp] theorem members_del (st : Store) (key : String) (t : StatusSet) :
    (st.del key).members t = st.members t := by
  cases t <;> rfl

theorem mem_members_sadd (st : Store) (s t : StatusSet) (m k : String) :
    k ∈ (st.sadd s m).members t ↔ k ∈ st.members t ∨ (t = s ∧ k = m) := by
  unfold Store.sadd
  by_cases hm : m ∈ st.members s
  · simp only [hm, if_true]
    constructor
    · exact Or.inl
    · rintro (h | ⟨rfl, rfl⟩)
      · exact h
      · exact hm
  · simp only [hm, if_false, members_setMembers]
    by_cases hts : t = s
    · subst hts
      simp
    · simp [hts]

theorem mem_members_srem (st : Store) (s t : StatusSet) (m k : String) :
    k ∈ (st.srem s m).members t ↔ k ∈ st.members t ∧ ¬ (t = s ∧ k = m) := by
  unfold Store.srem
  simp only [members_setMembers]
  by_cases hts : t = s
  · subst hts
    simp
  · simp [hts]

/-! ### Pipelines -/

theorem get_apply_of_not_writes (st : Store) (c : Cmd) (k : String) (h : ¬ c.writes k) :
    (st.apply c).get k = st.get k := by
  cases c with
  | set key v =>
    have : ¬ k = key := fun e => h e.symm
    simp [Store.apply, get_set, this]
  | del key =>
    have : ¬ k = key := fun e => h e.symm
    simp [Store.apply, get_del, this]
  | sadd s m => simp [Store.apply]
  | srem s m => simp [Store.apply]

theorem get_foldl_apply_frame (cmds : List Cmd) (st : Store) (k : String)
    (h : ∀ c ∈ cmds, ¬ c.writes k) : (cmds.foldl Store.apply st).get k = st.get k := by
  induction cmds generalizing st with
  | nil => rfl
  | cons c cs ih =>
    rw [List.foldl_cons, ih _ (fun c' hc' => h c' (List.mem_cons_of_mem _ hc')),
      get_apply_of_not_writes _ _ _ (h c (List.mem_cons_self _ _))]

theorem get_foldl_apply_none (cmds : List Cmd) (st : Store) (k : String)
    (h : st.get k = none ∨ Cmd.del k ∈ cmds) (hset : ∀ v, Cmd.set k v ∉ cmds) :
    (cmds.foldl Store.apply st).get k = none := by
  induction cmds generalizing st with
  | nil => simpa using h
  | cons c cs ih =>
    rw [List.foldl_cons]
    apply ih
    · by_cases hc : c = Cmd.del k
      · left
        subst hc
        simp [Store.apply, get_del]
      · rcases h with h | h
        · left
          cases c with
          | set key v =>
            have hk : ¬ k = key := by
              rintro rfl
              exact hset v (List.mem_cons_self _ _)
            simp [Store.apply, get_set, hk, h]
          | del key =>
            simp only [Store.apply, get_del]
            split
            · rfl
            · exact h
          | sadd s m => simpa [Store.apply] using h
          | srem s m => simpa [Store.apply] using h
        · right
          rcases List.mem_cons.1 h with h | h
          · exact absurd h.symm hc
          · exact h
    · intro v hv
      exact hset v (List.mem_cons_of_mem _ hv)

theorem get_foldl_apply_some (cmds : List Cmd) (st : Store) (k : String) (v : Blob)
    (h : st.get k = some v ∨ Cmd.set k v ∈ cmds)
    (hw : ∀ c ∈ cmds, c.writes k → c = Cmd.set k v) :
    (cmds.foldl Store.apply st).get k = some v := by
  induction cmds generalizing st with
  | nil => simpa using h
  | cons c cs ih =>
    rw [List.foldl_cons]
    apply ih
    · by_cases hc : c.writes k
      · left
        rw [hw c (List.mem_cons_self _ _) hc]
        simp [Store.apply, get_set]
      · rcases h with h | h
        · left
          rw [get_apply_of_not_writes _ _ _ hc, h]
        · right
          rcases List.mem_cons.1 h with h | h
          · exfalso
            apply hc
            rw [← h]
            simp [Cmd.writes]
          · exact h
    · intro c' hc'
      exact hw c' (List.mem_cons_of_mem _ hc')

theorem mem_members_apply (st : Store) (c : Cmd) (t : StatusSet) (k : String) :
    k ∈ (st.apply c).members t ↔
      (k ∈ st.members t ∧ c ≠ Cmd.srem t k) ∨ c = Cmd.sadd t k := by
  cases c with
  | set key v => simp [Store.apply]
  | del key => simp [Store.apply]
  | sadd s m =>
    simp only [Store.apply, mem_members_sadd, ne_eq, not_false_eq_true, and_true, Cmd.sadd.injEq]
    constructor
    · rintro (h | ⟨rfl, rfl⟩)
      · exact Or.inl ⟨h, by simp⟩
      · exact Or.inr ⟨rfl, rfl⟩
    · rintro (⟨h, -⟩ | ⟨rfl, rfl⟩)
      · exact Or.inl h
      · exact Or.inr ⟨rfl, rfl⟩
  | srem s m =>
    simp only [Store.apply, mem_members_srem, ne_eq, Cmd.srem.injEq]
    constructor
    · rintro ⟨h, hn⟩
      exact Or.inl ⟨h, fun ⟨e1, e2⟩ => hn ⟨e1.symm, e2.symm⟩⟩
    · rintro (⟨h, hn⟩ | h)
      · exact ⟨h, fun ⟨e1, e2⟩ => hn ⟨e1.symm, e2.symm⟩⟩
      · cases h

theorem mem_foldl_apply_frame (cmds : List Cmd) (st : Store) (t : StatusSet) (k : String)
    (h : ∀ c ∈ cmds, c ≠ Cmd.srem t k ∧ c ≠ Cmd.sadd t k) :
    k ∈ (cmds.foldl Store.apply st).members t ↔ k ∈ st.members t := by
  induction cmds generalizing st with
  | nil => rfl
  | cons c cs ih =>
    rw [List.foldl_cons, ih _ (fun c' hc' => h c' (List.mem_cons_of_mem _ hc')),
      mem_members_apply]
    have := h c (List.mem_cons_self _ _)
    simp [this.1, this.2]

theorem not_mem_foldl_apply (cmds : List Cmd) (st : Store) (t : StatusSet) (k : String)
    (h : k ∉ st.members t ∨ Cmd.srem t k ∈ cmds) (hadd : Cmd.sadd t k ∉ cmds) :
    k ∉ (cmds.foldl Store.apply st).members t := by
  induction cmds generalizing st with
  | nil => simpa using h
  | cons c cs ih =>
    rw [List.foldl_cons]
    apply ih
    · have hc : c ≠ Cmd.sadd t k := fun e => hadd (e ▸ List.mem_cons_self _ _)
      by_cases hr : c = Cmd.srem t k
      · left
        rw [mem_members_apply]
        simp [hr]
      · rcases h with h | h
        · left
          rw [mem_members_apply]
          simp [h, hc]
        · right
          rcases List.mem_cons.1 h with h | h
          · exact absurd h.symm hr
          · exact h
    · exact fun hm => hadd (List.mem_cons_of_mem _ hm)

theorem mem_foldl_apply (cmds : List Cmd) (st : Store) (t : StatusSet) (k : String)
    (h : k ∈ st.members t ∨ Cmd.sadd t k ∈ cmds) (hrem : Cmd.srem t k ∉ cmds) :
    k ∈ (cmds.foldl Store.apply st).members t := by
  induction cmds generalizing st with
  | nil => simpa using h
  | cons c cs ih =>
    rw [List.foldl_cons]
    apply ih
    · have hc : c ≠ Cmd.srem t k := fun e => hrem (e ▸ List.mem_cons_self _ _)
      by_cases ha : c = Cmd.sadd t k
      · left
        rw [mem_members_apply]
        exact Or.inr ha
      · rcases h with h | h
        · left
          rw [mem_members_apply]
          exact Or.inl ⟨h, hc⟩
        · right
          rcases List.mem_cons.1 h with h | h
          · exact absurd h.symm ha
          · exact h
    · exact fun hm => hrem (List.mem_cons_of_mem _ hm)

/-! ### Record keys -/

theorem instanceKey_data (v : String) : (instanceKey v).data = "vmss:instance:".data ++ v.data := by
  simp [instanceKey, String.data_append]

theorem instanceKey_injective {a b : String} (h : instanceKey a = instanceKey b) : a = b := by
  have := congrArg String.data h
  rw [instanceKey_data, instanceKey_data] at this
  exact String.ext (List.append_cancel_left this)

theorem instanceKey_hasPrefix (v : String) :
    "vmss:instance:".data.isPrefixOf (instanceKey v).data = true := by
  rw [instanceKey_data, List.isPrefixOf_iff_prefix]
  exact List.prefix_append _ _

theorem isSpace_newline : isSpace '\n' = true := by decide

theorem skipSpace_of_noSpace (c : Char) (cs : List Char) (hc : isSpace c = false) :
    skipSpace (c :: cs) = some (c :: cs) := by
  have hn : c ≠ '\n' := by
    rintro rfl
    simp [isSpace_newline] at hc
  simp [skipSpace, hn, hc]

/-- On a vmId without white space, scanning the key that was formatted from it gives the
vmId back; the key of the empty vmId does not scan. -/
theorem sscanfVMID_instanceKey (v : String) (hv : ∀ c ∈ v.data, isSpace c = false) :
    sscanfVMID (instanceKey v) = if v = "" then none else some v := by
  unfold sscanfVMID
  rw [if_pos (instanceKey_hasPrefix v), instanceKey_data, List.drop_left]
  rcases v with ⟨l⟩
  cases l with
  | nil => simp [scanString, skipSpace]
  | cons c cs =>
    have hc : isSpace c = false := hv c (List.mem_cons_self _ _)
    have hne : (⟨c :: cs⟩ : String) ≠ "" := by
      intro h
      have := congrArg String.data h
      simp at this
    rw [if_neg hne]
    simp only [scanString, skipSpace_of_noSpace c cs hc]
    congr 2
    rw [List.takeWhile_eq_self_iff]
    intro x hx
    simp [hv x hx]

theorem mem_Keys (st : Store) (pfx key : String) :
    key ∈ st.Keys pfx ↔ key ∈ st.kv.map Prod.fst ∧ pfx.data.isPrefixOf key.data = true := by
  simp [Store.Keys, List.mem_filter]

theorem ListInstances_all (cloud : List VMInstance) : ListInstances cloud {} = cloud := by
  simp [ListInstances]

theorem mem_ListInstances_inactive (cloud : List VMInstance) (inst : VMInstance) :
    inst ∈ ListInstances cloud { VMPowerStates := [PowerStateStopped, PowerStateDeallocated] } ↔
      inst ∈ cloud ∧ (inst.State = PowerStateStopped ∨ inst.State = PowerStateDeallocated) := by
  simp [ListInstances, List.mem_filter]

/-! ### Reconciler -/

theorem queueOrphans_cons_skip (ids : List String) (key : String) (rest : List String)
    (h : ∀ v, sscanfVMID key = some v → v ∈ ids) :
    queueOrphans ids (key :: rest) = queueOrphans ids rest := by
  simp only [queueOrphans]
  cases hs : sscanfVMID key with
  | none => rfl
  | some v => simp [h v hs]

theorem queueOrphans_cons_orphan (ids : List String) (key : String) (rest : List String)
    (v : String) (hs : sscanfVMID key = some v) (hv : v ∉ ids) :
    queueOrphans ids (key :: rest) =
      (Cmd.del key :: statusSets.map (fun s => Cmd.srem s key) ++ (queueOrphans ids rest).1,
        key :: (queueOrphans ids rest).2) := by
  simp [queueOrphans, hs, hv]

theorem mem_queueOrphans_cmds (ids : List String) (keys : List String) (c : Cmd) :
    c ∈ (queueOrphans ids keys).1 ↔
      ∃ key ∈ keys, (∃ v, sscanfVMID key = some v ∧ v ∉ ids) ∧
        (c = Cmd.del key ∨ ∃ s, c = Cmd.srem s key) := by
  induction keys with
  | nil => simp [queueOrphans]
  | cons key rest ih =>
    by_cases ho : ∃ v, sscanfVMID key = some v ∧ v ∉ ids
    · obtain ⟨v, hs, hv⟩ := ho
      rw [queueOrphans_cons_orphan ids key rest v hs hv]
      constructor
      · intro h
        rcases List.mem_cons.1 h with h | h
        · exact ⟨key, List.mem_cons_self _ _, ⟨v, hs, hv⟩, Or.inl h⟩
        · rcases List.mem_append.1 h with h | h
          · obtain ⟨s, -, rfl⟩ := List.mem_map.1 h
            exact ⟨key, List.mem_cons_self _ _, ⟨v, hs, hv⟩, Or.inr ⟨s, rfl⟩⟩
          · obtain ⟨k, hk, hrest⟩ := ih.1 h
            exact ⟨k, List.mem_cons_of_mem _ hk, hrest⟩
      · rintro ⟨k, hk, hv', hc⟩
        rcases List.mem_cons.1 hk with rfl | hk
        · rcases hc with rfl | ⟨s, rfl⟩
          · exact List.mem_cons_self _ _
          · apply List.mem_cons_of_mem
            apply List.mem_append_left
            exact List.mem_map.2 ⟨s, by cases s <;> simp [statusSets], rfl⟩
        · apply List.mem_cons_of_mem
          apply List.mem_append_right
          exact ih.2 ⟨k, hk, hv', hc⟩
    · have hskip : ∀ v, sscanfVMID key = some v → v ∈ ids := by
        intro v hs
        by_contra hv
        exact ho ⟨v, hs, hv⟩
      rw [queueOrphans_cons_skip ids key rest hskip, ih]
      constructor
      · rintro ⟨k, hk, hrest⟩
        exact ⟨k, List.mem_cons_of_mem _ hk, hrest⟩
      · rintro ⟨k, hk, hv', hc⟩
        rcases List.mem_cons.1 hk with rfl | hk
        · exact absurd hv' ho
        · exact ⟨k, hk, hv', hc⟩

theorem queueOrphans_cmds_nil (ids : List String) (keys : List String)
    (h : (queueOrphans ids keys).2 = []) : (queueOrphans ids keys).1 = [] := by
  induction keys with
  | nil => simp [queueOrphans]
  | cons key rest ih =>
    simp only [queueOrphans] at h ⊢
    cases hs : sscanfVMID key with
    | none =>
      simp only [hs] at h ⊢
      exact ih h
    | some v =>
      simp only [hs] at h ⊢
      by_cases hv : v ∈ ids
      · simp only [hv, if_true] at h ⊢
        exact ih h
      · simp [hv] at h

theorem mem_queueNewRecords_cmds (clock : Clock) (cfg : ScalerConfig) (redisMap : List String)
    (insts : List VMInstance) (c : Cmd) :
    c ∈ (queueNewRecords clock cfg redisMap insts).1 ↔
      ∃ inst ∈ insts, instanceKey inst.VMID ∉ redisMap ∧
        (c = Cmd.set (instanceKey inst.VMID) (marshal (newRecord clock cfg inst)) ∨
         c = Cmd.sadd .available (instanceKey inst.VMID)) := by
  induction insts with
  | nil => simp [queueNewRecords]
  | cons inst rest ih =>
    by_cases hk : instanceKey inst.VMID ∈ redisMap
    · have hq : queueNewRecords clock cfg redisMap (inst :: rest) =
          queueNewRecords clock cfg redisMap rest := by
        simp [queueNewRecords, hk]
      rw [hq, ih]
      constructor
      · rintro ⟨i, hi, hrest⟩
        exact ⟨i, List.mem_cons_of_mem _ hi, hrest⟩
      · rintro ⟨i, hi, hn, hc⟩
        rcases List.mem_cons.1 hi with rfl | hi
        · exact absurd hk hn
        · exact ⟨i, hi, hn, hc⟩
    · have hq : (queueNewRecords clock cfg redisMap (inst :: rest)).1 =
          Cmd.set (instanceKey inst.VMID) (marshal (newRecord clock cfg inst)) ::
            Cmd.sadd .available (instanceKey inst.VMID) ::
              (queueNewRecords clock cfg redisMap rest).1 := by
        simp [queueNewRecords, hk]
      rw [hq]
      constructor
      · intro h
        rcases List.mem_cons.1 h with h | h
        · exact ⟨inst, List.mem_cons_self _ _, hk, Or.inl h⟩
        · rcases List.mem_cons.1 h with h | h
          · exact ⟨inst, List.mem_cons_self _ _, hk, Or.inr h⟩
          · obtain ⟨i, hi, hrest⟩ := ih.1 h
            exact ⟨i, List.mem_cons_of_mem _ hi, hrest⟩
      · rintro ⟨i, hi, hn, hc⟩
        rcases List.mem_cons.1 hi with rfl | hi
        · rcases hc with rfl | rfl
          · exact List.mem_cons_self _ _
          · exact List.mem_cons_of_mem _ (List.mem_cons_self _ _)
        · exact List.mem_cons_of_mem _ (List.mem_cons_of_mem _ (ih.2 ⟨i, hi, hn, hc⟩))

theorem queueNewRecords_cmds_nil (clock : Clock) (cfg : ScalerConfig) (redisMap : List String)
    (insts : List VMInstance) (h : (queueNewRecords clock cfg redisMap insts).2 = []) :
    (queueNewRecords clock cfg redisMap insts).1 = [] := by
  induction insts with
  | nil => simp [queueNewRecords]
  | cons inst rest ih =>
    simp only [queueNewRecords] at h ⊢
    by_cases hk : instanceKey inst.VMID ∈ redisMap
    · simp only [hk, if_true] at h ⊢
      exact ih h
    · simp [hk] at h

theorem Exec_none (st : Store) (cmds : List Cmd) :
    st.Exec none cmds = (cmds.foldl Store.apply st, true) := rfl

theorem Exec_some_snd (st : Store) (mask : List Bool) (cmds : List Cmd) :
    (st.Exec (some mask) cmds).2 = false := rfl

/-- The store after a tick that returned no error: the orphan batch applied to the store,
then the batch of new records (computed against the keys re-read after the orphan batch)
applied to the result.  An empty batch, which the code does not execute, changes nothing. -/
theorem reconcile_store_of_ok (f : ReconcilerFaults) (clock : Clock) (cfg : ScalerConfig)
    (cloud : List VMInstance) (st : Store) (h : (reconcile f clock cfg cloud st).2 = none) :
    (reconcile f clock cfg cloud st).1 =
      (queueNewRecords clock cfg
        (((queueOrphans (cloud.map (fun inst => inst.VMID)) (st.Keys "vmss:instance:")).1.foldl
          Store.apply st).Keys "vmss:instance:")
        (ListInstances cloud
          { VMPowerStates := [PowerStateStopped, PowerStateDeallocated] })).1.foldl Store.apply
        ((queueOrphans (cloud.map (fun inst => inst.VMID)) (st.Keys "vmss:instance:")).1.foldl
          Store.apply st) := by
  unfold reconcile at h ⊢
  simp only [ListInstances_all] at h ⊢
  by_cases h1 : f.listAll = true
  · simp [h1] at h
  by_cases h2 : f.keys = true
  · simp [h1, h2] at h
  simp only [h1, h2, Bool.false_eq_true, if_false] at h ⊢
  have hnil := queueOrphans_cmds_nil (cloud.map (fun inst => inst.VMID)) (st.Keys "vmss:instance:")
  generalize queueOrphans (cloud.map (fun inst => inst.VMID)) (st.Keys "vmss:instance:") = q
    at h hnil ⊢
  obtain ⟨cmds, orphanedKeys⟩ := q
  simp only at h hnil ⊢
  have key : ∀ (st1 : Store),
      ((if f.listInactive = true then (st1, some "failed to list inactive VMSS instances")
        else
          if 0 < (queueNewRecords clock cfg (st1.Keys "vmss:instance:")
                (ListInstances cloud
                  { VMPowerStates := [PowerStateStopped, PowerStateDeallocated] })).2.length then
            if (!(st1.Exec f.execNew (queueNewRecords clock cfg (st1.Keys "vmss:instance:")
                (ListInstances cloud
                  { VMPowerStates := [PowerStateStopped, PowerStateDeallocated] })).1).2) = true
            then ((st1.Exec f.execNew (queueNewRecords clock cfg (st1.Keys "vmss:instance:")
                (ListInstances cloud
                  { VMPowerStates := [PowerStateStopped, PowerStateDeallocated] })).1).1,
                some "failed to create new records")
            else ((st1.Exec f.execNew (queueNewRecords clock cfg (st1.Keys "vmss:instance:")
                (ListInstances cloud
                  { VMPowerStates := [PowerStateStopped, PowerStateDeallocated] })).1).1, none)
          else (st1, none)) : Store × Option String).2 = none →
      ((if f.listInactive = true then (st1, some "failed to list inactive VMSS instances")
        else
          if 0 < (queueNewRecords clock cfg (st1.Keys "vmss:instance:")
                (ListInstances cloud
                  { VMPowerStates := [PowerStateStopped, PowerStateDeallocated] })).2.length then
            if (!(st1.Exec f.execNew (queueNewRecords clock cfg (st1.Keys "vmss:instance:")
                (ListInstances cloud
                  { VMPowerStates := [PowerStateStopped, PowerStateDeallocated] })).1).2) = true
            then ((st1.Exec f.execNew (queueNewRecords clock cfg (st1.Keys "vmss:instance:")
                (ListInstances cloud
                  { VMPowerStates := [PowerStateStopped, PowerStateDeallocated] })).1).1,
                some "failed to create new records")
            else ((st1.Exec f.execNew (queueNewRecords clock cfg (st1.Keys "vmss:instance:")
                (ListInstances cloud
                  { VMPowerStates := [PowerStateStopped, PowerStateDeallocated] })).1).1, none)
          else (st1, none)) : Store × Option String).1 =
        (queueNewRecords clock cfg (st1.Keys "vmss:instance:")
          (ListInstances cloud
            { VMPowerStates := [PowerStateStopped, PowerStateDeallocated] })).1.foldl
          Store.apply st1 := by
    intro st1
    have hnil2 := queueNewRecords_cmds_nil clock cfg (st1.Keys "vmss:instance:")
      (ListInstances cloud { VMPowerStates := [PowerStateStopped, PowerStateDeallocated] })
    generalize queueNewRecords clock cfg (st1.Keys "vmss:instance:")
      (ListInstances cloud { VMPowerStates := [PowerStateStopped, PowerStateDeallocated] }) = q2
      at hnil2 ⊢
    obtain ⟨cmds2, newRecords⟩ := q2
    simp only at hnil2 ⊢
    by_cases h3 : f.listInactive = true
    · simp [h3]
    · cases newRecords with
      | nil => simp [h3, hnil2 rfl]
      | cons r rs =>
        cases h4 : f.execNew with
        | none => simp [h3, Exec_none]
        | some mask => simp [h3, Exec_some_snd]
  cases orphanedKeys with
  | nil =>
    simp only [List.length_nil, lt_self_iff_false, if_false, hnil rfl, List.foldl_nil] at h ⊢
    exact key st h
  | cons o os =>
    cases h5 : f.execOrphans with
    | some mask => simp [h5, Exec_some_snd] at h
    | none =>
      by_cases h6 : f.keysAgain = true
      · simp [h5, h6, Exec_none] at h
      · simp only [h5, h6, Exec_none, List.length_cons, Nat.zero_lt_succ, if_true,
          Bool.not_true, Bool.false_eq_true, if_false] at h ⊢
        exact key _ h

theorem get_foldl_apply_ne_none (cmds : List Cmd) (st : Store) (k : String)
    (h : st.get k ≠ none ∨ ∃ v, Cmd.set k v ∈ cmds) (hdel : Cmd.del k ∉ cmds) :
    (cmds.foldl Store.apply st).get k ≠ none := by
  induction cmds generalizing st with
  | nil => simpa using h
  | cons c cs ih =>
    rw [List.foldl_cons]
    apply ih
    · by_cases hc : ∃ v, c = Cmd.set k v
      · left
        obtain ⟨v, rfl⟩ := hc
        simp [Store.apply, get_set]
      · rcases h with h | ⟨v, hv⟩
        · left
          have hw : ¬ c.writes k := by
            cases c with
            | set key v =>
              intro e
              exact hc ⟨v, by rw [show key = k from e]⟩
            | del key =>
              intro e
              exact hdel (by rw [show key = k from e]; exact List.mem_cons_self _ _)
            | sadd s m => exact id
            | srem s m => exact id
          rw [get_apply_of_not_writes _ _ _ hw]
          exact h
        · right
          rcases List.mem_cons.1 hv with hv | hv
          · exact absurd ⟨v, hv.symm⟩ hc
          · exact ⟨v, hv⟩
    · exact fun hm => hdel (List.mem_cons_of_mem _ hm)

theorem hasPrefix_of_sscanfVMID {key v : String} (h : sscanfVMID key = some v) :
    "vmss:instance:".data.isPrefixOf key.data = true := by
  unfold sscanfVMID at h
  by_contra hp
  simp [hp] at h

/-- A key whose scanned vmId is not the vmId it would be formatted from is the key of no
cloud VM (vmIds without white space). -/
theorem instanceKey_ne_of_orphan (ids : List String) (key vmID v : String)
    (hparse : sscanfVMID key = some vmID) (horphan : vmID ∉ ids) (hv : v ∈ ids)
    (hws : ∀ c ∈ v.data, isSpace c = false) : instanceKey v ≠ key := by
  intro e
  rw [← e, sscanfVMID_instanceKey v hws] at hparse
  by_cases h0 : v = ""
  · simp [h0] at hparse
  · simp only [h0, if_false, Option.some.injEq] at hparse
    exact horphan (hparse ▸ hv)

/-- After a tick without error no record is left under a key whose scanned vmId is not in the
cloud inventory. -/
theorem reconcile_get_orphan (f : ReconcilerFaults) (clock : Clock) (cfg : ScalerConfig)
    (cloud : List VMInstance) (st : Store)
    (hok : (reconcile f clock cfg cloud st).2 = none)
    (hws : ∀ inst ∈ cloud, ∀ c ∈ inst.VMID.data, isSpace c = false)
    (key vmID : String) (hparse : sscanfVMID key = some vmID)
    (horphan : vmID ∉ cloud.map (fun inst => inst.VMID)) :
    (reconcile f clock cfg cloud st).1.get key = none := by
  rw [reconcile_store_of_ok f clock cfg cloud st hok]
  have hne : ∀ inst ∈ cloud, instanceKey inst.VMID ≠ key := fun inst hi =>
    instanceKey_ne_of_orphan _ key vmID inst.VMID hparse horphan
      (List.mem_map.2 ⟨inst, hi, rfl⟩) (hws inst hi)
  rw [get_foldl_apply_frame]
  · apply get_foldl_apply_none
    · by_cases hk : key ∈ st.Keys "vmss:instance:"
      · right
        exact (mem_queueOrphans_cmds _ _ _).2 ⟨key, hk, ⟨vmID, hparse, horphan⟩, Or.inl rfl⟩
      · left
        rw [get_eq_none_iff]
        intro hm
        exact hk ((mem_Keys _ _ _).2 ⟨hm, hasPrefix_of_sscanfVMID hparse⟩)
    · intro v hv
      obtain ⟨k, -, -, hc | ⟨s, hc⟩⟩ := (mem_queueOrphans_cmds _ _ _).1 hv <;> cases hc
  · intro c hc
    obtain ⟨inst, hi, -, rfl | rfl⟩ := (mem_queueNewRecords_cmds _ _ _ _ _).1 hc
    · exact hne inst ((mem_ListInstances_inactive _ _).1 hi).1
    · exact id

/-- C2, amended: provided no vmId of the cloud inventory contains white space, after a
Reconciler tick that returns no error every record key returned by `KEYS vmss:instance:*`
whose scanned vmId is not in the cloud inventory has no record any more and is a member of
none of the three status sets, whatever set it was in before. -/
theorem reconcile_removes_orphans (f : ReconcilerFaults) (clock : Clock) (cfg : ScalerConfig)
    (cloud : List VMInstance) (st : Store)
    (hok : (reconcile f clock cfg cloud st).2 = none)
    (hws : ∀ inst ∈ cloud, ∀ c ∈ inst.VMID.data, isSpace c = false)
    (key vmID : String) (hkey : key ∈ st.Keys "vmss:instance:")
    (hparse : sscanfVMID key = some vmID)
    (horphan : vmID ∉ cloud.map (fun inst => inst.VMID)) :
    (reconcile f clock cfg cloud st).1.get key = none ∧
    ∀ s, key ∉ (reconcile f clock cfg cloud st).1.members s := by
  refine ⟨reconcile_get_orphan f clock cfg cloud st hok hws key vmID hparse horphan, ?_⟩
  intro s
  rw [reconcile_store_of_ok f clock cfg cloud st hok]
  have hne : ∀ inst ∈ cloud, instanceKey inst.VMID ≠ key := fun inst hi =>
    instanceKey_ne_of_orphan _ key vmID inst.VMID hparse horphan
      (List.mem_map.2 ⟨inst, hi, rfl⟩) (hws inst hi)
  rw [mem_foldl_apply_frame]
  · apply not_mem_foldl_apply
    · right
      exact (mem_queueOrphans_cmds _ _ _).2 ⟨key, hkey, ⟨vmID, hparse, horphan⟩, Or.inr ⟨s, rfl⟩⟩
    · intro hv
      obtain ⟨k, -, -, hc | ⟨s, hc⟩⟩ := (mem_queueOrphans_cmds _ _ _).1 hv <;> cases hc
  · intro c hc
    obtain ⟨inst, hi, -, rfl | rfl⟩ := (mem_queueNewRecords_cmds _ _ _ _ _).1 hc
    · exact ⟨by simp, by simp⟩
    · refine ⟨by simp, ?_⟩
      intro e
      cases e
      exact hne inst ((mem_ListInstances_inactive _ _).1 hi).1 rfl

/-- Witness for C2, amended (scenario S3): record `X` in the reserved set, VM `X` not in the
cloud; after one tick the record is gone and its key is in no status set. -/
theorem reconcile_removes_orphans_witness :
    (reconcile noReconcilerFaults testClock testConfig cloudS2 storeS3).2 = none ∧
    "vmss:instance:X" ∈ storeS3.reserved ∧
    (reconcile noReconcilerFaults testClock testConfig cloudS2 storeS3).1.get
      "vmss:instance:X" = none ∧
    ∀ s, "vmss:instance:X" ∉
      (reconcile noReconcilerFaults testClock testConfig cloudS2 storeS3).1.members s :=
  ⟨by decide, by decide,
    reconcile_removes_orphans noReconcilerFaults testClock testConfig cloudS2 storeS3
      (by decide) (by decide) "vmss:instance:X" "X" (by decide) (by decide) (by decide)⟩

/-- Counterexample to C2: the cloud holds a stopped VM with vmId `X Y`, the store a record
under `vmss:instance:X Y` in the reserved set.  `Sscanf` reads the vmId `X` from the key,
which is not in the inventory, so the tick deletes the record as an orphan, and then creates
it again for the stopped VM: after the tick the record exists and its key is in the
available set. -/
theorem reconcile_recreates_blank_vmid :
    "vmss:instance:X Y" ∈ blankStore.Keys "vmss:instance:" ∧
    sscanfVMID "vmss:instance:X Y" = some "X" ∧
    "X" ∉ blankCloud.map (fun inst => inst.VMID) ∧
    (reconcile noReconcilerFaults testClock testConfig blankCloud blankStore).2 = none ∧
    (reconcile noReconcilerFaults testClock testConfig blankCloud blankStore).1.get
      "vmss:instance:X Y" ≠ none ∧
    "vmss:instance:X Y" ∈
      (reconcile noReconcilerFaults testClock testConfig blankCloud blankStore).1.members
        .available := by
  decide

/-- C3: after a Reconciler tick that returns no error, every cloud VM whose key
`vmss:instance:{vmId}` had no record has, when its power state is stopped or deallocated, a
record under that key with status `Available`, `used = false`, `warm` true exactly when the
power state is stopped, region `GeoName`, vmId and instanceId copied from the VM, and the key
is a member of `vmss:status:available`; for a VM in any other power state there is still no
record under its key.  The vmIds of the inventory are pairwise distinct. -/
theorem reconcile_creates_records (f : ReconcilerFaults) (clock : Clock) (cfg : ScalerConfig)
    (cloud : List VMInstance) (st : Store)
    (hok : (reconcile f clock cfg cloud st).2 = none)
    (hnodup : (cloud.map (fun inst => inst.VMID)).Nodup)
    (vm : VMInstance) (hvm : vm ∈ cloud) (hnew : st.get (instanceKey vm.VMID) = none) :
    ((vm.State = PowerStateStopped ∨ vm.State = PowerStateDeallocated) →
      ∃ r, (reconcile f clock cfg cloud st).1.get (instanceKey vm.VMID) = some (marshal r) ∧
        unmarshal (marshal r) = some r ∧
        r.Status = VMStatusAvailable ∧ r.Used = false ∧
        (r.Warm = true ↔ vm.State = PowerStateStopped) ∧
        r.Region = cfg.GeoName ∧ r.VMID = vm.VMID ∧ r.InstanceID = vm.InstanceID ∧
        instanceKey vm.VMID ∈ (reconcile f clock cfg cloud st).1.members .available) ∧
    (¬ (vm.State = PowerStateStopped ∨ vm.State = PowerStateDeallocated) →
      (reconcile f clock cfg cloud st).1.get (instanceKey vm.VMID) = none) := by
  rw [reconcile_store_of_ok f clock cfg cloud st hok]
  have huniq : ∀ inst ∈ cloud, instanceKey inst.VMID = instanceKey vm.VMID → inst = vm :=
    fun inst hi e => List.inj_on_of_nodup_map hnodup hi hvm (instanceKey_injective e)
  have hst1 : ((queueOrphans (cloud.map (fun inst => inst.VMID))
      (st.Keys "vmss:instance:")).1.foldl Store.apply st).get (instanceKey vm.VMID) = none := by
    apply get_foldl_apply_none _ _ _ (Or.inl hnew)
    intro v hv
    obtain ⟨k, -, -, hc | ⟨s, hc⟩⟩ := (mem_queueOrphans_cmds _ _ _).1 hv <;> cases hc
  have hkeys : instanceKey vm.VMID ∉ ((queueOrphans (cloud.map (fun inst => inst.VMID))
      (st.Keys "vmss:instance:")).1.foldl Store.apply st).Keys "vmss:instance:" := by
    intro hm
    exact (get_eq_none_iff _ _).1 hst1 ((mem_Keys _ _ _).1 hm).1
  constructor
  · intro hstate
    have hvm' := (mem_ListInstances_inactive cloud vm).2 ⟨hvm, hstate⟩
    refine ⟨newRecord clock cfg vm, ?_, rfl, rfl, rfl, ?_, rfl, rfl, rfl, ?_⟩
    · apply get_foldl_apply_some
      · right
        exact (mem_queueNewRecords_cmds _ _ _ _ _).2 ⟨vm, hvm', hkeys, Or.inl rfl⟩
      · intro c hc hw
        obtain ⟨inst, hi, -, rfl | rfl⟩ := (mem_queueNewRecords_cmds _ _ _ _ _).1 hc
        · rw [huniq inst ((mem_ListInstances_inactive _ _).1 hi).1 hw]
        · exact absurd hw id
    · simp [newRecord]
    · apply mem_foldl_apply
      · right
        exact (mem_queueNewRecords_cmds _ _ _ _ _).2 ⟨vm, hvm', hkeys, Or.inr rfl⟩
      · intro hc
        obtain ⟨inst, -, -, hc | hc⟩ := (mem_queueNewRecords_cmds _ _ _ _ _).1 hc <;> cases hc
  · intro hstate
    rw [get_foldl_apply_frame, hst1]
    intro c hc hw
    obtain ⟨inst, hi, -, rfl | rfl⟩ := (mem_queueNewRecords_cmds _ _ _ _ _).1 hc
    · have hi' := (mem_ListInstances_inactive _ _).1 hi
      rw [huniq inst hi'.1 hw] at hi'
      exact hstate hi'.2
    · exact hw

/-- Witness for C3 (scenario S2): three stopped VMs and an empty store; VM `B` gets a warm
`Available` record and its key is in the available set. -/
theorem reconcile_creates_records_witness :
    (reconcile noReconcilerFaults testClock testConfig cloudS2 emptyStore).1.get
        "vmss:instance:B" =
      some (marshal
        { VMID := "B", InstanceID := "1", PublicIP := "0.0.0.0", ClientIP := "",
          SessionID := "", Status := "Available", CreatedAt := "1000", UpdatedAt := "",
          Region := "westeurope", Used := false, Warm := true }) ∧
    (reconcile noReconcilerFaults testClock testConfig cloudS2 emptyStore).1.available =
      ["vmss:instance:A", "vmss:instance:B", "vmss:instance:C"] ∧
    ((testInstance "B" "1" PowerStateStopped).State = PowerStateStopped ∨
      (testInstance "B" "1" PowerStateStopped).State = PowerStateDeallocated →
      ∃ r, (reconcile noReconcilerFaults testClock testConfig cloudS2 emptyStore).1.get
          (instanceKey (testInstance "B" "1" PowerStateStopped).VMID) = some (marshal r) ∧
        unmarshal (marshal r) = some r ∧
        r.Status = VMStatusAvailable ∧ r.Used = false ∧
        (r.Warm = true ↔ (testInstance "B" "1" PowerStateStopped).State = PowerStateStopped) ∧
        r.Region = testConfig.GeoName ∧ r.VMID = (testInstance "B" "1" PowerStateStopped).VMID ∧
        r.InstanceID = (testInstance "B" "1" PowerStateStopped).InstanceID ∧
        instanceKey (testInstance "B" "1" PowerStateStopped).VMID ∈
          (reconcile noReconcilerFaults testClock testConfig cloudS2 emptyStore).1.members
            .available) :=
  ⟨by decide, by decide,
    (reconcile_creates_records noReconcilerFaults testClock testConfig cloudS2 emptyStore
      (by decide) (by decide) (testInstance "B" "1" PowerStateStopped) (by decide)
      (by decide)).1⟩

theorem invariant2_iff (cloud : List VMInstance) (st : Store) :
    invariant2 cloud st = true ↔
      ∀ key ∈ st.Keys "vmss:instance:", ∀ vmID, sscanfVMID key = some vmID →
        vmID ∈ cloud.map (fun inst => inst.VMID) := by
  simp only [invariant2, List.all_eq_true]
  constructor
  · intro h key hkey vmID hparse
    have := h key hkey
    simpa [hparse] using this
  · intro h key hkey
    cases hparse : sscanfVMID key with
    | none => rfl
    | some vmID => simpa using h key hkey vmID hparse

theorem invariant3_iff (cloud : List VMInstance) (st : Store) :
    invariant3 cloud st = true ↔
      ∀ vm ∈ cloud, (vm.State = PowerStateStopped ∨ vm.State = PowerStateDeallocated) →
        st.get (instanceKey vm.VMID) ≠ none := by
  simp only [invariant3, List.all_eq_true]
  constructor
  · intro h vm hvm hstate
    have := h vm hvm
    rw [if_pos hstate] at this
    exact Option.isSome_iff_ne_none.1 this
  · intro h vm hvm
    by_cases hstate : vm.State = PowerStateStopped ∨ vm.State = PowerStateDeallocated
    · rw [if_pos hstate]
      exact Option.isSome_iff_ne_none.2 (h vm hvm hstate)
    · rw [if_neg hstate]

/-- After a Reconciler tick that returns no error, invariant 2 (read by record key) and
invariant 3 hold, whatever the store was before. -/
theorem reconcile_invariants (f : ReconcilerFaults) (clock : Clock) (cfg : ScalerConfig)
    (cloud : List VMInstance) (st : Store)
    (hok : (reconcile f clock cfg cloud st).2 = none)
    (hws : ∀ inst ∈ cloud, ∀ c ∈ inst.VMID.data, isSpace c = false) :
    invariant2 cloud (reconcile f clock cfg cloud st).1 = true ∧
    invariant3 cloud (reconcile f clock cfg cloud st).1 = true := by
  rw [invariant2_iff, invariant3_iff]
  constructor
  · intro key hkey vmID hparse
    by_contra horphan
    have hnone := reconcile_get_orphan f clock cfg cloud st hok hws key vmID hparse horphan
    exact (get_eq_none_iff _ _).1 hnone ((mem_Keys _ _ _).1 hkey).1
  · intro vm hvm hstate
    rw [reconcile_store_of_ok f clock cfg cloud st hok]
    have hvm' := (mem_ListInstances_inactive cloud vm).2 ⟨hvm, hstate⟩
    apply get_foldl_apply_ne_none
    · by_cases hk : instanceKey vm.VMID ∈ ((queueOrphans (cloud.map (fun inst => inst.VMID))
          (st.Keys "vmss:instance:")).1.foldl Store.apply st).Keys "vmss:instance:"
      · left
        intro hnone
        exact (get_eq_none_iff _ _).1 hnone ((mem_Keys _ _ _).1 hk).1
      · right
        exact ⟨_, (mem_queueNewRecords_cmds _ _ _ _ _).2 ⟨vm, hvm', hk, Or.inl rfl⟩⟩
    · intro hc
      obtain ⟨inst, -, -, hc | hc⟩ := (mem_queueNewRecords_cmds _ _ _ _ _).1 hc <;> cases hc

/-- C4, amended: after two consecutive Reconciler ticks that return no error, with the same
cloud inventory (vmIds without white space), from any state of the state store: for every
record key, the vmId the Reconciler scans from it (the first run of characters that are not
white space after the prefix `vmss:instance:`) is in the cloud inventory; so the vmId of
every record under a key `vmss:instance:{vmId}`, for a vmId that is not empty and has no
white space, is in the cloud inventory; and every stopped or deallocated cloud VM has a
record.  A key from which nothing can be scanned, what follows white space in a key, and
the `vmId` field of a record are not read.  Invariant 1 is not part of it: the Reconciler
never moves an existing key between status sets nor rewrites an existing record. -/
theorem reconcile_twice_invariants (f₁ f₂ : ReconcilerFaults) (clock₁ clock₂ : Clock)
    (cfg : ScalerConfig) (cloud : List VMInstance) (st : Store)
    (hws : ∀ inst ∈ cloud, ∀ c ∈ inst.VMID.data, isSpace c = false)
    (_hok₁ : (reconcile f₁ clock₁ cfg cloud st).2 = none)
    (hok₂ : (reconcile f₂ clock₂ cfg cloud (reconcile f₁ clock₁ cfg cloud st).1).2 = none) :
    (∀ key ∈ (reconcile f₂ clock₂ cfg cloud (reconcile f₁ clock₁ cfg cloud st).1).1.Keys
        "vmss:instance:",
      ∀ vmID, sscanfVMID key = some vmID → vmID ∈ cloud.map (fun inst => inst.VMID)) ∧
    (∀ vmID, vmID ≠ "" → (∀ c ∈ vmID.data, isSpace c = false) →
      (reconcile f₂ clock₂ cfg cloud (reconcile f₁ clock₁ cfg cloud st).1).1.get
        (instanceKey vmID) ≠ none →
      vmID ∈ cloud.map (fun inst => inst.VMID)) ∧
    (∀ vm ∈ cloud, (vm.State = PowerStateStopped ∨ vm.State = PowerStateDeallocated) →
      (reconcile f₂ clock₂ cfg cloud (reconcile f₁ clock₁ cfg cloud st).1).1.get
        (instanceKey vm.VMID) ≠ none) := by
  have h := reconcile_invariants f₂ clock₂ cfg cloud _ hok₂ hws
  have h2 := (invariant2_iff _ _).1 h.1
  have h3 := (invariant3_iff _ _).1 h.2
  refine ⟨h2, ?_, h3⟩
  intro vmID hne hsp hget
  refine h2 (instanceKey vmID) ((mem_Keys _ _ _).2 ⟨?_, instanceKey_hasPrefix vmID⟩) vmID
    (by rw [sscanfVMID_instanceKey vmID hsp, if_neg hne])
  by_contra hk
  exact hget ((get_eq_none_iff _ _).2 hk)

/-- Witness for C4, amended: two ticks over scenario S3's store (an orphan record of `X`) and
scenario S2's cloud (three stopped VMs): afterwards the record of `X` is gone, every record
key scans to a vmId of the cloud, and each of the three VMs has a record. -/
theorem reconcile_twice_invariants_witness :
    (reconcile noReconcilerFaults testClock testConfig cloudS2
      (reconcile noReconcilerFaults testClock testConfig cloudS2 storeS3).1).1.get
        "vmss:instance:X" = none ∧
    (∀ key ∈ (reconcile noReconcilerFaults testClock testConfig cloudS2
        (reconcile noReconcilerFaults testClock testConfig cloudS2 storeS3).1).1.Keys
          "vmss:instance:",
      ∀ vmID, sscanfVMID key = some vmID → vmID ∈ cloudS2.map (fun inst => inst.VMID)) ∧
    (∀ vm ∈ cloudS2, (vm.State = PowerStateStopped ∨ vm.State = PowerStateDeallocated) →
      (reconcile noReconcilerFaults testClock testConfig cloudS2
        (reconcile noReconcilerFaults testClock testConfig cloudS2 storeS3).1).1.get
          (instanceKey vm.VMID) ≠ none) :=
  ⟨by decide,
   (reconcile_twice_invariants noReconcilerFaults noReconcilerFaults testClock testClock
      testConfig cloudS2 storeS3 (by decide) (by decide) (by decide)).1,
   (reconcile_twice_invariants noReconcilerFaults noReconcilerFaults testClock testClock
      testConfig cloudS2 storeS3 (by decide) (by decide) (by decide)).2.2⟩

/-- Counterexample to C4, at two inputs.  VM `A` is running, its record says `Available`
and its key is in the reserved set: two Reconciler ticks on a failure-free store return no
error and leave the store as it was, so invariant 1 still fails.  VM `X` is the whole
inventory and the store holds, under the key `vmss:instance:X junk`, a record whose vmId is
`X junk`: the Reconciler scans `X` from the key, finds it in the inventory, and two ticks
leave the record of a vmId that is not in the cloud inventory where it was. -/
theorem reconcile_twice_keeps_drift :
    (reconcile noReconcilerFaults testClock testConfig driftCloud driftStore).2 = none ∧
    (reconcile noReconcilerFaults testClock testConfig driftCloud
      (reconcile noReconcilerFaults testClock testConfig driftCloud driftStore).1) =
      (driftStore, none) ∧
    invariant1 (reconcile noReconcilerFaults testClock testConfig driftCloud
      (reconcile noReconcilerFaults testClock testConfig driftCloud driftStore).1).1 = false ∧
    invariant2 driftCloud (reconcile noReconcilerFaults testClock testConfig driftCloud
      (reconcile noReconcilerFaults testClock testConfig driftCloud driftStore).1).1 = true ∧
    invariant3 driftCloud (reconcile noReconcilerFaults testClock testConfig driftCloud
      (reconcile noReconcilerFaults testClock testConfig driftCloud driftStore).1).1 = true ∧
    reconcile noReconcilerFaults testClock testConfig junkCloud junkStore = (junkStore, none) ∧
    (reconcile noReconcilerFaults testClock testConfig junkCloud
      (reconcile noReconcilerFaults testClock testConfig junkCloud junkStore).1) =
      (junkStore, none) ∧
    sscanfVMID "vmss:instance:X junk" = some "X" ∧
    ((junkStore.get "vmss:instance:X junk").bind unmarshal).map (fun r => r.VMID) =
      some "X junk" ∧
    "X junk" ∉ junkCloud.map (fun inst => inst.VMID) ∧
    invariant1 junkStore = true := by
  decide

/-! ### Durations -/

theorem wrapInt64_of_fits (x : Int) (h0 : 0 ≤ x) (h1 : x < 2 ^ 63) : wrapInt64 x = x := by
  unfold wrapInt64
  rw [Int.emod_eq_of_lt (by omega) (by omega)]
  omega

theorem since_ge_iff (now t x : Int) (h0 : 0 ≤ x) (h1 : x < 2 ^ 63) :
    since now t ≥ x ↔ x ≤ now - t := by
  unfold since
  constructor
  · intro h
    by_contra hlt
    have h2 : min (2 ^ 63 - 1) (now - t) < x := lt_of_le_of_lt (min_le_right _ _) (by omega)
    have h3 : max (-(2 ^ 63)) (min (2 ^ 63 - 1) (now - t)) < x := max_lt (by omega) h2
    omega
  · intro h
    exact le_trans (le_min (by omega) h) (le_max_right _ _)

theorem shouldCleanup_iff (clock : Clock) (cfg : ScalerConfig) (key : String)
    (r : VMRedisRecord) (hpos : 0 < cfg.VMRuntime) (hfit : cfg.VMRuntime * second < 2 ^ 63) :
    shouldCleanup clock cfg key r = true ↔
      (r.Used = true ∨ ∃ t, clock.parse r.UpdatedAt = some t ∧
        cfg.VMRuntime * second ≤ clock.now key - t) := by
  have h0 : 0 ≤ cfg.VMRuntime * second := by
    unfold second
    omega
  unfold shouldCleanup
  by_cases hu : r.Used = true
  · simp [hu]
  · cases hp : clock.parse r.UpdatedAt with
    | none => simp [hu]
    | some t =>
      simp only [hu, Bool.false_eq_true, if_false, decide_eq_true_eq, false_or, Option.some.injEq,
        exists_eq_left', wrapInt64_of_fits _ h0 hfit]
      exact since_ge_iff _ _ _ h0 hfit

/-! ### Loops over selected keys -/

theorem Exec_get_frame (st : Store) (fault : ExecFault) (cmds : List Cmd) (k : String)
    (h : ∀ c ∈ cmds, ¬ c.writes k) : (st.Exec fault cmds).1.get k = st.get k := by
  cases fault with
  | none => exact get_foldl_apply_frame cmds st k h
  | some mask =>
    simp only [Store.Exec]
    induction cmds generalizing st mask with
    | nil => rfl
    | cons c cs ih =>
      cases mask with
      | nil => rfl
      | cons b bs =>
        simp only [List.zip_cons_cons, List.foldl_cons]
        rw [ih _ (fun c' hc' => h c' (List.mem_cons_of_mem _ hc'))]
        cases b
        · rfl
        · exact get_apply_of_not_writes _ _ _ (h c (List.mem_cons_self _ _))

theorem Exec_mem_frame (st : Store) (fault : ExecFault) (cmds : List Cmd) (t : StatusSet)
    (k : String) (h : ∀ c ∈ cmds, c ≠ Cmd.srem t k ∧ c ≠ Cmd.sadd t k) :
    k ∈ (st.Exec fault cmds).1.members t ↔ k ∈ st.members t := by
  cases fault with
  | none => exact mem_foldl_apply_frame cmds st t k h
  | some mask =>
    simp only [Store.Exec]
    induction cmds generalizing st mask with
    | nil => rfl
    | cons c cs ih =>
      cases mask with
      | nil => rfl
      | cons b bs =>
        simp only [List.zip_cons_cons, List.foldl_cons]
        rw [ih _ (fun c' hc' => h c' (List.mem_cons_of_mem _ hc'))]
        cases b
        · rfl
        · have := h c (List.mem_cons_self _ _)
          simp [mem_members_apply, this.1, this.2]

/-- A property of the store that every run of the body keeps is kept by the loop. -/
theorem forEachKey_preserves (body : Store → String → Store × List Effect)
    (P : Store → Prop) (keys : List String)
    (hbody : ∀ st k, k ∈ keys → P st → P (body st k).1) (st : Store) (h : P st) :
    P (forEachKey body keys st).1 := by
  induction keys generalizing st with
  | nil => exact h
  | cons k ks ih =>
    simp only [forEachKey]
    exact ih (fun st' k' hk' => hbody st' k' (List.mem_cons_of_mem _ hk')) _
      (hbody st k (List.mem_cons_self _ _) h)

/-- A property `Q` that the body establishes on `key` from `P`, that the bodies of the other
keys keep together with `P`, and that no body destroys, holds after a loop that visits
`key`. -/
theorem forEachKey_establishes (body : Store → String → Store × List Effect)
    (P Q : Store → Prop) (key : String) (keys : List String) (hkey : key ∈ keys)
    (hQ : ∀ st k, Q st → Q (body st k).1)
    (hP : ∀ st k, k ≠ key → P st → P (body st k).1)
    (hPQ : ∀ st, P st → Q (body st key).1) (st : Store) (h : P st) :
    Q (forEachKey body keys st).1 := by
  induction keys generalizing st with
  | nil => cases hkey
  | cons k ks ih =>
    simp only [forEachKey]
    by_cases hk : k = key
    · subst hk
      exact forEachKey_preserves body Q ks (fun st' k' _ hq => hQ st' k' hq) _ (hPQ st h)
    · rcases List.mem_cons.1 hkey with e | hmem
      · exact absurd e.symm hk
      · exact ih hmem _ (hP st k hk h)

/-! ### Cleaner -/

theorem cleanOne_store (f : CleanerFaults) (clock : Clock) (cfg : ScalerConfig) (st : Store)
    (key : String) (hstore : f.storeOk) :
    (cleanOne f clock cfg st key).1 =
      match (st.get key).bind unmarshal with
      | none => st
      | some record =>
        if shouldCleanup clock cfg key record then (st.srem .unavailable key).del key else st := by
  obtain ⟨-, hget, hexec⟩ := hstore
  unfold cleanOne
  simp only [hget key, Bool.false_eq_true, if_false, hexec key, Exec_none]
  cases hg : st.get key with
  | none => rfl
  | some data =>
    cases hu : unmarshal data with
    | none => simp [hu]
    | some record =>
      by_cases hs : shouldCleanup clock cfg key record = true
      · by_cases hd : f.deleteInstance record.InstanceID = true <;>
          simp [hu, hs, hd, Store.apply]
      · simp [hu, hs]

theorem cleanOne_get_other (f : CleanerFaults) (clock : Clock) (cfg : ScalerConfig)
    (st : Store) (key k : String) (hk : key ≠ k) :
    (cleanOne f clock cfg st key).1.get k = st.get k := by
  have hframe : ((st.Exec (f.exec key) [Cmd.srem .unavailable key, Cmd.del key]).1).get k =
      st.get k := by
    apply Exec_get_frame
    intro c hc
    simp only [List.mem_cons, List.mem_singleton, List.not_mem_nil, or_false] at hc
    rcases hc with rfl | rfl
    · exact id
    · exact hk
  unfold cleanOne
  split
  · rfl
  · split
    · rfl
    · split
      · rfl
      · split
        · rfl
        · simp only
          split <;> [exact hframe; (split <;> exact hframe)]

theorem cleanOne_mem_other (f : CleanerFaults) (clock : Clock) (cfg : ScalerConfig)
    (st : Store) (key k : String) (t : StatusSet) (hk : key ≠ k) :
    k ∈ (cleanOne f clock cfg st key).1.members t ↔ k ∈ st.members t := by
  have hframe : k ∈ ((st.Exec (f.exec key) [Cmd.srem .unavailable key, Cmd.del key]).1).members t
      ↔ k ∈ st.members t := by
    apply Exec_mem_frame
    intro c hc
    simp only [List.mem_cons, List.mem_singleton, List.not_mem_nil, or_false] at hc
    rcases hc with rfl | rfl
    · refine ⟨?_, by simp⟩
      intro e
      cases e
      exact hk rfl
    · exact ⟨by simp, by simp⟩
  unfold cleanOne
  split
  · rfl
  · split
    · rfl
    · split
      · rfl
      · split
        · rfl
        · simp only
          split <;> [exact hframe; (split <;> exact hframe)]

theorem clean_store (f : CleanerFaults) (clock : Clock) (cfg : ScalerConfig) (st : Store)
    (h : f.smembers = false) :
    (clean f clock cfg st).1 =
      (forEachKey (cleanOne f clock cfg) (st.SMembers .unavailable) st).1 ∧
    (clean f clock cfg st).2.1 =
      (forEachKey (cleanOne f clock cfg) (st.SMembers .unavailable) st).2 ∧
    (clean f clock cfg st).2.2 = none := by
  unfold clean
  simp only [h, Bool.false_eq_true, if_false]
  cases hm : st.SMembers .unavailable with
  | nil => simp [forEachKey]
  | cons k ks => simp

/-- The Cleaner's treatment of one member of the unavailable set whose record parses, on a
failure-free store. -/
theorem clean_member (f : CleanerFaults) (clock : Clock) (cfg : ScalerConfig) (st : Store)
    (hstore : f.storeOk) (key : String) (hkey : key ∈ st.members .unavailable)
    (r : VMRedisRecord) (hrec : (st.get key).bind unmarshal = some r) :
    (shouldCleanup clock cfg key r = true →
      (clean f clock cfg st).1.get key = none ∧
      key ∉ (clean f clock cfg st).1.members .unavailable) ∧
    (shouldCleanup clock cfg key r ≠ true →
      (clean f clock cfg st).1.get key = st.get key ∧
      ∀ s, (key ∈ (clean f clock cfg st).1.members s ↔ key ∈ st.members s)) := by
  rw [(clean_store f clock cfg st hstore.1).1]
  have hother_get : ∀ (st' : Store) (k : String), k ≠ key →
      (cleanOne f clock cfg st' k).1.get key = st'.get key :=
    fun st' k hk => cleanOne_get_other f clock cfg st' k key hk
  have hother_mem : ∀ (st' : Store) (k : String) (s : StatusSet), k ≠ key →
      (key ∈ (cleanOne f clock cfg st' k).1.members s ↔ key ∈ st'.members s) :=
    fun st' k s hk => cleanOne_mem_other f clock cfg st' k key s hk
  constructor
  · intro hE
    apply forEachKey_establishes (cleanOne f clock cfg)
      (fun st' => st'.get key = st.get key)
      (fun st' => st'.get key = none ∧ key ∉ st'.members .unavailable) key _
      (List.mem_dedup.2 hkey)
    · rintro st' k ⟨hg, hm⟩
      by_cases hk : k = key
      · subst hk
        rw [cleanOne_store f clock cfg st' k hstore, hg]
        exact ⟨hg, hm⟩
      · exact ⟨by rw [hother_get st' k hk]; exact hg, by rw [hother_mem st' k _ hk]; exact hm⟩
    · intro st' k hk hg
      show (cleanOne f clock cfg st' k).1.get key = st.get key
      rw [hother_get st' k hk]
      exact hg
    · intro st' hg
      replace hg : st'.get key = st.get key := hg
      show (cleanOne f clock cfg st' key).1.get key = none ∧
        key ∉ (cleanOne f clock cfg st' key).1.members .unavailable
      rw [cleanOne_store f clock cfg st' key hstore, hg, hrec]
      simp only [hE, if_true]
      refine ⟨by simp [get_del], ?_⟩
      rw [members_del, mem_members_srem]
      simp
    · rfl
  · intro hE
    exact forEachKey_preserves (cleanOne f clock cfg)
      (fun st' => st'.get key = st.get key ∧ ∀ s, (key ∈ st'.members s ↔ key ∈ st.members s))
      _ (by
        rintro st' k - ⟨hg, hm⟩
        by_cases hk : k = key
        · subst hk
          rw [cleanOne_store f clock cfg st' k hstore, hg, hrec]
          simp only [hE, if_false]
          exact ⟨hg, hm⟩
        · exact ⟨by rw [hother_get st' k hk]; exact hg,
            fun s => by rw [hother_mem st' k s hk]; exact hm s⟩) st ⟨rfl, fun _ => Iff.rfl⟩

/-- C5, amended: in a Cleaner tick over a failure-free store, with a positive `VMRuntime`
(as `NewService` checks) whose seconds fit a `time.Duration` (`VMRuntime * 10^9 < 2^63`), a
member of `vmss:status:unavailable` whose record parses is cleaned (record deleted and key
removed from the unavailable set) if and only if `record.used` is true or `updatedAt` is a
timestamp with `now - updatedAt ≥ VMRuntime` seconds; otherwise its record and its
membership in every status set are unchanged; an age of exactly `VMRuntime` seconds is
cleaned; and the tick returns no error. -/
theorem clean_iff_used_or_aged (f : CleanerFaults) (clock : Clock) (cfg : ScalerConfig)
    (st : Store) (hstore : f.storeOk)
    (hpos : 0 < cfg.VMRuntime) (hfit : cfg.VMRuntime * second < 2 ^ 63)
    (key : String) (hkey : key ∈ st.members .unavailable)
    (r : VMRedisRecord) (hrec : (st.get key).bind unmarshal = some r) :
    (clean f clock cfg st).2.2 = none ∧
    (((clean f clock cfg st).1.get key = none ∧
        key ∉ (clean f clock cfg st).1.members .unavailable) ↔
      (r.Used = true ∨ ∃ t, clock.parse r.UpdatedAt = some t ∧
        cfg.VMRuntime * second ≤ clock.now key - t)) ∧
    (¬ (r.Used = true ∨ ∃ t, clock.parse r.UpdatedAt = some t ∧
        cfg.VMRuntime * second ≤ clock.now key - t) →
      (clean f clock cfg st).1.get key = st.get key ∧
      ∀ s, (key ∈ (clean f clock cfg st).1.members s ↔ key ∈ st.members s)) ∧
    (∀ t, clock.parse r.UpdatedAt = some t → clock.now key - t = cfg.VMRuntime * second →
      (clean f clock cfg st).1.get key = none ∧
      key ∉ (clean f clock cfg st).1.members .unavailable) := by
  have hm := clean_member f clock cfg st hstore key hkey r hrec
  have hiff := shouldCleanup_iff clock cfg key r hpos hfit
  have hsome : st.get key ≠ none := by
    intro h
    rw [h] at hrec
    cases hrec
  refine ⟨(clean_store f clock cfg st hstore.1).2.2, ⟨?_, ?_⟩, ?_, ?_⟩
  · intro hc
    by_contra hn
    have := (hm.2 (fun h => hn (hiff.1 h))).1
    rw [hc.1] at this
    exact hsome this.symm
  · intro he
    exact hm.1 (hiff.2 he)
  · intro hn
    exact hm.2 (fun h => hn (hiff.1 h))
  · intro t ht hage
    exact hm.1 (hiff.2 (Or.inr ⟨t, ht, le_of_eq hage.symm⟩))

/-- Witness for C5, amended (scenarios S4 and S5 and the boundary): at clock reading 1000 s with
`VMRuntime = 360`, `W` (age exactly 360 s) is cleaned and `Z` (age 10 s) is kept. -/
theorem clean_iff_used_or_aged_witness :
    (clean noCleanerFaults testClock testConfig storeS4).1.get "vmss:instance:W" = none ∧
    "vmss:instance:W" ∉ (clean noCleanerFaults testClock testConfig storeS4).1.members
      .unavailable ∧
    (clean noCleanerFaults testClock testConfig storeS4).1.get "vmss:instance:Z" =
      storeS4.get "vmss:instance:Z" ∧
    "vmss:instance:Z" ∈ (clean noCleanerFaults testClock testConfig storeS4).1.members
      .unavailable :=
  ⟨((clean_iff_used_or_aged noCleanerFaults testClock testConfig storeS4
      ⟨rfl, fun _ => rfl, fun _ => rfl⟩ (by decide) (by decide) "vmss:instance:W" (by decide)
      (testRecord "W" "3" VMStatusUnavailable "640" false) (by decide)).2.2.2
      640000000000 (by decide) (by decide)).1,
   ((clean_iff_used_or_aged noCleanerFaults testClock testConfig storeS4
      ⟨rfl, fun _ => rfl, fun _ => rfl⟩ (by decide) (by decide) "vmss:instance:W" (by decide)
      (testRecord "W" "3" VMStatusUnavailable "640" false) (by decide)).2.2.2
      640000000000 (by decide) (by decide)).2,
   by decide, by decide⟩

/-- Counterexample to C5: with `VMRuntime = 9223372037` (a positive `int`, which `NewService`
accepts) the product `time.Duration(VMRuntime) * time.Second` wraps to a negative duration.
At clock reading 1000 s the unused record `Z`, updated at 990 s, is 10 s old, which is far
below `VMRuntime` seconds, and the tick deletes it and removes its key from the unavailable
set. -/
theorem clean_overflowing_runtime_cleans_young :
    0 < overflowConfig.VMRuntime ∧
    storeS4.get "vmss:instance:Z" =
      some (marshal (testRecord "Z" "2" VMStatusUnavailable "990" false)) ∧
    testClock.parse "990" = some 990000000000 ∧
    testClock.now "vmss:instance:Z" - 990000000000 = 10 * second ∧
    ¬ (overflowConfig.VMRuntime * second ≤ testClock.now "vmss:instance:Z" - 990000000000) ∧
    wrapInt64 (overflowConfig.VMRuntime * second) = -9223372036709551616 ∧
    (clean noCleanerFaults testClock overflowConfig storeS4).1.get "vmss:instance:Z" = none ∧
    "vmss:instance:Z" ∉
      (clean noCleanerFaults testClock overflowConfig storeS4).1.members .unavailable ∧
    (clean noCleanerFaults testClock overflowConfig storeS4).2.2 = none := by
  decide

theorem Exec_cleanBatch_get (st : Store) (fault : ExecFault) (key k : String) :
    (st.Exec fault [Cmd.srem .unavailable key, Cmd.del key]).1.get k = none ∨
    (st.Exec fault [Cmd.srem .unavailable key, Cmd.del key]).1.get k = st.get k := by
  by_cases hk : key = k
  · subst hk
    cases fault with
    | none => left; simp [Store.Exec, Store.apply, get_del]
    | some mask =>
      match mask with
      | [] => right; rfl
      | [b] => right; cases b <;> simp [Store.Exec, Store.apply]
      | b₁ :: true :: _ => left; cases b₁ <;> simp [Store.Exec, Store.apply, get_del]
      | b₁ :: false :: _ => right; cases b₁ <;> simp [Store.Exec, Store.apply]
  · right
    apply Exec_get_frame
    intro c hc
    simp only [List.mem_cons, List.mem_singleton, List.not_mem_nil, or_false] at hc
    rcases hc with rfl | rfl
    · exact id
    · exact hk

theorem cleanOne_get_inv (f : CleanerFaults) (clock : Clock) (cfg : ScalerConfig)
    (st : Store) (key k : String) :
    (cleanOne f clock cfg st key).1.get k = none ∨
    (cleanOne f clock cfg st key).1.get k = st.get k := by
  have hE := Exec_cleanBatch_get st (f.exec key) key k
  unfold cleanOne
  split
  · exact Or.inr rfl
  · split
    · exact Or.inr rfl
    · split
      · exact Or.inr rfl
      · split
        · exact Or.inr rfl
        · simp only
          split <;> [exact hE; (split <;> exact hE)]

theorem cleanOne_segment (f : CleanerFaults) (clock : Clock) (cfg : ScalerConfig)
    (st st' : Store) (key : String) (h : st'.get key = none ∨ st'.get key = st.get key) :
    CleanSegment f cfg st key (cleanOne f clock cfg st' key).2 := by
  unfold cleanOne
  by_cases hget : f.get key = true
  · simp only [hget, if_true]
    exact Or.inl rfl
  simp only [hget, Bool.false_eq_true, if_false]
  cases hg : st'.get key with
  | none => exact Or.inl rfl
  | some data =>
    have hst : st.get key = some data := by
      rcases h with h | h
      · rw [hg] at h
        cases h
      · rw [← h, hg]
    simp only []
    cases hu : unmarshal data with
    | none => exact Or.inl rfl
    | some record =>
      simp only []
      by_cases hs : shouldCleanup clock cfg key record = true
      · simp only [hs, Bool.not_true, Bool.false_eq_true, if_false]
        cases hx : f.exec key with
        | some mask =>
          right
          left
          exact ⟨by rw [hx]; simp, by simp [Exec_some_snd]⟩
        | none =>
          right
          right
          refine ⟨record, by rw [hst]; exact hu, hx, ?_⟩
          by_cases hd : f.deleteInstance record.InstanceID = true
          · left
            exact ⟨hd, by simp [Exec_none, hd]⟩
          · right
            exact ⟨by simpa using hd, by simp [Exec_none, hd]⟩
      · simp only [hs, Bool.not_false, if_true]
        exact Or.inl rfl

theorem forEachKey_clean_segments (f : CleanerFaults) (clock : Clock) (cfg : ScalerConfig)
    (st : Store) (keys : List String) (st' : Store)
    (h : ∀ k, st'.get k = none ∨ st'.get k = st.get k) :
    ∃ segs : List (List Effect),
      (forEachKey (cleanOne f clock cfg) keys st').2 = segs.flatten ∧
      List.Forall₂ (CleanSegment f cfg st) keys segs := by
  induction keys generalizing st' with
  | nil => exact ⟨[], rfl, List.Forall₂.nil⟩
  | cons k ks ih =>
    have hinv : ∀ k', (cleanOne f clock cfg st' k).1.get k' = none ∨
        (cleanOne f clock cfg st' k).1.get k' = st.get k' := by
      intro k'
      rcases cleanOne_get_inv f clock cfg st' k k' with h1 | h1
      · exact Or.inl h1
      · rw [h1]
        exact h k'
    obtain ⟨segs, hjoin, hall⟩ := ih _ hinv
    refine ⟨(cleanOne f clock cfg st' k).2 :: segs, ?_, ?_⟩
    · simp only [forEachKey, List.flatten_cons, hjoin]
    · exact List.Forall₂.cons (cleanOne_segment f clock cfg st st' k (h k)) hall

/-- C6: the effects of a Cleaner tick are, member by member in the order of the unavailable
set, one segment each: nothing; or the failed batch alone (no `DeleteInstance` for that
record); or the successful batch (remove the key from `vmss:status:unavailable`, delete the
record) followed by `DeleteInstance(record.instanceId)`; and the `clean` telemetry event
comes only right after a `DeleteInstance` that succeeded.  This holds whatever calls
fail. -/
theorem clean_effects_ordered (f : CleanerFaults) (clock : Clock) (cfg : ScalerConfig)
    (st : Store) :
    ∃ segs : List (List Effect),
      (clean f clock cfg st).2.1 = segs.flatten ∧
      List.Forall₂ (CleanSegment f cfg st) (st.SMembers .unavailable) segs := by
  by_cases hs : f.smembers = true
  · refine ⟨(st.SMembers .unavailable).map (fun _ => []), ?_, ?_⟩
    · simp [clean, hs]
    · rw [List.forall₂_map_right_iff]
      exact List.forall₂_same.2 (fun _ _ => Or.inl rfl)
  · rw [(clean_store f clock cfg st (by simpa using hs)).2.1]
    exact forEachKey_clean_segments f clock cfg st _ st (fun _ => Or.inr rfl)

/-- Witness for C6: a tick in which the batch of `Y` fails and the `DeleteInstance` of `W`'s
instance fails. -/
theorem clean_effects_ordered_witness :
    (clean someCleanerFaults testClock testConfig storeS4).2.1 =
      [.exec [Cmd.srem .unavailable "vmss:instance:Y", Cmd.del "vmss:instance:Y"] false,
       .exec [Cmd.srem .unavailable "vmss:instance:W", Cmd.del "vmss:instance:W"] true,
       .deleteInstance "3" false,
       .exec [Cmd.srem .unavailable "vmss:instance:U", Cmd.del "vmss:instance:U"] true,
       .deleteInstance "4" true,
       .telemetry { Operation := "clean", Success := true, ResourceID := "4" } "westeurope"] ∧
    ∃ segs : List (List Effect),
      (clean someCleanerFaults testClock testConfig storeS4).2.1 = segs.flatten ∧
      List.Forall₂ (CleanSegment someCleanerFaults testConfig storeS4)
        (storeS4.SMembers .unavailable) segs :=
  ⟨by decide, clean_effects_ordered someCleanerFaults testClock testConfig storeS4⟩

/-! ### Gateway route diff -/

theorem trimPrefixSlash_slash (v : String) : trimPrefixSlash ("/" ++ v) = v := by
  rcases v with ⟨l⟩
  rfl

theorem eq_slash_append_of_head (p : String) (h : p.data.head? = some '/') :
    p = "/" ++ trimPrefixSlash p := by
  rcases p with ⟨l⟩
  cases l with
  | nil => simp at h
  | cons c cs =>
    simp only [List.head?_cons, Option.some.injEq] at h
    subst h
    rfl

theorem slash_append_injective {a b : String} (h : "/" ++ a = "/" ++ b) : a = b := by
  have := congrArg trimPrefixSlash h
  rwa [trimPrefixSlash_slash, trimPrefixSlash_slash] at this

theorem keys_mapDelete (m : List (String × VMInstance)) (k : String) :
    (mapDelete m k).map Prod.fst = (m.map Prod.fst).filter (fun x => x ≠ k) := by
  simp only [mapDelete]
  rw [List.filter_map]
  rfl

theorem keys_mapInsert (m : List (String × VMInstance)) (k : String) (v : VMInstance) :
    (mapInsert m k v).map Prod.fst = (m.map Prod.fst).filter (fun x => x ≠ k) ++ [k] := by
  simp only [mapInsert, List.map_append, List.map_cons, List.map_nil]
  rw [List.filter_map]
  rfl

theorem mem_keys_mapInsert (m : List (String × VMInstance)) (k : String) (v : VMInstance)
    (x : String) : x ∈ (mapInsert m k v).map Prod.fst ↔ x ∈ m.map Prod.fst ∨ x = k := by
  rw [keys_mapInsert, List.mem_append, List.mem_filter, List.mem_singleton]
  constructor
  · rintro (⟨h, -⟩ | h)
    · exact Or.inl h
    · exact Or.inr h
  · rintro (h | h)
    · by_cases hk : x = k
      · exact Or.inr hk
      · exact Or.inl ⟨h, by simpa using hk⟩
    · exact Or.inr h

theorem nodup_keys_mapInsert (m : List (String × VMInstance)) (k : String) (v : VMInstance)
    (hm : (m.map Prod.fst).Nodup) : ((mapInsert m k v).map Prod.fst).Nodup := by
  rw [keys_mapInsert]
  apply List.Nodup.append (hm.filter _) (List.nodup_singleton _)
  intro x hx hx'
  rw [List.mem_singleton] at hx'
  subst hx'
  simp [List.mem_filter] at hx

theorem buildActive_aux (instances : List VMInstance) (m : List (String × VMInstance))
    (hm : (m.map Prod.fst).Nodup) :
    ((instances.foldl (fun m inst =>
        if inst.PrivateIP ≠ "" then mapInsert m inst.VMID inst else m) m).map Prod.fst).Nodup ∧
    ∀ k, k ∈ (instances.foldl (fun m inst =>
        if inst.PrivateIP ≠ "" then mapInsert m inst.VMID inst else m) m).map Prod.fst ↔
      k ∈ m.map Prod.fst ∨ ∃ inst ∈ instances, inst.VMID = k ∧ inst.PrivateIP ≠ "" := by
  induction instances generalizing m with
  | nil => simpa using hm
  | cons i is ih =>
    rw [List.foldl_cons]
    by_cases hi : i.PrivateIP ≠ ""
    · rw [if_pos hi]
      have hnd := nodup_keys_mapInsert m i.VMID i hm
      refine ⟨(ih _ hnd).1, fun k => ?_⟩
      rw [(ih _ hnd).2 k, mem_keys_mapInsert]
      constructor
      · rintro ((h | h) | ⟨j, hj, hjk⟩)
        · exact Or.inl h
        · exact Or.inr ⟨i, List.mem_cons_self _ _, h.symm, hi⟩
        · exact Or.inr ⟨j, List.mem_cons_of_mem _ hj, hjk⟩
      · rintro (h | ⟨j, hj, hjk⟩)
        · exact Or.inl (Or.inl h)
        · rcases List.mem_cons.1 hj with rfl | hj
          · exact Or.inl (Or.inr hjk.1.symm)
          · exact Or.inr ⟨j, hj, hjk⟩
    · rw [if_neg hi]
      refine ⟨(ih _ hm).1, fun k => ?_⟩
      rw [(ih _ hm).2 k]
      constructor
      · rintro (h | ⟨j, hj, hjk⟩)
        · exact Or.inl h
        · exact Or.inr ⟨j, List.mem_cons_of_mem _ hj, hjk⟩
      · rintro (h | ⟨j, hj, hjk⟩)
        · exact Or.inl h
        · rcases List.mem_cons.1 hj with rfl | hj
          · exact absurd hjk.2 hi
          · exact Or.inr ⟨j, hj, hjk⟩

theorem buildActive_nodup (instances : List VMInstance) :
    ((buildActive instances).map Prod.fst).Nodup :=
  (buildActive_aux instances [] List.nodup_nil).1

theorem mem_buildActive_keys (instances : List VMInstance) (k : String) :
    k ∈ (buildActive instances).map Prod.fst ↔
      ∃ inst ∈ instances, inst.VMID = k ∧ inst.PrivateIP ≠ "" := by
  have := (buildActive_aux instances [] List.nodup_nil).2 k
  simpa [buildActive] using this

theorem filterRules_cons_nopath (a : List (String × VMInstance)) (rule : PathRule)
    (rest : List PathRule) (h : ruleVMID rule = none) :
    filterRules a (rule :: rest) = filterRules a rest := by
  have hp : rule.Paths = [] := by
    cases hp : rule.Paths with
    | nil => rfl
    | cons p ps => simp [ruleVMID, hp] at h
  simp [filterRules, hp]

theorem filterRules_cons_default (a : List (String × VMInstance)) (rule : PathRule)
    (rest : List PathRule) (h : ruleVMID rule = some "default") :
    filterRules a (rule :: rest) =
      (rule :: (filterRules a rest).1, (filterRules a rest).2.1, (filterRules a rest).2.2.1,
        (filterRules a rest).2.2.2) := by
  cases hp : rule.Paths with
  | nil => simp [ruleVMID, hp] at h
  | cons p ps =>
    have hk : trimPrefixSlash p = "default" := by simpa [ruleVMID, hp] using h
    simp [filterRules, hp, hk]

theorem filterRules_cons_keep (a : List (String × VMInstance)) (rule : PathRule)
    (rest : List PathRule) (k : String) (h : ruleVMID rule = some k) (hd : k ≠ "default")
    (hk : k ∈ a.map Prod.fst) :
    filterRules a (rule :: rest) =
      (rule :: (filterRules (mapDelete a k) rest).1, (filterRules (mapDelete a k) rest).2.1,
        (filterRules (mapDelete a k) rest).2.2.1, (filterRules (mapDelete a k) rest).2.2.2) := by
  cases hp : rule.Paths with
  | nil => simp [ruleVMID, hp] at h
  | cons p ps =>
    have hk' : trimPrefixSlash p = k := by simpa [ruleVMID, hp] using h
    subst hk'
    simp only [filterRules, hp, hd, if_false, hk, if_true]

theorem filterRules_cons_remove (a : List (String × VMInstance)) (rule : PathRule)
    (rest : List PathRule) (k : String) (h : ruleVMID rule = some k) (hd : k ≠ "default")
    (hk : k ∉ a.map Prod.fst) :
    filterRules a (rule :: rest) =
      ((filterRules a rest).1, (filterRules a rest).2.1, true,
        (filterRules a rest).2.2.2 + 1) := by
  cases hp : rule.Paths with
  | nil => simp [ruleVMID, hp] at h
  | cons p ps =>
    have hk' : trimPrefixSlash p = k := by simpa [ruleVMID, hp] using h
    subst hk'
    simp only [filterRules, hp, hd, if_false, hk]

theorem vmRuleKeys_cons_skip (rule : PathRule) (rest : List PathRule)
    (h : ruleVMID rule = none ∨ ruleVMID rule = some "default") :
    vmRuleKeys (rule :: rest) = vmRuleKeys rest := by
  rcases h with h | h <;> simp [vmRuleKeys, List.filterMap_cons, h]

theorem vmRuleKeys_cons_key (rule : PathRule) (rest : List PathRule) (k : String)
    (h : ruleVMID rule = some k) (hd : k ≠ "default") :
    vmRuleKeys (rule :: rest) = k :: vmRuleKeys rest := by
  simp [vmRuleKeys, List.filterMap_cons, h, hd]

theorem vmRuleKeys_append (l₁ l₂ : List PathRule) :
    vmRuleKeys (l₁ ++ l₂) = vmRuleKeys l₁ ++ vmRuleKeys l₂ := by
  simp [vmRuleKeys, List.filterMap_append]

/-- The four ways the filter loop treats a rule. -/
theorem ruleVMID_cases (a : List (String × VMInstance)) (rule : PathRule) :
    ruleVMID rule = none ∨ ruleVMID rule = some "default" ∨
    (∃ k, ruleVMID rule = some k ∧ k ≠ "default" ∧ k ∈ a.map Prod.fst) ∨
    (∃ k, ruleVMID rule = some k ∧ k ≠ "default" ∧ k ∉ a.map Prod.fst) := by
  cases h : ruleVMID rule with
  | none => exact Or.inl rfl
  | some k =>
    by_cases hd : k = "default"
    · exact Or.inr (Or.inl (by rw [hd]))
    · by_cases hk : k ∈ a.map Prod.fst
      · exact Or.inr (Or.inr (Or.inl ⟨k, rfl, hd, hk⟩))
      · exact Or.inr (Or.inr (Or.inr ⟨k, rfl, hd, hk⟩))

/-- What the filter loop keeps and what it leaves of the map of active instances. -/
theorem filterRules_spec (rules : List PathRule) (a : List (String × VMInstance)) :
    (∀ r ∈ (filterRules a rules).1, r ∈ rules ∧
      ∃ k, ruleVMID r = some k ∧ (k = "default" ∨ k ∈ a.map Prod.fst)) ∧
    (∀ r ∈ rules, ruleVMID r = some "default" → r ∈ (filterRules a rules).1) ∧
    (vmRuleKeys (filterRules a rules).1).Nodup ∧
    (∀ k, k ∈ (filterRules a rules).2.1.map Prod.fst ↔
      k ∈ a.map Prod.fst ∧ k ∉ vmRuleKeys (filterRules a rules).1) ∧
    ((filterRules a rules).2.1.map Prod.fst).Sublist (a.map Prod.fst) ∧
    (filterRules a rules).2.2.1 = decide (0 < (filterRules a rules).2.2.2) := by
  induction rules generalizing a with
  | nil => simp [filterRules, vmRuleKeys]
  | cons rule rest ih =>
    rcases ruleVMID_cases a rule with h | h | ⟨k, h, hd, hk⟩ | ⟨k, h, hd, hk⟩
    · rw [filterRules_cons_nopath a rule rest h]
      obtain ⟨h1, h2, h3, h4, h5, h6⟩ := ih a
      refine ⟨fun r hr => ⟨List.mem_cons_of_mem _ (h1 r hr).1, (h1 r hr).2⟩, ?_, h3, h4, h5, h6⟩
      intro r hr hdef
      rcases List.mem_cons.1 hr with rfl | hr
      · rw [h] at hdef
        cases hdef
      · exact h2 r hr hdef
    · rw [filterRules_cons_default a rule rest h]
      obtain ⟨h1, h2, h3, h4, h5, h6⟩ := ih a
      simp only
      rw [vmRuleKeys_cons_skip rule _ (Or.inr h)]
      refine ⟨?_, ?_, h3, h4, h5, h6⟩
      · intro r hr
        rcases List.mem_cons.1 hr with rfl | hr
        · exact ⟨List.mem_cons_self _ _, "default", h, Or.inl rfl⟩
        · exact ⟨List.mem_cons_of_mem _ (h1 r hr).1, (h1 r hr).2⟩
      · intro r hr hdef
        rcases List.mem_cons.1 hr with rfl | hr
        · exact List.mem_cons_self _ _
        · exact List.mem_cons_of_mem _ (h2 r hr hdef)
    · rw [filterRules_cons_keep a rule rest k h hd hk]
      obtain ⟨h1, h2, h3, h4, h5, h6⟩ := ih (mapDelete a k)
      simp only
      rw [vmRuleKeys_cons_key rule _ k h hd]
      have hsub : ∀ x, x ∈ (mapDelete a k).map Prod.fst ↔ x ∈ a.map Prod.fst ∧ x ≠ k := by
        intro x
        rw [keys_mapDelete, List.mem_filter]
        simp
      refine ⟨?_, ?_, ?_, ?_, ?_, h6⟩
      · intro r hr
        rcases List.mem_cons.1 hr with rfl | hr
        · exact ⟨List.mem_cons_self _ _, k, h, Or.inr hk⟩
        · obtain ⟨hm, k', hk', hor⟩ := h1 r hr
          refine ⟨List.mem_cons_of_mem _ hm, k', hk', ?_⟩
          rcases hor with hor | hor
          · exact Or.inl hor
          · exact Or.inr ((hsub k').1 hor).1
      · intro r hr hdef
        rcases List.mem_cons.1 hr with rfl | hr
        · exact List.mem_cons_self _ _
        · exact List.mem_cons_of_mem _ (h2 r hr hdef)
      · refine List.nodup_cons.2 ⟨?_, h3⟩
        intro hmem
        have hall : ∀ x ∈ vmRuleKeys (filterRules (mapDelete a k) rest).1,
            x ∈ (mapDelete a k).map Prod.fst := by
          intro x hx
          simp only [vmRuleKeys, List.mem_filterMap] at hx
          obtain ⟨r, hr, hrx⟩ := hx
          obtain ⟨-, k', hk', hor⟩ := h1 r hr
          rw [hk'] at hrx
          by_cases hd' : k' = "default"
          · simp [hd'] at hrx
          · simp only [hd', if_false, Option.some.injEq] at hrx
            subst hrx
            rcases hor with hor | hor
            · exact absurd hor hd'
            · exact hor
        exact ((hsub k).1 (hall k hmem)).2 rfl
      · intro x
        rw [h4 x, hsub x, List.mem_cons]
        constructor
        · rintro ⟨⟨hx, hne⟩, hnm⟩
          exact ⟨hx, fun hor => hor.elim hne hnm⟩
        · rintro ⟨hx, hn⟩
          exact ⟨⟨hx, fun e => hn (Or.inl e)⟩, fun hm => hn (Or.inr hm)⟩
      · refine h5.trans ?_
        rw [keys_mapDelete]
        exact List.filter_sublist _
    · rw [filterRules_cons_remove a rule rest k h hd hk]
      obtain ⟨h1, h2, h3, h4, h5, h6⟩ := ih a
      refine ⟨fun r hr => ⟨List.mem_cons_of_mem _ (h1 r hr).1, (h1 r hr).2⟩, ?_, h3, h4, h5,
        by simp⟩
      intro r hr hdef
      rcases List.mem_cons.1 hr with rfl | hr
      · rw [h] at hdef
        exact absurd (Option.some.inj hdef) hd
      · exact h2 r hr hdef

theorem mem_vmRuleKeys (rules : List PathRule) (k : String) :
    k ∈ vmRuleKeys rules ↔ k ≠ "default" ∧ ∃ r ∈ rules, ruleVMID r = some k := by
  simp only [vmRuleKeys, List.mem_filterMap]
  constructor
  · rintro ⟨r, hr, hk⟩
    cases h : ruleVMID r with
    | none => simp [h] at hk
    | some k' =>
      by_cases hd : k' = "default"
      · simp [h, hd] at hk
      · simp only [h, hd, if_false, Option.some.injEq] at hk
        subst hk
        exact ⟨hd, r, hr, h⟩
  · rintro ⟨hd, r, hr, h⟩
    exact ⟨r, hr, by simp [h, hd]⟩

theorem countP_ruleVMID (rules : List PathRule) (v : String) (hv : v ≠ "default") :
    rules.countP (fun r => ruleVMID r = some v) = (vmRuleKeys rules).count v := by
  induction rules with
  | nil => rfl
  | cons r rs ih =>
    cases h : ruleVMID r with
    | none =>
      rw [vmRuleKeys_cons_skip r rs (Or.inl h), List.countP_cons_of_neg _ _ (by simp [h]), ih]
    | some k =>
      by_cases hd : k = "default"
      · subst hd
        rw [vmRuleKeys_cons_skip r rs (Or.inr h), List.countP_cons_of_neg _ _
          (by simpa [h] using fun e => hv e.symm), ih]
      · rw [vmRuleKeys_cons_key r rs k h hd]
        by_cases hkv : k = v
        · subst hkv
          rw [List.countP_cons_of_pos _ _ (by simp [h]), List.count_cons_self, ih]
        · rw [List.countP_cons_of_neg _ _ (by simpa [h] using hkv),
            List.count_cons_of_ne (fun e => hkv e.symm), ih]

theorem ruleVMID_newRule (cfg : AppGWConfig) (k : String) (inst : VMInstance) :
    ruleVMID (newRule cfg k inst) = some k := by
  simp [ruleVMID, newRule, trimPrefixSlash_slash]

theorem vmRuleKeys_newRules (cfg : AppGWConfig) (l : List (String × VMInstance))
    (h : "default" ∉ l.map Prod.fst) :
    vmRuleKeys (l.map (fun p => newRule cfg p.1 p.2)) = l.map Prod.fst := by
  induction l with
  | nil => rfl
  | cons p ps ih =>
    have hp : p.1 ≠ "default" := fun e => h (by simp [e])
    rw [List.map_cons, vmRuleKeys_cons_key _ _ p.1 (ruleVMID_newRule cfg p.1 p.2) hp,
      ih (fun hm => h (List.mem_cons_of_mem _ hm)), List.map_cons]

/-- The rule list computed by a run that found its path map. -/
theorem UpdatePathBasedRules_validRules (f : AppGWFaults) (cfg : AppGWConfig)
    (range : List (String × VMInstance) → List (String × VMInstance))
    (gateway : List URLPathMap) (instances : List VMInstance) (pathMap : URLPathMap)
    (hget : f.get = false)
    (hfind : gateway.find? (fun pm => pm.Name = cfg.PathMapName) = some pathMap)
    (hrange : ∀ m, (range m).Perm m) :
    (UpdatePathBasedRules f cfg range gateway instances).validRules =
      (filterRules (buildActive instances) pathMap.PathRules).1 ++
        (range (filterRules (buildActive instances) pathMap.PathRules).2.1).map
          (fun p => newRule cfg p.1 p.2) := by
  unfold UpdatePathBasedRules
  simp only [hget, Bool.false_eq_true, if_false, hfind]
  generalize filterRules (buildActive instances) pathMap.PathRules = F
  obtain ⟨kept, remaining, flag, removed⟩ := F
  simp only
  cases remaining with
  | nil =>
    have : range [] = [] := List.Perm.eq_nil (hrange [])
    simp only [List.length_nil, lt_self_iff_false, if_false, this, List.map_nil,
      List.append_nil]
    split <;> [split; skip] <;> rfl
  | cons p ps =>
    simp only [List.length_cons, Nat.zero_lt_succ, if_true]
    split <;> rfl

/-- C7, amended: for every inventory in which no instance with a private IP has the vmId
`default`, and every existing path map in which the first path of every rule starts with a
slash, the rule list computed by `UpdatePathBasedRules` contains exactly one rule whose
first path is `/{vmId}` for each vmId of the inventory that has a non-empty privateIp,
contains no other rule whose first path is not `/default`, and contains every existing rule
whose first path is `/default`.  This holds for every order in which Go ranges over the map
of new instances. -/
theorem UpdatePathBasedRules_rules (f : AppGWFaults) (cfg : AppGWConfig)
    (range : List (String × VMInstance) → List (String × VMInstance))
    (gateway : List URLPathMap) (instances : List VMInstance) (pathMap : URLPathMap)
    (hget : f.get = false)
    (hfind : gateway.find? (fun pm => pm.Name = cfg.PathMapName) = some pathMap)
    (hrange : ∀ m, (range m).Perm m)
    (hslash : ∀ r ∈ pathMap.PathRules, ∀ p, r.Paths.head? = some p → p.data.head? = some '/')
    (hdef : ∀ inst ∈ instances, inst.PrivateIP ≠ "" → inst.VMID ≠ "default") :
    (∀ inst ∈ instances, inst.PrivateIP ≠ "" →
      (UpdatePathBasedRules f cfg range gateway instances).validRules.countP
        (fun r => r.Paths.head? = some ("/" ++ inst.VMID)) = 1) ∧
    (∀ r ∈ (UpdatePathBasedRules f cfg range gateway instances).validRules,
      r.Paths.head? = some "/default" ∨
      ∃ inst ∈ instances, inst.PrivateIP ≠ "" ∧ r.Paths.head? = some ("/" ++ inst.VMID)) ∧
    (∀ r ∈ pathMap.PathRules, r.Paths.head? = some "/default" →
      r ∈ (UpdatePathBasedRules f cfg range gateway instances).validRules) := by
  rw [UpdatePathBasedRules_validRules f cfg range gateway instances pathMap hget hfind hrange]
  obtain ⟨h1, h2, h3, h4, h5, -⟩ := filterRules_spec pathMap.PathRules (buildActive instances)
  have hnd := buildActive_nodup instances
  have hpath : ∀ r ∈ (filterRules (buildActive instances) pathMap.PathRules).1, ∀ v,
      (r.Paths.head? = some ("/" ++ v) ↔ ruleVMID r = some v) := by
    intro r hr v
    constructor
    · intro h
      simp [ruleVMID, h, trimPrefixSlash_slash]
    · intro h
      cases hp : r.Paths.head? with
      | none => simp [ruleVMID, hp] at h
      | some p =>
        have hv : trimPrefixSlash p = v := by simpa [ruleVMID, hp] using h
        rw [eq_slash_append_of_head p (hslash r (h1 r hr).1 p hp), hv]
  have hnewpath : ∀ (l : List (String × VMInstance)) (v : String),
      (l.map (fun p => newRule cfg p.1 p.2)).countP
        (fun r => r.Paths.head? = some ("/" ++ v)) = (l.map Prod.fst).count v := by
    intro l v
    induction l with
    | nil => rfl
    | cons p ps ih =>
      rw [List.map_cons, List.map_cons]
      by_cases hpv : p.1 = v
      · rw [List.countP_cons_of_pos _ _ (by simp [newRule, hpv]), ih, hpv,
          List.count_cons_self]
      · rw [List.countP_cons_of_neg _ _ (by
          simp only [newRule, List.head?_cons, Option.some.injEq, decide_eq_true_eq]
          exact fun e => hpv (slash_append_injective e)), ih,
          List.count_cons_of_ne (fun e => hpv e.symm)]
  refine ⟨?_, ?_, ?_⟩
  · intro inst hi hip
    have hv : inst.VMID ≠ "default" := hdef inst hi hip
    have hmem : inst.VMID ∈ (buildActive instances).map Prod.fst :=
      (mem_buildActive_keys instances _).2 ⟨inst, hi, rfl, hip⟩
    have hcount : (filterRules (buildActive instances) pathMap.PathRules).1.countP
        (fun r => r.Paths.head? = some ("/" ++ inst.VMID)) =
        (filterRules (buildActive instances) pathMap.PathRules).1.countP
          (fun r => ruleVMID r = some inst.VMID) :=
      List.countP_congr (fun r hr => by
        simp only [decide_eq_true_eq]
        exact hpath r hr inst.VMID)
    rw [List.countP_append, hnewpath, hcount, countP_ruleVMID _ _ hv,
      ((hrange _).map Prod.fst).count_eq]
    have hnd' : ((filterRules (buildActive instances) pathMap.PathRules).2.1.map
        Prod.fst).Nodup := h5.nodup hnd
    by_cases hk : inst.VMID ∈ vmRuleKeys (filterRules (buildActive instances) pathMap.PathRules).1
    · rw [List.count_eq_one_of_mem h3 hk, List.count_eq_zero_of_not_mem
        (fun hm => ((h4 _).1 hm).2 hk)]
    · rw [List.count_eq_zero_of_not_mem hk,
        List.count_eq_one_of_mem hnd' ((h4 _).2 ⟨hmem, hk⟩)]
  · intro r hr
    rcases List.mem_append.1 hr with hr | hr
    · obtain ⟨-, k, hk, hor⟩ := h1 r hr
      rcases hor with hor | hor
      · left
        subst hor
        cases hp : r.Paths.head? with
        | none => simp [ruleVMID, hp] at hk
        | some p =>
          have hv : trimPrefixSlash p = "default" := by simpa [ruleVMID, hp] using hk
          rw [eq_slash_append_of_head p (hslash r (h1 r hr).1 p hp), hv]
          rfl
      · right
        obtain ⟨inst, hi, hik, hip⟩ := (mem_buildActive_keys instances _).1 hor
        exact ⟨inst, hi, hip, by rw [hik]; exact (hpath r hr k).2 hk⟩
    · right
      obtain ⟨p, hp, rfl⟩ := List.mem_map.1 hr
      have hp' : p.1 ∈ (buildActive instances).map Prod.fst :=
        h5.subset (List.mem_map_of_mem _ ((hrange _).mem_iff.1 hp))
      obtain ⟨inst, hi, hik, hip⟩ := (mem_buildActive_keys instances _).1 hp'
      exact ⟨inst, hi, hip, by rw [hik]; rfl⟩
  · intro r hr hdefault
    apply List.mem_append_left
    apply h2 r hr
    simp only [ruleVMID, hdefault, Option.map_some']
    rfl

/-- Witness for C7, amended: a gateway with a default rule, two rules for `A` and a rule for a VM
that is gone; an inventory with `A` and `B` routable.  Exactly one rule each for `/A` and
`/B`, and the default rule is kept. -/
theorem UpdatePathBasedRules_rules_witness :
    (UpdatePathBasedRules noAppGWFaults testAppGWConfig id testGateway testInventory).validRules
      = [testRule "default" "/default", testRule "instance0" "/A",
         newRule testAppGWConfig "B"
           { testInstance "B" "1" PowerStateRunning with PrivateIP := "10.0.0.5" }] ∧
    (UpdatePathBasedRules noAppGWFaults testAppGWConfig id testGateway
      testInventory).validRules.countP (fun r => r.Paths.head? = some ("/" ++ "B")) = 1 :=
  ⟨by decide,
    (UpdatePathBasedRules_rules noAppGWFaults testAppGWConfig id testGateway testInventory
      { Name := "pm",
        PathRules := [testRule "default" "/default", testRule "instance0" "/A",
                      testRule "dup" "/A", testRule "instance9" "/Q"] }
      rfl (by decide) (fun m => List.Perm.refl m) (by decide) (by decide)).1
      { testInstance "B" "1" PowerStateRunning with PrivateIP := "10.0.0.5" }
      (by decide) (by decide)⟩

/-- Counterexample to C7, at three inputs.  With a VM whose vmId is `default`, the computed
list holds two rules with path `/default` (the preserved default rule and the VM's), not
one.  With an existing rule whose path is `A`, without the slash, that rule is kept for the
VM `A` and the list holds no rule with path `/A`.  With an existing rule whose paths are
`/A` and `/B` and the VMs `A` and `B`, the rule is kept for `A` (only its first path is
read) and a rule is added for `B`, so two rules of the list have the path `/B`. -/
theorem UpdatePathBasedRules_not_exactly_one :
    (UpdatePathBasedRules noAppGWFaults testAppGWConfig id defaultGateway
      defaultInventory).validRules.countP
        (fun r => r.Paths.head? = some ("/" ++ "default")) = 2 ∧
    (UpdatePathBasedRules noAppGWFaults testAppGWConfig id bareGateway
      bareInventory).validRules.countP (fun r => r.Paths.head? = some ("/" ++ "A")) = 0 ∧
    (UpdatePathBasedRules noAppGWFaults testAppGWConfig id twoPathGateway
      testInventory).validRules =
      [{ testRule "instance0" "/A" with Paths := ["/A", "/B"] },
       newRule testAppGWConfig "B"
         { testInstance "B" "1" PowerStateRunning with PrivateIP := "10.0.0.5" }] ∧
    (UpdatePathBasedRules noAppGWFaults testAppGWConfig id twoPathGateway
      testInventory).validRules.countP (fun r => decide ("/" ++ "B" ∈ r.Paths)) = 2 ∧
    (UpdatePathBasedRules noAppGWFaults testAppGWConfig id twoPathGateway
      testInventory).validRules.countP (fun r => r.Paths.head? = some ("/" ++ "B")) = 1 := by
  decide

/-- A rule list in which every rule stands for the default path or for an active vmId, no
two for the same vmId, passes the filter loop unchanged: nothing removed, no flag. -/
theorem filterRules_idem (rules : List PathRule) (a : List (String × VMInstance))
    (hkey : ∀ r ∈ rules, ∃ k, ruleVMID r = some k ∧ (k = "default" ∨ k ∈ a.map Prod.fst))
    (hnd : (vmRuleKeys rules).Nodup) :
    (filterRules a rules).1 = rules ∧ (filterRules a rules).2.2.1 = false ∧
    (filterRules a rules).2.2.2 = 0 := by
  induction rules generalizing a with
  | nil => simp [filterRules]
  | cons rule rest ih =>
    obtain ⟨k₀, hk₀, hor₀⟩ := hkey rule (List.mem_cons_self _ _)
    rcases ruleVMID_cases a rule with h | h | ⟨k, h, hd, hk⟩ | ⟨k, h, hd, hk⟩
    · rw [h] at hk₀
      cases hk₀
    · rw [filterRules_cons_default a rule rest h]
      rw [vmRuleKeys_cons_skip rule rest (Or.inr h)] at hnd
      obtain ⟨e1, e2, e3⟩ := ih a (fun r hr => hkey r (List.mem_cons_of_mem _ hr)) hnd
      exact ⟨by rw [e1], e2, e3⟩
    · rw [filterRules_cons_keep a rule rest k h hd hk]
      rw [vmRuleKeys_cons_key rule rest k h hd] at hnd
      obtain ⟨hknot, hnd'⟩ := List.nodup_cons.1 hnd
      have hkey' : ∀ r ∈ rest, ∃ k', ruleVMID r = some k' ∧
          (k' = "default" ∨ k' ∈ (mapDelete a k).map Prod.fst) := by
        intro r hr
        obtain ⟨k', hk', hor⟩ := hkey r (List.mem_cons_of_mem _ hr)
        refine ⟨k', hk', ?_⟩
        by_cases hd' : k' = "default"
        · exact Or.inl hd'
        · right
          rcases hor with hor | hor
          · exact absurd hor hd'
          · rw [keys_mapDelete, List.mem_filter]
            refine ⟨hor, ?_⟩
            have : k' ≠ k := by
              rintro rfl
              exact hknot ((mem_vmRuleKeys rest k').2 ⟨hd', r, hr, hk'⟩)
            simpa using this
      obtain ⟨e1, e2, e3⟩ := ih (mapDelete a k) hkey' hnd'
      exact ⟨by rw [e1], e2, e3⟩
    · rw [h] at hk₀
      cases hk₀
      rcases hor₀ with hor₀ | hor₀
      · exact absurd hor₀ hd
      · exact absurd hor₀ hk

theorem find?_setPathRules (name : String) (rules : List PathRule) (gateway : List URLPathMap)
    (pm : URLPathMap) (h : gateway.find? (fun pm => pm.Name = name) = some pm) :
    (setPathRules name rules gateway).find? (fun pm => pm.Name = name) =
      some { pm with PathRules := rules } := by
  induction gateway with
  | nil => simp at h
  | cons x xs ih =>
    by_cases hx : x.Name = name
    · have : x = pm := by simpa [List.find?_cons, hx] using h
      subst this
      simp [setPathRules, hx, List.find?_cons]
    · rw [List.find?_cons_of_neg _ (by simpa using hx)] at h
      simp only [setPathRules, hx, if_false]
      rw [List.find?_cons_of_neg _ (by simpa using hx)]
      exact ih h

/-- The rule list of the first run passes the filter loop of a second run unchanged and
uses up the whole map of active instances. -/
theorem filterRules_validRules (cfg : AppGWConfig)
    (range : List (String × VMInstance) → List (String × VMInstance))
    (instances : List VMInstance) (rules : List PathRule)
    (hrange : ∀ m, (range m).Perm m)
    (hdef : ∀ inst ∈ instances, inst.PrivateIP ≠ "" → inst.VMID ≠ "default") :
    filterRules (buildActive instances)
      ((filterRules (buildActive instances) rules).1 ++
        (range (filterRules (buildActive instances) rules).2.1).map
          (fun p => newRule cfg p.1 p.2)) =
      ((filterRules (buildActive instances) rules).1 ++
        (range (filterRules (buildActive instances) rules).2.1).map
          (fun p => newRule cfg p.1 p.2), [], false, 0) := by
  obtain ⟨h1, -, h3, h4, h5, -⟩ := filterRules_spec rules (buildActive instances)
  have hnd := buildActive_nodup instances
  have hnotdef : "default" ∉ (buildActive instances).map Prod.fst := by
    intro hm
    obtain ⟨inst, hi, hk, hip⟩ := (mem_buildActive_keys instances _).1 hm
    exact hdef inst hi hip hk
  have hperm := (hrange (filterRules (buildActive instances) rules).2.1).map Prod.fst
  have hnewkeys : vmRuleKeys ((range (filterRules (buildActive instances) rules).2.1).map
      (fun p => newRule cfg p.1 p.2)) =
      (range (filterRules (buildActive instances) rules).2.1).map Prod.fst :=
    vmRuleKeys_newRules cfg _ (fun hm => hnotdef (h5.subset (hperm.mem_iff.1 hm)))
  have hkeys : vmRuleKeys ((filterRules (buildActive instances) rules).1 ++
      (range (filterRules (buildActive instances) rules).2.1).map
        (fun p => newRule cfg p.1 p.2)) =
      vmRuleKeys (filterRules (buildActive instances) rules).1 ++
        (range (filterRules (buildActive instances) rules).2.1).map Prod.fst := by
    rw [vmRuleKeys_append, hnewkeys]
  have hidem := filterRules_idem
    ((filterRules (buildActive instances) rules).1 ++
      (range (filterRules (buildActive instances) rules).2.1).map
        (fun p => newRule cfg p.1 p.2)) (buildActive instances)
    (by
      intro r hr
      rcases List.mem_append.1 hr with hr | hr
      · exact (h1 r hr).2
      · obtain ⟨p, hp, rfl⟩ := List.mem_map.1 hr
        exact ⟨p.1, ruleVMID_newRule cfg p.1 p.2,
          Or.inr (h5.subset (hperm.mem_iff.1 (List.mem_map_of_mem _ hp)))⟩)
    (by
      rw [hkeys]
      apply List.Nodup.append h3 (hperm.nodup_iff.2 (h5.nodup hnd))
      intro k hk hk'
      exact ((h4 k).1 (hperm.mem_iff.1 hk')).2 hk)
  obtain ⟨-, -, -, h4', -, -⟩ := filterRules_spec
    ((filterRules (buildActive instances) rules).1 ++
      (range (filterRules (buildActive instances) rules).2.1).map
        (fun p => newRule cfg p.1 p.2)) (buildActive instances)
  have hempty : (filterRules (buildActive instances)
      ((filterRules (buildActive instances) rules).1 ++
        (range (filterRules (buildActive instances) rules).2.1).map
          (fun p => newRule cfg p.1 p.2))).2.1 = [] := by
    apply List.map_eq_nil_iff.1
    apply List.eq_nil_iff_forall_not_mem.2
    intro k hk
    obtain ⟨hkA, hknot⟩ := (h4' k).1 hk
    rw [hidem.1, hkeys, List.mem_append, not_or] at hknot
    exact hknot.2 (hperm.mem_iff.2 ((h4 k).2 ⟨hkA, hknot.1⟩))
  obtain ⟨e1, e2, e3⟩ := hidem
  generalize filterRules (buildActive instances)
      ((filterRules (buildActive instances) rules).1 ++
        (range (filterRules (buildActive instances) rules).2.1).map
          (fun p => newRule cfg p.1 p.2)) = F at hempty e1 e2 e3
  obtain ⟨k, r, fl, n⟩ := F
  simp only at hempty e1 e2 e3
  rw [hempty, e1, e2, e3]

/-- A run that finds nothing to remove and nothing to add changes nothing and does not
publish, whatever fails. -/
theorem UpdatePathBasedRules_quiet (f : AppGWFaults) (cfg : AppGWConfig)
    (range : List (String × VMInstance) → List (String × VMInstance))
    (gateway : List URLPathMap) (instances : List VMInstance) (pathMap : URLPathMap)
    (hfind : gateway.find? (fun pm => pm.Name = cfg.PathMapName) = some pathMap)
    (hrem : (filterRules (buildActive instances) pathMap.PathRules).2.1 = [])
    (hflag : (filterRules (buildActive instances) pathMap.PathRules).2.2.1 = false) :
    (UpdatePathBasedRules f cfg range gateway instances).added = 0 ∧
    (UpdatePathBasedRules f cfg range gateway instances).removed = 0 ∧
    (UpdatePathBasedRules f cfg range gateway instances).published = false ∧
    (UpdatePathBasedRules f cfg range gateway instances).gateway = gateway := by
  have hspec := (filterRules_spec pathMap.PathRules (buildActive instances)).2.2.2.2.2
  unfold UpdatePathBasedRules
  by_cases hget : f.get = true
  · simp [hget]
  · simp only [hget, Bool.false_eq_true, if_false, hfind]
    generalize filterRules (buildActive instances) pathMap.PathRules = F at hrem hflag hspec
    obtain ⟨kept, remaining, flag, removed⟩ := F
    simp only at hrem hflag hspec
    subst hrem hflag
    have hr : removed = 0 := by
      have := hspec.symm
      simp only [decide_eq_false_iff_not, not_lt, Nat.le_zero] at this
      exact this
    simp [hr]

/-- What a run without error did to the gateway. -/
theorem UpdatePathBasedRules_ok (f : AppGWFaults) (cfg : AppGWConfig)
    (range : List (String × VMInstance) → List (String × VMInstance))
    (gateway : List URLPathMap) (instances : List VMInstance)
    (hrange : ∀ m, (range m).Perm m)
    (hok : (UpdatePathBasedRules f cfg range gateway instances).err = none) :
    ∃ pathMap, gateway.find? (fun pm => pm.Name = cfg.PathMapName) = some pathMap ∧
      (((filterRules (buildActive instances) pathMap.PathRules).2.1 = [] ∧
        (filterRules (buildActive instances) pathMap.PathRules).2.2.1 = false ∧
        (UpdatePathBasedRules f cfg range gateway instances).gateway = gateway) ∨
       (UpdatePathBasedRules f cfg range gateway instances).gateway =
          setPathRules cfg.PathMapName
            ((filterRules (buildActive instances) pathMap.PathRules).1 ++
              (range (filterRules (buildActive instances) pathMap.PathRules).2.1).map
                (fun p => newRule cfg p.1 p.2)) gateway) := by
  unfold UpdatePathBasedRules at hok ⊢
  by_cases hget : f.get = true
  · simp [hget] at hok
  simp only [hget, Bool.false_eq_true, if_false] at hok ⊢
  cases hfind : gateway.find? (fun pm => pm.Name = cfg.PathMapName) with
  | none => simp [hfind] at hok
  | some pathMap =>
    refine ⟨pathMap, rfl, ?_⟩
    simp only [hfind] at hok ⊢
    generalize filterRules (buildActive instances) pathMap.PathRules = F at hok ⊢
    obtain ⟨kept, remaining, flag, removed⟩ := F
    simp only at hok ⊢
    by_cases hcu : f.createOrUpdate = true
    · cases remaining with
      | nil =>
        cases flag with
        | false => simp
        | true => simp [hcu] at hok
      | cons p ps => simp [hcu] at hok
    · cases remaining with
      | nil =>
        have : range [] = [] := List.Perm.eq_nil (hrange [])
        cases flag with
        | false => simp
        | true => simp [hcu, this]
      | cons p ps => simp [hcu]

/-- C8, amended (gateway diff idempotence): for every inventory in which no instance with
a private IP has the vmId `default`, and every gateway, after a run of
`UpdatePathBasedRules` that returned no error a second run on the same inventory against the
gateway the first run left adds no rule, removes no rule, does not publish and leaves the
gateway as it is, whatever fails in the second run. -/
theorem UpdatePathBasedRules_idempotent (f₁ f₂ : AppGWFaults) (cfg : AppGWConfig)
    (range₁ range₂ : List (String × VMInstance) → List (String × VMInstance))
    (gateway : List URLPathMap) (instances : List VMInstance)
    (hrange : ∀ m, (range₁ m).Perm m)
    (hdef : ∀ inst ∈ instances, inst.PrivateIP ≠ "" → inst.VMID ≠ "default")
    (hok : (UpdatePathBasedRules f₁ cfg range₁ gateway instances).err = none) :
    (UpdatePathBasedRules f₂ cfg range₂
      (UpdatePathBasedRules f₁ cfg range₁ gateway instances).gateway instances).added = 0 ∧
    (UpdatePathBasedRules f₂ cfg range₂
      (UpdatePathBasedRules f₁ cfg range₁ gateway instances).gateway instances).removed = 0 ∧
    (UpdatePathBasedRules f₂ cfg range₂
      (UpdatePathBasedRules f₁ cfg range₁ gateway instances).gateway instances).published
        = false ∧
    (UpdatePathBasedRules f₂ cfg range₂
      (UpdatePathBasedRules f₁ cfg range₁ gateway instances).gateway instances).gateway =
      (UpdatePathBasedRules f₁ cfg range₁ gateway instances).gateway := by
  obtain ⟨pathMap, hfind, h | h⟩ :=
    UpdatePathBasedRules_ok f₁ cfg range₁ gateway instances hrange hok
  · obtain ⟨hrem, hflag, hgw⟩ := h
    rw [hgw]
    exact UpdatePathBasedRules_quiet f₂ cfg range₂ gateway instances pathMap hfind hrem hflag
  · rw [h]
    have hfind' := find?_setPathRules cfg.PathMapName
      ((filterRules (buildActive instances) pathMap.PathRules).1 ++
        (range₁ (filterRules (buildActive instances) pathMap.PathRules).2.1).map
          (fun p => newRule cfg p.1 p.2)) gateway pathMap hfind
    have hF := filterRules_validRules cfg range₁ instances pathMap.PathRules hrange hdef
    exact UpdatePathBasedRules_quiet f₂ cfg range₂ _ instances _ hfind'
      (by rw [hF]) (by rw [hF])

/-- Witness for C8, amended: the first run on the test gateway publishes (one rule added, two
removed); the second run on its result does nothing. -/
theorem UpdatePathBasedRules_idempotent_witness :
    (UpdatePathBasedRules noAppGWFaults testAppGWConfig id testGateway testInventory).published
      = true ∧
    (UpdatePathBasedRules noAppGWFaults testAppGWConfig id
      (UpdatePathBasedRules noAppGWFaults testAppGWConfig id testGateway testInventory).gateway
      testInventory).added = 0 ∧
    (UpdatePathBasedRules noAppGWFaults testAppGWConfig id
      (UpdatePathBasedRules noAppGWFaults testAppGWConfig id testGateway testInventory).gateway
      testInventory).removed = 0 ∧
    (UpdatePathBasedRules noAppGWFaults testAppGWConfig id
      (UpdatePathBasedRules noAppGWFaults testAppGWConfig id testGateway testInventory).gateway
      testInventory).published = false ∧
    (UpdatePathBasedRules noAppGWFaults testAppGWConfig id
      (UpdatePathBasedRules noAppGWFaults testAppGWConfig id testGateway testInventory).gateway
      testInventory).gateway =
      (UpdatePathBasedRules noAppGWFaults testAppGWConfig id testGateway testInventory).gateway :=
  ⟨by decide,
    UpdatePathBasedRules_idempotent noAppGWFaults noAppGWFaults testAppGWConfig id id
      testGateway testInventory (fun m => List.Perm.refl m) (by decide) (by decide)⟩

/-- Counterexample to C8: with a VM whose vmId is `default`, the first run publishes a new
rule with path `/default`; the second run, on the gateway the first one left, takes that
rule for the default rule, adds the VM's rule once more and publishes again. -/
theorem UpdatePathBasedRules_default_republishes :
    (UpdatePathBasedRules noAppGWFaults testAppGWConfig id defaultGateway
      defaultInventory).err = none ∧
    (UpdatePathBasedRules noAppGWFaults testAppGWConfig id
      (UpdatePathBasedRules noAppGWFaults testAppGWConfig id defaultGateway
        defaultInventory).gateway defaultInventory).added = 1 ∧
    (UpdatePathBasedRules noAppGWFaults testAppGWConfig id
      (UpdatePathBasedRules noAppGWFaults testAppGWConfig id defaultGateway
        defaultInventory).gateway defaultInventory).published = true := by
  decide

/-! ### Starter and Simulator: the common transition -/

theorem transitionStore_get_other (status : String) (target : StatusSet) (clock : Clock)
    (st : Store) (k key : String) (hk : k ≠ key) :
    (transitionStore status target clock st k).get key = st.get key := by
  unfold transitionStore
  split
  · rfl
  · rw [get_sadd, get_set, if_neg (fun e => hk e.symm)]

theorem transitionStore_mem (status : String) (target : StatusSet) (clock : Clock)
    (st : Store) (k x : String) (u : StatusSet) :
    x ∈ (transitionStore status target clock st k).members u ↔
      x ∈ st.members u ∨
        (u = target ∧ x = k ∧ (st.get k).bind unmarshal ≠ none) := by
  unfold transitionStore
  split
  · rename_i h
    simp [h]
  · rename_i r h
    rw [mem_members_sadd, members_set]
    simp [h]

theorem transitionStore_get_self (status : String) (target : StatusSet) (clock : Clock)
    (st : Store) (key : String) (r : VMRedisRecord)
    (h : (st.get key).bind unmarshal = some r) :
    (transitionStore status target clock st key).get key =
      some (marshal { r with Status := status, UpdatedAt := clock.format (clock.now key) }) := by
  unfold transitionStore
  rw [h]
  simp only
  rw [get_sadd, get_set, if_pos rfl]

/-- A loop whose body acts on the store as `transitionStore` rewrites the record of every
selected key that loads and parses, and adds the key to the target set. -/
theorem forEachKey_transition (body : Store → String → Store × List Effect)
    (status : String) (target : StatusSet) (clock : Clock)
    (hbody : ∀ st k, (body st k).1 = transitionStore status target clock st k)
    (keys : List String) (st : Store) (key : String) (hkey : key ∈ keys)
    (r : VMRedisRecord) (hr : (st.get key).bind unmarshal = some r) :
    (forEachKey body keys st).1.get key =
      some (marshal { r with Status := status, UpdatedAt := clock.format (clock.now key) }) ∧
    key ∈ (forEachKey body keys st).1.members target := by
  apply forEachKey_establishes body (fun st' => st'.get key = st.get key)
    (fun st' => st'.get key =
      some (marshal { r with Status := status, UpdatedAt := clock.format (clock.now key) }) ∧
      key ∈ st'.members target) key keys hkey
  · rintro st' k ⟨hg, hm⟩
    rw [hbody]
    refine ⟨?_, (transitionStore_mem _ _ _ _ _ _ _).2 (Or.inl hm)⟩
    by_cases hk : k = key
    · subst hk
      rw [transitionStore_get_self status target clock st' k _ (by rw [hg]; rfl)]
    · rw [transitionStore_get_other _ _ _ _ _ _ hk, hg]
  · intro st' k hk hg
    show (body st' k).1.get key = st.get key
    rw [hbody, transitionStore_get_other _ _ _ _ _ _ hk]
    exact hg
  · intro st' hg
    replace hg : st'.get key = st.get key := hg
    show (body st' key).1.get key = _ ∧ key ∈ (body st' key).1.members target
    rw [hbody]
    have hr' : (st'.get key).bind unmarshal = some r := by rw [hg]; exact hr
    refine ⟨transitionStore_get_self status target clock st' key r hr', ?_⟩
    exact (transitionStore_mem _ _ _ _ _ _ _).2 (Or.inr ⟨rfl, rfl, by rw [hr']; simp⟩)
  · rfl

/-- Such a loop changes the membership of no key in the other sets, and in the target set
only that of the selected keys. -/
theorem forEachKey_transition_frame (body : Store → String → Store × List Effect)
    (status : String) (target : StatusSet) (clock : Clock)
    (hbody : ∀ st k, (body st k).1 = transitionStore status target clock st k)
    (keys : List String) (st : Store) (x : String) (u : StatusSet)
    (h : u ≠ target ∨ x ∉ keys) :
    x ∈ (forEachKey body keys st).1.members u ↔ x ∈ st.members u := by
  apply forEachKey_preserves body (fun st' => x ∈ st'.members u ↔ x ∈ st.members u) keys
  · intro st' k hk hiff
    show x ∈ (body st' k).1.members u ↔ x ∈ st.members u
    rw [hbody, transitionStore_mem, ← hiff]
    constructor
    · rintro (hm | ⟨hu, hx, -⟩)
      · exact hm
      · rcases h with h | h
        · exact absurd hu h
        · exact absurd (hx ▸ hk) h
    · exact Or.inl
  · exact Iff.rfl

/-- The effects of the loop contain, for a selected key, the effects of the body on that
key, run on a store in which `P` still holds. -/
theorem forEachKey_visits (body : Store → String → Store × List Effect) (P : Store → Prop)
    (key : String) (keys : List String) (hkey : key ∈ keys)
    (hP : ∀ st k, k ≠ key → P st → P (body st k).1) (st : Store) (h : P st) :
    ∃ st' pre post, P st' ∧ (forEachKey body keys st).2 = pre ++ (body st' key).2 ++ post := by
  induction keys generalizing st with
  | nil => cases hkey
  | cons k ks ih =>
    by_cases hk : k = key
    · subst hk
      exact ⟨st, [], (forEachKey body ks (body st k).1).2, h, by simp [forEachKey]⟩
    · rcases List.mem_cons.1 hkey with e | hmem
      · exact absurd e.symm hk
      · obtain ⟨st', pre, post, hp, he⟩ := ih hmem _ (hP st k hk h)
        exact ⟨st', (body st k).2 ++ pre, post, hp, by simp [forEachKey, he]⟩

/-! ### Starter -/

theorem startOne_store (f : StarterFaults) (clock : Clock) (cfg : ScalerConfig) (st : Store)
    (key : String) (hstore : f.storeOk) :
    (startOne f clock cfg st key).1 =
      transitionStore VMStatusUnavailable .unavailable clock st key := by
  obtain ⟨-, hget, hexec⟩ := hstore
  unfold startOne transitionStore
  simp only [hget key, Bool.false_eq_true, if_false, hexec key, Exec_none]
  cases hg : st.get key with
  | none => rfl
  | some data =>
    cases hu : unmarshal data with
    | none => simp [hu]
    | some record =>
      by_cases hd : f.startInstance record.InstanceID = true <;>
        simp [hu, hd, Store.apply]

theorem startOne_effects (f : StarterFaults) (clock : Clock) (cfg : ScalerConfig) (st : Store)
    (key : String) (hstore : f.storeOk) (r : VMRedisRecord)
    (hr : (st.get key).bind unmarshal = some r) :
    ∃ ok rest, (startOne f clock cfg st key).2 =
      [.exec [Cmd.set key (marshal { r with Status := VMStatusUnavailable,
                                            UpdatedAt := clock.format (clock.now key) }),
              Cmd.sadd .unavailable key] true,
       .startInstance r.InstanceID ok] ++ rest := by
  obtain ⟨-, hget, hexec⟩ := hstore
  unfold startOne
  simp only [hget key, Bool.false_eq_true, if_false, hexec key, Exec_none]
  cases hg : st.get key with
  | none => simp [hg] at hr
  | some data =>
    have hu : unmarshal data = some r := by simpa [hg] using hr
    by_cases hd : f.startInstance r.InstanceID = true
    · exact ⟨false, [], by simp [hu, hd]⟩
    · exact ⟨true, _, by simp [hu, hd]; rfl⟩

theorem SPop_get (st : Store) (s : StatusSet) (n : Nat) (k : String) :
    (st.SPop s n).2.get k = st.get k := by
  simp [Store.SPop, Store.get]

theorem mem_SPop_members (st : Store) (s t : StatusSet) (n : Nat) (x : String) :
    x ∈ (st.SPop s n).2.members t ↔
      x ∈ st.members t ∧ (t = s → x ∉ (st.SPop s n).1) := by
  simp only [Store.SPop, members_setMembers]
  by_cases hts : t = s
  · subst hts
    simp [List.mem_filter]
  · simp [hts]

theorem SPop_length (st : Store) (s : StatusSet) (n : Nat) :
    (st.SPop s n).1.length = min n (st.SMembers s).length := by
  simp [Store.SPop, List.length_take]

theorem start_store (f : StarterFaults) (clock : Clock) (cfg : ScalerConfig) (st : Store)
    (h : f.spop = false) :
    (start f clock cfg st).1 =
      (forEachKey (startOne f clock cfg) (st.SPop .reserved 100).1
        (st.SPop .reserved 100).2).1 ∧
    (start f clock cfg st).2.1 =
      (forEachKey (startOne f clock cfg) (st.SPop .reserved 100).1
        (st.SPop .reserved 100).2).2 ∧
    (start f clock cfg st).2.2 = none := by
  unfold start
  simp only [h, Bool.false_eq_true, if_false]
  generalize st.SPop .reserved 100 = p
  obtain ⟨popped, st0⟩ := p
  cases popped with
  | nil => simp [forEachKey]
  | cons k ks => simp

theorem filter_mem_take_of_nodup (l : List String) (n : Nat) (h : l.Nodup) :
    l.filter (fun k => decide (k ∈ l.take n)) = l.take n := by
  induction l generalizing n with
  | nil => simp
  | cons a l ih =>
    cases n with
    | zero => simp
    | succ n =>
      obtain ⟨ha, hl⟩ := List.nodup_cons.1 h
      have e : l.filter (fun k => decide (k ∈ a :: l.take n)) =
          l.filter (fun k => decide (k ∈ l.take n)) := by
        apply List.filter_congr
        intro k hk
        have hne : k ≠ a := by
          rintro rfl
          exact ha hk
        simp [hne]
      rw [List.take_succ_cons, List.filter_cons_of_pos (by simp), e, ih n hl]

/-- Whatever fails, the pass of the Starter's loop over one key leaves the reserved set as
it is. -/
theorem startOne_mem_reserved (f : StarterFaults) (clock : Clock) (cfg : ScalerConfig)
    (st : Store) (k x : String) :
    x ∈ (startOne f clock cfg st k).1.members .reserved ↔ x ∈ st.members .reserved := by
  have hframe : ∀ (fault : ExecFault) (v : Blob),
      x ∈ (st.Exec fault [Cmd.set k v, Cmd.sadd .unavailable k]).1.members .reserved ↔
        x ∈ st.members .reserved := by
    intro fault v
    apply Exec_mem_frame
    intro c hc
    simp only [List.mem_cons, List.mem_singleton, List.not_mem_nil, or_false] at hc
    rcases hc with rfl | rfl <;> simp
  unfold startOne
  split
  · rfl
  · split
    · rfl
    · split
      · rfl
      · simp only
        split
        · exact hframe _ _
        · split <;> exact hframe _ _

/-- Whatever fails, the reserved set after a Starter tick is the one before without the
popped keys (none when the pop fails). -/
theorem start_mem_reserved (f : StarterFaults) (clock : Clock) (cfg : ScalerConfig)
    (st : Store) (key : String) :
    key ∈ (start f clock cfg st).1.members .reserved ↔
      key ∈ st.members .reserved ∧ (f.spop = false → key ∉ (st.SPop .reserved 100).1) := by
  by_cases hpop : f.spop = true
  · have : (start f clock cfg st).1 = st := by
      unfold start
      rw [if_pos hpop]
    rw [this]
    simp [hpop]
  · have hpop' : f.spop = false := by simpa using hpop
    rw [(start_store f clock cfg st hpop').1]
    have : key ∈ (forEachKey (startOne f clock cfg) (st.SPop .reserved 100).1
        (st.SPop .reserved 100).2).1.members .reserved ↔
        key ∈ (st.SPop .reserved 100).2.members .reserved :=
      forEachKey_preserves (startOne f clock cfg)
      (fun st' => key ∈ st'.members .reserved ↔
        key ∈ (st.SPop .reserved 100).2.members .reserved) (st.SPop .reserved 100).1
      (by
        intro st' k _ hp
        show key ∈ (startOne f clock cfg st' k).1.members .reserved ↔ _
        rw [startOne_mem_reserved]
        exact hp)
      (st.SPop .reserved 100).2 Iff.rfl
    rw [this, mem_SPop_members]
    exact ⟨fun h => ⟨h.1, fun _ => h.2 rfl⟩, fun h => ⟨h.1, fun _ => h.2 hpop'⟩⟩

/-- The members of the reserved set that a Starter tick whose pop does not fail takes out
are the popped keys. -/
theorem start_taken (f : StarterFaults) (clock : Clock) (cfg : ScalerConfig) (st : Store)
    (hpop : f.spop = false) :
    (st.SMembers .reserved).filter
        (fun key => decide (key ∉ (start f clock cfg st).1.members .reserved)) =
      (st.SPop .reserved 100).1 := by
  have hp : (st.SPop .reserved 100).1 = (st.SMembers .reserved).take 100 := rfl
  rw [hp, ← filter_mem_take_of_nodup (st.SMembers .reserved) 100 (List.nodup_dedup _)]
  apply List.filter_congr
  intro key hkey
  have hmem : key ∈ st.members .reserved := List.mem_dedup.1 hkey
  have := start_mem_reserved f clock cfg st key
  rw [hp] at this
  simp only [decide_eq_decide]
  rw [this]
  simp [hmem, hpop]

/-- C9: a Starter tick takes at most 100 keys out of `vmss:status:reserved`, whatever
fails.  On a failure-free store it returns no error and takes `min 100 |reserved|` of them:
the members it takes out are the popped keys, a member that was not popped is still in the
reserved set, and every key that was not popped keeps its record and its membership in
every set.  For every popped key whose record loads and parses: the record is rewritten
with status `Unavailable` and `updatedAt = now`, the key is a member of
`vmss:status:unavailable` and no longer of the reserved set, and the successful batch is
followed at once by `StartInstance` with the record's instanceId. -/
theorem start_moves_reserved (f : StarterFaults) (clock : Clock) (cfg : ScalerConfig)
    (st : Store) :
    ((st.SMembers .reserved).filter
      (fun key => decide (key ∉ (start f clock cfg st).1.members .reserved))).length ≤ 100 ∧
    (f.storeOk →
      (start f clock cfg st).2.2 = none ∧
      ((st.SMembers .reserved).filter
        (fun key => decide (key ∉ (start f clock cfg st).1.members .reserved))).length =
        min 100 (st.SMembers .reserved).length ∧
      (st.SMembers .reserved).filter
          (fun key => decide (key ∉ (start f clock cfg st).1.members .reserved)) =
        (st.SPop .reserved 100).1 ∧
      (∀ key, key ∈ (start f clock cfg st).1.members .reserved ↔
        key ∈ st.members .reserved ∧ key ∉ (st.SPop .reserved 100).1) ∧
      (∀ key, key ∉ (st.SPop .reserved 100).1 →
        (start f clock cfg st).1.get key = st.get key ∧
        ∀ s, (key ∈ (start f clock cfg st).1.members s ↔ key ∈ st.members s)) ∧
      ∀ key ∈ (st.SPop .reserved 100).1, ∀ r, (st.get key).bind unmarshal = some r →
        (start f clock cfg st).1.get key =
          some (marshal { r with Status := VMStatusUnavailable,
                                 UpdatedAt := clock.format (clock.now key) }) ∧
        key ∈ (start f clock cfg st).1.members .unavailable ∧
        key ∉ (start f clock cfg st).1.members .reserved ∧
        ∃ pre post ok, (start f clock cfg st).2.1 =
          pre ++ [.exec [Cmd.set key (marshal { r with Status := VMStatusUnavailable,
                                                       UpdatedAt := clock.format (clock.now key) }),
                         Cmd.sadd .unavailable key] true,
                  .startInstance r.InstanceID ok] ++ post) := by
  constructor
  · by_cases hpop : f.spop = true
    · have hnil : (st.SMembers .reserved).filter
          (fun key => decide (key ∉ (start f clock cfg st).1.members .reserved)) = [] := by
        rw [List.filter_eq_nil_iff]
        intro key hkey
        have hmem : key ∈ st.members .reserved := List.mem_dedup.1 hkey
        simp [start_mem_reserved, hmem, hpop]
      rw [hnil]
      exact Nat.zero_le _
    · rw [start_taken f clock cfg st (by simpa using hpop), SPop_length]
      exact Nat.min_le_left _ _
  intro hstore
  obtain ⟨hst, heff, herr⟩ := start_store f clock cfg st hstore.1
  have hbody : ∀ st' k, (startOne f clock cfg st' k).1 =
      transitionStore VMStatusUnavailable .unavailable clock st' k :=
    fun st' k => startOne_store f clock cfg st' k hstore
  have hres : ∀ key, key ∈ (start f clock cfg st).1.members .reserved ↔
      key ∈ st.members .reserved ∧ key ∉ (st.SPop .reserved 100).1 := by
    intro key
    rw [start_mem_reserved]
    exact ⟨fun h => ⟨h.1, h.2 hstore.1⟩, fun h => ⟨h.1, fun _ => h.2⟩⟩
  have htaken := start_taken f clock cfg st hstore.1
  refine ⟨herr, by rw [htaken]; exact SPop_length st _ 100, htaken, hres, ?_, ?_⟩
  · intro key hkey
    constructor
    · rw [hst]
      exact forEachKey_preserves (startOne f clock cfg)
        (fun st' => st'.get key = st.get key) (st.SPop .reserved 100).1
        (by
          intro st' k hk hp
          show (startOne f clock cfg st' k).1.get key = st.get key
          rw [hbody, transitionStore_get_other _ _ _ _ _ _ (by
            rintro rfl
            exact hkey hk)]
          exact hp)
        (st.SPop .reserved 100).2 (SPop_get st .reserved 100 key)
    · intro s
      rw [hst, forEachKey_transition_frame (startOne f clock cfg) VMStatusUnavailable
        .unavailable clock hbody _ _ key s (Or.inr hkey), mem_SPop_members]
      exact ⟨fun h => h.1, fun h => ⟨h, fun _ => hkey⟩⟩
  · intro key hkey r hr
    have hr0 : ((st.SPop .reserved 100).2.get key).bind unmarshal = some r := by
      rw [SPop_get]
      exact hr
    have hnot : key ∉ (start f clock cfg st).1.members .reserved :=
      fun h => ((hres key).1 h).2 hkey
    rw [hst] at hnot
    rw [hst, heff]
    have htrans := forEachKey_transition (startOne f clock cfg) VMStatusUnavailable .unavailable
      clock hbody _ (st.SPop .reserved 100).2 key hkey r hr0
    refine ⟨htrans.1, htrans.2, hnot, ?_⟩
    obtain ⟨st', pre, post, hp, he⟩ := forEachKey_visits (startOne f clock cfg)
      (fun st' => (st'.get key).bind unmarshal = some r) key _ hkey
      (by
        intro st' k hk hp
        show ((startOne f clock cfg st' k).1.get key).bind unmarshal = some r
        rw [hbody, transitionStore_get_other _ _ _ _ _ _ hk]
        exact hp)
      (st.SPop .reserved 100).2 hr0
    obtain ⟨ok, rest, hseg⟩ := startOne_effects f clock cfg st' key hstore r hp
    refine ⟨pre, rest ++ post, ok, ?_⟩
    rw [he, hseg]
    simp

set_option maxRecDepth 1000000 in
set_option maxHeartbeats 4000000 in
/-- Witness for C9.  Three reserved keys, one of them without a record: `E` is rewritten,
moved to the unavailable set, and instance `5` is started right after its batch.  A
reserved set of 101 keys: the tick takes 100 of them out and the key `100`, which the pop
did not return, is still in the reserved set. -/
theorem start_moves_reserved_witness :
    (start noStarterFaults testClock testConfig storeReserved).1.members .reserved = [] ∧
    (start noStarterFaults testClock testConfig storeReserved).1.members .unavailable =
      ["vmss:instance:E", "vmss:instance:F"] ∧
    (start noStarterFaults testClock testConfig storeReserved).1.get "vmss:instance:E" =
      some (marshal (testRecord "E" "5" VMStatusUnavailable "1000" false)) ∧
    (∃ pre post ok, (start noStarterFaults testClock testConfig storeReserved).2.1 =
      pre ++ [.exec [Cmd.set "vmss:instance:E"
                      (marshal { testRecord "E" "5" VMStatusReserved "950" false with
                        Status := VMStatusUnavailable,
                        UpdatedAt := testClock.format (testClock.now "vmss:instance:E") }),
                     Cmd.sadd .unavailable "vmss:instance:E"] true,
              .startInstance (testRecord "E" "5" VMStatusReserved "950" false).InstanceID ok]
        ++ post) ∧
    (crowdedStore.SMembers .reserved).length = 101 ∧
    ((crowdedStore.SMembers .reserved).filter
      (fun key => decide (key ∉
        (start noStarterFaults testClock testConfig crowdedStore).1.members .reserved))).length =
      min 100 (crowdedStore.SMembers .reserved).length ∧
    "100" ∈ (start noStarterFaults testClock testConfig crowdedStore).1.members .reserved :=
  ⟨by decide, by decide, by decide,
    (((start_moves_reserved noStarterFaults testClock testConfig storeReserved).2
      ⟨rfl, fun _ => rfl, fun _ => rfl⟩).2.2.2.2.2 "vmss:instance:E" (by decide)
      (testRecord "E" "5" VMStatusReserved "950" false) (by decide)).2.2.2,
    by decide,
    ((start_moves_reserved noStarterFaults testClock testConfig crowdedStore).2
      ⟨rfl, fun _ => rfl, fun _ => rfl⟩).2.1,
    ((((start_moves_reserved noStarterFaults testClock testConfig crowdedStore).2
      ⟨rfl, fun _ => rfl, fun _ => rfl⟩).2.2.2.1) "100").2 ⟨by decide, by decide⟩⟩

/-! ### Simulator -/

theorem simulateOne_store (f : SimulatorFaults) (clock : Clock) (st : Store) (key : String)
    (hstore : f.storeOk) :
    (simulateOne f clock st key).1 = transitionStore VMStatusReserved .reserved clock st key := by
  obtain ⟨-, hget, hexec⟩ := hstore
  unfold simulateOne transitionStore
  simp only [hget key, Bool.false_eq_true, if_false, hexec key, Exec_none]
  cases hg : st.get key with
  | none => rfl
  | some data =>
    cases hu : unmarshal data with
    | none => simp [hu]
    | some record => simp [hu, Store.apply]

theorem simulate_store (f : SimulatorFaults) (clock : Clock) (currentStep : Nat) (st : Store)
    (n : Nat) (hstep : schedule[currentStep]? = some n) (h : f.spop = false) :
    simulate f clock currentStep st =
      some { currentStep := (currentStep + 1) % schedule.length
             store := (forEachKey (simulateOne f clock) (st.SPop .available n).1
               (st.SPop .available n).2).1
             effects := (forEachKey (simulateOne f clock) (st.SPop .available n).1
               (st.SPop .available n).2).2
             err := none } := by
  unfold simulate
  simp only [hstep, h, Bool.false_eq_true, if_false]
  generalize st.SPop .available n = p
  obtain ⟨popped, st0⟩ := p
  cases popped with
  | nil => simp [forEachKey]
  | cons k ks => simp

/-- C10: a Simulator tick whose schedule step requests `n` keys, on a failure-free store
where the records of the popped keys load and parse, returns no error and moves exactly
`min n |available|` keys: each is no longer in `vmss:status:available`, its record is
rewritten with status `Reserved` and `updatedAt = now`, and it is a member of
`vmss:status:reserved`; the membership of every other key in every status set is
unchanged. -/
theorem simulate_moves (f : SimulatorFaults) (clock : Clock) (currentStep n : Nat)
    (st : Store) (hstore : f.storeOk) (hstep : schedule[currentStep]? = some n)
    (hparse : ∀ key ∈ (st.SPop .available n).1, (st.get key).bind unmarshal ≠ none) :
    ∃ out, simulate f clock currentStep st = some out ∧ out.err = none ∧
      (st.SPop .available n).1.Nodup ∧
      (st.SPop .available n).1.length = min n (st.SMembers .available).length ∧
      (∀ key ∈ (st.SPop .available n).1,
        key ∈ st.members .available ∧
        key ∉ out.store.members .available ∧ key ∈ out.store.members .reserved ∧
        ∃ r, (st.get key).bind unmarshal = some r ∧
          out.store.get key =
            some (marshal { r with Status := VMStatusReserved,
                                   UpdatedAt := clock.format (clock.now key) })) ∧
      (∀ key, key ∉ (st.SPop .available n).1 →
        ∀ s, (key ∈ out.store.members s ↔ key ∈ st.members s)) := by
  have hbody : ∀ st' k, (simulateOne f clock st' k).1 =
      transitionStore VMStatusReserved .reserved clock st' k :=
    fun st' k => simulateOne_store f clock st' k hstore
  refine ⟨_, simulate_store f clock currentStep st n hstep hstore.1, rfl,
    (List.nodup_dedup _).sublist (List.take_sublist _ _), SPop_length st _ n, ?_, ?_⟩
  · intro key hkey
    obtain ⟨r, hr⟩ := Option.ne_none_iff_exists'.1 (hparse key hkey)
    have hr0 : ((st.SPop .available n).2.get key).bind unmarshal = some r := by
      rw [SPop_get]
      exact hr
    have htrans := forEachKey_transition (simulateOne f clock) VMStatusReserved .reserved
      clock hbody _ (st.SPop .available n).2 key hkey r hr0
    refine ⟨List.mem_dedup.1 (List.mem_of_mem_take hkey), ?_, htrans.2, r, hr, htrans.1⟩
    show key ∉ (forEachKey (simulateOne f clock) _ _).1.members .available
    rw [forEachKey_transition_frame (simulateOne f clock) VMStatusReserved .reserved
      clock hbody _ _ key .available (Or.inl (by decide)), mem_SPop_members]
    exact fun h => h.2 rfl hkey
  · intro key hkey s
    show key ∈ (forEachKey (simulateOne f clock) _ _).1.members s ↔ _
    rw [forEachKey_transition_frame (simulateOne f clock) VMStatusReserved .reserved
      clock hbody _ _ key s (Or.inr hkey), mem_SPop_members]
    exact ⟨fun h => h.1, fun h => ⟨h, fun _ => hkey⟩⟩

/-- Witness for C10 (scenario S6): step index 2 requests two keys; with the available set
`{K1, K2, K3}` the tick moves `K1` and `K2` to the reserved set, leaves `K3`, and advances
the step index to 3. -/
theorem simulate_moves_witness :
    simulate noSimulatorFaults testClock 2 storeS6 =
      some { currentStep := 3
             store :=
               { kv := [("K2", marshal (testRecord "K2" "2" VMStatusReserved "1000" false)),
                        ("K1", marshal (testRecord "K1" "1" VMStatusReserved "1000" false)),
                        ("K3", marshal (testRecord "K3" "3" VMStatusAvailable "" false))]
                 available := ["K3"], reserved := ["K1", "K2"], unavailable := [] }
             effects :=
               [.exec [Cmd.set "K1" (marshal (testRecord "K1" "1" VMStatusReserved "1000" false)),
                       Cmd.sadd .reserved "K1"] true,
                .exec [Cmd.set "K2" (marshal (testRecord "K2" "2" VMStatusReserved "1000" false)),
                       Cmd.sadd .reserved "K2"] true]
             err := none } ∧
    (storeS6.SPop .available 2).1 = ["K1", "K2"] ∧
    ∃ out, simulate noSimulatorFaults testClock 2 storeS6 = some out ∧ out.err = none ∧
      (storeS6.SPop .available 2).1.Nodup ∧
      (storeS6.SPop .available 2).1.length = min 2 (storeS6.SMembers .available).length ∧
      (∀ key ∈ (storeS6.SPop .available 2).1,
        key ∈ storeS6.members .available ∧
        key ∉ out.store.members .available ∧ key ∈ out.store.members .reserved ∧
        ∃ r, (storeS6.get key).bind unmarshal = some r ∧
          out.store.get key =
            some (marshal { r with Status := VMStatusReserved,
                                   UpdatedAt := testClock.format (testClock.now key) })) ∧
      (∀ key, key ∉ (storeS6.SPop .available 2).1 →
        ∀ s, (key ∈ out.store.members s ↔ key ∈ storeS6.members s)) :=
  ⟨by decide, by decide,
    simulate_moves noSimulatorFaults testClock 2 2 storeS6 ⟨rfl, fun _ => rfl, fun _ => rfl⟩
      (by decide) (by decide)⟩

/-! ### Simulator: the step index -/

/-- C11, amended: on every tick of the Simulator whose pop returns no error (keys popped,
zero requested, zero available, per-record failures), from a step index `currentStep` within
the schedule, `simulate()` returns no error and the step index afterwards is
`(currentStep + 1) mod 6`. -/
theorem simulate_advances_step (f : SimulatorFaults) (clock : Clock) (currentStep : Nat)
    (st : Store) (hstep : currentStep < 6) (hpop : f.spop = false) :
    ∃ out, simulate f clock currentStep st = some out ∧ out.err = none ∧
      out.currentStep = (currentStep + 1) % 6 := by
  have hlen : currentStep < schedule.length := hstep
  have hget : schedule[currentStep]? = some (schedule[currentStep]) :=
    List.getElem?_eq_getElem hlen
  exact ⟨_, simulate_store f clock currentStep st _ hget hpop, rfl, rfl⟩

/-- From step index 5 on an empty store (nothing to pop) the tick returns no error and the
step index wraps to 0. -/
theorem simulate_advances_step_witness :
    ∃ out, simulate noSimulatorFaults testClock 5 emptyStore = some out ∧ out.err = none ∧
      out.currentStep = (5 + 1) % 6 :=
  simulate_advances_step noSimulatorFaults testClock 5 emptyStore (by decide) rfl

/-- Counterexample to C11: at step index 2 with the available set `{K1, K2, K3}`, a tick
whose `SPOP` fails returns the error and leaves the step index at 2, not at 3. -/
theorem simulate_failed_pop_keeps_step :
    (simulate failingPop testClock 2 storeS6).map (fun out => (out.currentStep, out.err)) =
      some (2, some "failed to pop available instances") ∧
    (2 + 1) % 6 ≠ 2 := by
  decide

/-! ### Provisioner -/

theorem handleInstances_fst (stopInstance : String → Bool) (effectiveWarmPoolSize : Int)
    (ids : List String) (warmCount : Int) :
    (handleInstances stopInstance effectiveWarmPoolSize ids warmCount).1 =
      (ids.drop (effectiveWarmPoolSize - warmCount).toNat).map
        (fun id => Effect.stopInstance id (!stopInstance id)) := by
  induction ids generalizing warmCount with
  | nil => simp [handleInstances]
  | cons id rest ih =>
    unfold handleInstances
    by_cases h : warmCount < effectiveWarmPoolSize
    · have hn : (effectiveWarmPoolSize - warmCount).toNat =
          (effectiveWarmPoolSize - (warmCount + 1)).toNat + 1 := by omega
      rw [if_pos h, ih, hn, List.drop_succ_cons]
    · have hn : (effectiveWarmPoolSize - warmCount).toNat = 0 := by omega
      rw [if_neg h]
      simp only [ih, hn, List.drop_zero, List.map_cons]

theorem drop_min_length {α : Type} (n : Nat) (l : List α) :
    l.drop (min n l.length) = l.drop n := by
  by_cases h : n ≤ l.length
  · rw [Nat.min_eq_left h]
  · have h' : l.length ≤ n := Nat.le_of_not_le h
    rw [Nat.min_eq_right h', List.drop_length, List.drop_eq_nil_of_le h']

/-- The tick that returns no error: every call before the loop over the new instances
succeeded, and the outcome is the one of the last branch. -/
theorem provision_of_ok (f : ProvisionerFaults) (s : provisioner.Service)
    (appgwConfig : AppGWConfig)
    (range : List (String × VMInstance) → List (String × VMInstance))
    (started finished : Int) (cloudBefore cloudAfter cloudWarm : List VMInstance)
    (vmss : ScaleSet) (gateway : List URLPathMap) (out : ProvisionOutcome)
    (hout : provision f s appgwConfig range started finished cloudBefore cloudAfter cloudWarm
      vmss gateway = some out) (hok : out.err = none) :
    f.listBefore = false ∧ f.listAfter = false ∧ f.listWarm = false ∧
    (UpdatePathBasedRules f.appgw appgwConfig range gateway
      (ListInstances cloudAfter {})).err = none ∧
    ∃ created, CreateInstances f.create vmss s.poolCapacity = some created ∧
      created.err = none ∧
      out =
        { vmss := created.vmss
          gateway := (UpdatePathBasedRules f.appgw appgwConfig range gateway
            (ListInstances cloudAfter {})).gateway
          provisionedInstances :=
            identifyProvisioned ((ListInstances cloudBefore {}).map (fun inst => inst.InstanceID))
              (ListInstances cloudAfter {})
          effects :=
            [.listInstances {} true, .createInstances s.poolCapacity true,
             .listInstances {} true,
             .updatePathBasedRules (ListInstances cloudAfter {}) true] ++
            [.listInstances { VMPowerStates := [PowerStateStopped] } true] ++
            (handleInstances f.stopInstance
              (if s.warmPoolEnabled ∧ s.warmPoolSize > 0 ∧ s.warmPoolSize ≤ s.poolCapacity then
                s.warmPoolSize -
                  ((ListInstances cloudWarm { VMPowerStates := [PowerStateStopped] }).length : Int)
               else 0)
              (identifyProvisioned
                ((ListInstances cloudBefore {}).map (fun inst => inst.InstanceID))
                (ListInstances cloudAfter {})) 0).1 ++
            [.telemetry { Operation := "provision", Success := true,
                          Duration := since finished started } s.scalerConfig.GeoName]
          err := none } := by
  unfold provision at hout
  simp only at hout
  split at hout
  · cases hout; simp at hok
  · rename_i h1
    split at hout
    · cases hout
    · rename_i created hcreated
      split at hout
      · cases hout; simp at hok
      · rename_i hcerr
        split at hout
        · cases hout; simp at hok
        · rename_i h2
          split at hout
          · cases hout; simp at hok
          · rename_i huerr
            split at hout
            · cases hout; simp at hok
            · rename_i h3
              simp only [Option.some.injEq] at hout
              refine ⟨by simpa using h1, by simpa using h2, by simpa using h3, huerr,
                created, hcreated, hcerr, ?_⟩
              rw [← hout]

/-- C12: in a Provisioner tick that returns no error, with `w = max(0, warmPoolSize -
currentWarm)` when the warm pool is enabled and `0 < warmPoolSize ≤ poolCapacity`, and
`w = 0` otherwise, the external calls are the five calls of steps 1 to 6, then one
`StopInstance` for each newly provisioned instance after the first `min(w, |provisioned|)`,
in order, and nothing for those first ones, then the telemetry call; with the warm pool
disabled there is one `StopInstance` for every newly provisioned instance. -/
theorem provision_partitions (f : ProvisionerFaults) (s : provisioner.Service)
    (appgwConfig : AppGWConfig)
    (range : List (String × VMInstance) → List (String × VMInstance))
    (started finished : Int) (cloudBefore cloudAfter cloudWarm : List VMInstance)
    (vmss : ScaleSet) (gateway : List URLPathMap) (out : ProvisionOutcome)
    (hout : provision f s appgwConfig range started finished cloudBefore cloudAfter cloudWarm
      vmss gateway = some out) (hok : out.err = none) :
    out.effects =
      [.listInstances {} true, .createInstances s.poolCapacity true, .listInstances {} true,
       .updatePathBasedRules (ListInstances cloudAfter {}) true,
       .listInstances { VMPowerStates := [PowerStateStopped] } true] ++
      (out.provisionedInstances.drop
        (min (specEffectiveWarm s
            (ListInstances cloudWarm { VMPowerStates := [PowerStateStopped] }).length)
          out.provisionedInstances.length)).map
        (fun instanceID => Effect.stopInstance instanceID (!f.stopInstance instanceID)) ++
      [.telemetry { Operation := "provision", Success := true,
                    Duration := since finished started } s.scalerConfig.GeoName] ∧
    (s.warmPoolEnabled = false →
      out.effects =
        [.listInstances {} true, .createInstances s.poolCapacity true, .listInstances {} true,
         .updatePathBasedRules (ListInstances cloudAfter {}) true,
         .listInstances { VMPowerStates := [PowerStateStopped] } true] ++
        out.provisionedInstances.map
          (fun instanceID => Effect.stopInstance instanceID (!f.stopInstance instanceID)) ++
        [.telemetry { Operation := "provision", Success := true,
                      Duration := since finished started } s.scalerConfig.GeoName]) := by
  obtain ⟨-, -, -, -, created, -, -, rfl⟩ :=
    provision_of_ok f s appgwConfig range started finished cloudBefore cloudAfter cloudWarm
      vmss gateway out hout hok
  have hdrop : ∀ ids : List String,
      (handleInstances f.stopInstance
        (if s.warmPoolEnabled ∧ s.warmPoolSize > 0 ∧ s.warmPoolSize ≤ s.poolCapacity then
          s.warmPoolSize -
            ((ListInstances cloudWarm { VMPowerStates := [PowerStateStopped] }).length : Int)
         else 0) ids 0).1 =
      (ids.drop (min (specEffectiveWarm s
          (ListInstances cloudWarm { VMPowerStates := [PowerStateStopped] }).length)
        ids.length)).map
        (fun instanceID => Effect.stopInstance instanceID (!f.stopInstance instanceID)) := by
    intro ids
    rw [handleInstances_fst, drop_min_length]
    congr 2
    unfold specEffectiveWarm
    by_cases hc : s.warmPoolEnabled = true ∧ 0 < s.warmPoolSize ∧ s.warmPoolSize ≤ s.poolCapacity
    · rw [if_pos hc, if_pos hc]
      omega
    · rw [if_neg hc, if_neg hc]
      rfl
  refine ⟨?_, ?_⟩
  · simp only [hdrop, List.append_assoc, List.cons_append, List.nil_append]
  · intro hoff
    have hw : specEffectiveWarm s
        (ListInstances cloudWarm { VMPowerStates := [PowerStateStopped] }).length = 0 := by
      simp [specEffectiveWarm, hoff]
    simp only [hdrop, hw, Nat.zero_min, List.drop_zero, List.append_assoc, List.cons_append,
      List.nil_append]

/-- Witness for C12: with `poolCapacity = 3` and a warm pool of size 1, no VM stopped, the
scale set grows from `[Z]` by the instances `0`, `1`, `2`: instance `0` gets no call,
instances `1` and `2` are deallocated in this order. -/
theorem provision_partitions_witness :
    provision stopFaults serviceWarm testAppGWConfig id 0 5000000000
      [testInstance "Z" "9" PowerStateDeallocated] cloudGrown cloudGrown (testScaleSet 1)
      defaultGateway = some outcomeWarm ∧
    outcomeWarm.effects =
      [.listInstances {} true, .createInstances serviceWarm.poolCapacity true,
       .listInstances {} true,
       .updatePathBasedRules (ListInstances cloudGrown {}) true,
       .listInstances { VMPowerStates := [PowerStateStopped] } true] ++
      (outcomeWarm.provisionedInstances.drop
        (min (specEffectiveWarm serviceWarm
            (ListInstances cloudGrown { VMPowerStates := [PowerStateStopped] }).length)
          outcomeWarm.provisionedInstances.length)).map
        (fun instanceID => Effect.stopInstance instanceID (!stopFaults.stopInstance instanceID)) ++
      [.telemetry { Operation := "provision", Success := true,
                    Duration := since 5000000000 0 } serviceWarm.scalerConfig.GeoName] :=
  ⟨by decide,
   (provision_partitions stopFaults serviceWarm testAppGWConfig id 0 5000000000
      [testInstance "Z" "9" PowerStateDeallocated] cloudGrown cloudGrown (testScaleSet 1)
      defaultGateway outcomeWarm (by decide) (by decide)).1⟩

/-- What `CreateInstances` can do: nothing (the `Get` failed or the capacity is already
there), or the update to exactly `desiredCount`, which took effect unless it failed. -/
theorem CreateInstances_cases (f : CreateFaults) (vmss : ScaleSet) (desiredCount : Int)
    (out : CreateOutcome) (h : CreateInstances f vmss desiredCount = some out) :
    (out.vmss = vmss ∧ out.update = none ∧ (f.get = true ∨ desiredCount ≤ currentCount vmss) ∧
      (f.get = false → out.err = none)) ∨
    (f.get = false ∧ currentCount vmss < desiredCount ∧
      ∃ sku, vmss.SKU = some sku ∧
        out.update = some { Name := sku.Name, Tier := sku.Tier, Capacity := some desiredCount } ∧
        ((out.vmss = vmss ∧ out.err ≠ none) ∨
         out.vmss = { vmss with SKU := some { Name := sku.Name, Tier := sku.Tier,
                                              Capacity := some desiredCount } })) := by
  unfold CreateInstances at h
  by_cases hget : f.get = true
  · rw [if_pos hget] at h
    cases h
    exact Or.inl ⟨rfl, rfl, Or.inl hget, fun e => by rw [hget] at e; cases e⟩
  · rw [if_neg hget] at h
    by_cases hge : currentCount vmss ≥ desiredCount
    · rw [if_pos hge] at h
      cases h
      exact Or.inl ⟨rfl, rfl, Or.inr hge, fun _ => rfl⟩
    · rw [if_neg hge] at h
      cases hsku : vmss.SKU with
      | none => rw [hsku] at h; cases h
      | some sku =>
        rw [hsku] at h
        refine Or.inr ⟨by simpa using hget, lt_of_not_ge hge, sku, rfl, ?_⟩
        simp only at h
        by_cases hb : f.beginUpdate = true
        · rw [if_pos hb] at h
          cases h
          by_cases ha : f.applied = true
          · exact ⟨rfl, Or.inr (by simp [ha])⟩
          · exact ⟨rfl, Or.inl ⟨by simp [ha], by simp⟩⟩
        · rw [if_neg hb] at h
          by_cases hp : f.pollUntilDone = true
          · rw [if_pos hp] at h
            cases h
            by_cases ha : f.applied = true
            · exact ⟨rfl, Or.inr (by simp [ha])⟩
            · exact ⟨rfl, Or.inl ⟨by simp [ha], by simp⟩⟩
          · rw [if_neg hp] at h
            cases h
            exact ⟨rfl, Or.inr rfl⟩

theorem CreateInstances_isSome (f : CreateFaults) (vmss : ScaleSet) (desiredCount : Int)
    (h : vmss.SKU ≠ none) : ∃ out, CreateInstances f vmss desiredCount = some out := by
  unfold CreateInstances
  cases hsku : vmss.SKU with
  | none => exact absurd hsku h
  | some sku =>
    simp only
    split
    · exact ⟨_, rfl⟩
    · split
      · exact ⟨_, rfl⟩
      · split
        · exact ⟨_, rfl⟩
        · split
          · exact ⟨_, rfl⟩
          · exact ⟨_, rfl⟩

theorem CreateInstances_currentCount_le (f : CreateFaults) (vmss : ScaleSet)
    (desiredCount : Int) (out : CreateOutcome)
    (h : CreateInstances f vmss desiredCount = some out) :
    currentCount vmss ≤ currentCount out.vmss := by
  rcases CreateInstances_cases f vmss desiredCount out h with
    ⟨hv, -, -, -⟩ | ⟨-, hlt, sku, -, -, ⟨hv, -⟩ | hv⟩
  · rw [hv]
  · rw [hv]
  · rw [hv]
    exact le_of_lt hlt

/-- The scale set after a tick is the one at its start or the one `CreateInstances` left. -/
theorem provision_vmss (f : ProvisionerFaults) (s : provisioner.Service)
    (appgwConfig : AppGWConfig)
    (range : List (String × VMInstance) → List (String × VMInstance))
    (started finished : Int) (cloudBefore cloudAfter cloudWarm : List VMInstance)
    (vmss : ScaleSet) (gateway : List URLPathMap) (out : ProvisionOutcome)
    (hout : provision f s appgwConfig range started finished cloudBefore cloudAfter cloudWarm
      vmss gateway = some out) :
    out.vmss = vmss ∨
    ∃ created, CreateInstances f.create vmss s.poolCapacity = some created ∧
      out.vmss = created.vmss := by
  unfold provision at hout
  simp only at hout
  split at hout
  · cases hout; exact Or.inl rfl
  · split at hout
    · cases hout
    · rename_i created hcreated
      right
      refine ⟨created, hcreated, ?_⟩
      split at hout
      · cases hout; rfl
      · split at hout
        · cases hout; rfl
        · split at hout
          · cases hout; rfl
          · split at hout
            · cases hout; rfl
            · cases hout; rfl

theorem provision_isSome (f : ProvisionerFaults) (s : provisioner.Service)
    (appgwConfig : AppGWConfig)
    (range : List (String × VMInstance) → List (String × VMInstance))
    (started finished : Int) (cloudBefore cloudAfter cloudWarm : List VMInstance)
    (vmss : ScaleSet) (gateway : List URLPathMap) (h : vmss.SKU ≠ none) :
    ∃ out, provision f s appgwConfig range started finished cloudBefore cloudAfter cloudWarm
      vmss gateway = some out := by
  obtain ⟨created, hcreated⟩ := CreateInstances_isSome f.create vmss s.poolCapacity h
  unfold provision
  simp only [hcreated]
  split
  · exact ⟨_, rfl⟩
  · split
    · exact ⟨_, rfl⟩
    · split
      · exact ⟨_, rfl⟩
      · split
        · exact ⟨_, rfl⟩
        · split
          · exact ⟨_, rfl⟩
          · exact ⟨_, rfl⟩

/-- C13: `CreateInstances(desiredCount)` hands an update to `BeginUpdate` exactly when the
`Get` succeeded and the current capacity is strictly below `desiredCount`, and the update
sets the capacity to exactly `desiredCount`; with the current capacity at or above
`desiredCount` it leaves the scale set as it is and calls no update; an update that returns
no error leaves the capacity at `desiredCount`; and for every scale set and every
`poolCapacity` the capacity after `CreateInstances`, and after a whole Provisioner tick, is
at least the capacity before.  On a scale set with an SKU both return. -/
theorem provision_never_lowers_capacity (cf : CreateFaults) (desiredCount : Int)
    (f : ProvisionerFaults) (s : provisioner.Service) (appgwConfig : AppGWConfig)
    (range : List (String × VMInstance) → List (String × VMInstance))
    (started finished : Int) (cloudBefore cloudAfter cloudWarm : List VMInstance)
    (vmss : ScaleSet) (gateway : List URLPathMap) :
    (vmss.SKU ≠ none → ∃ created, CreateInstances cf vmss desiredCount = some created) ∧
    (∀ created, CreateInstances cf vmss desiredCount = some created →
      (created.update ≠ none ↔ cf.get = false ∧ currentCount vmss < desiredCount) ∧
      (created.update ≠ none →
        created.update.bind (fun update => update.Capacity) = some desiredCount) ∧
      (desiredCount ≤ currentCount vmss →
        created.vmss = vmss ∧ created.update = none ∧ (cf.get = false → created.err = none)) ∧
      (created.err = none → currentCount vmss < desiredCount →
        currentCount created.vmss = desiredCount) ∧
      currentCount vmss ≤ currentCount created.vmss) ∧
    (vmss.SKU ≠ none →
      ∃ out, provision f s appgwConfig range started finished cloudBefore cloudAfter cloudWarm
        vmss gateway = some out) ∧
    (∀ out, provision f s appgwConfig range started finished cloudBefore cloudAfter cloudWarm
        vmss gateway = some out → currentCount vmss ≤ currentCount out.vmss) := by
  refine ⟨CreateInstances_isSome cf vmss desiredCount, ?_,
    provision_isSome f s appgwConfig range started finished cloudBefore cloudAfter cloudWarm
      vmss gateway, ?_⟩
  · intro created hcreated
    refine ⟨?_, ?_, ?_, ?_, CreateInstances_currentCount_le cf vmss desiredCount created hcreated⟩
    · rcases CreateInstances_cases cf vmss desiredCount created hcreated with
        ⟨-, hu, hor, -⟩ | ⟨hget, hlt, sku, -, hu, -⟩
      · constructor
        · intro h; exact absurd hu h
        · rintro ⟨hget, hlt⟩
          rcases hor with hg | hle
          · rw [hget] at hg; cases hg
          · omega
      · constructor
        · intro _; exact ⟨hget, hlt⟩
        · intro _; rw [hu]; simp
    · intro hne
      rcases CreateInstances_cases cf vmss desiredCount created hcreated with
        ⟨-, hu, -, -⟩ | ⟨-, -, sku, -, hu, -⟩
      · exact absurd hu hne
      · rw [hu]; rfl
    · intro hle
      rcases CreateInstances_cases cf vmss desiredCount created hcreated with
        ⟨hv, hu, -, herr⟩ | ⟨-, hlt, -⟩
      · exact ⟨hv, hu, herr⟩
      · omega
    · intro herr hlt
      rcases CreateInstances_cases cf vmss desiredCount created hcreated with
        ⟨-, -, hor, -⟩ | ⟨hget, -, sku, -, -, ⟨-, hne⟩ | hv⟩
      · rcases hor with hg | hle
        · have : created.err = some "failed to get current VMSS" := by
            unfold CreateInstances at hcreated
            rw [if_pos hg] at hcreated
            cases hcreated
            rfl
          rw [this] at herr
          cases herr
        · omega
      · exact absurd herr hne
      · rw [hv]; rfl
  · intro out hout
    rcases provision_vmss f s appgwConfig range started finished cloudBefore cloudAfter
      cloudWarm vmss gateway out hout with hv | ⟨created, hcreated, hv⟩
    · rw [hv]
    · rw [hv]
      exact CreateInstances_currentCount_le f.create vmss s.poolCapacity created hcreated

/-- Witness for C13 (scenario S1): from capacity 0 with `poolCapacity = 2` the tick grows the
scale set to 2; from capacity 5, `CreateInstances(2)` changes nothing. -/
theorem provision_never_lowers_capacity_witness :
    (∃ out, provision noProvisionerFaults serviceS1 testAppGWConfig id 0 5000000000 [] cloudS1
      cloudS1 (testScaleSet 0) defaultGateway = some out) ∧
    (provision noProvisionerFaults serviceS1 testAppGWConfig id 0 5000000000 [] cloudS1
      cloudS1 (testScaleSet 0) defaultGateway).map (fun out => currentCount out.vmss) = some 2 ∧
    CreateInstances noCreateFaults (testScaleSet 5) 2 =
      some { vmss := testScaleSet 5, update := none, err := none } :=
  ⟨(provision_never_lowers_capacity noCreateFaults 2 noProvisionerFaults serviceS1
      testAppGWConfig id 0 5000000000 [] cloudS1 cloudS1 (testScaleSet 0) defaultGateway).2.2.1
      (by decide),
   by decide, by decide⟩

theorem stopCalls_handleInstances (stopInstance : String → Bool) (effectiveWarmPoolSize : Int)
    (ids : List String) (warmCount : Int) :
    stopCalls (handleInstances stopInstance effectiveWarmPoolSize ids warmCount).1 =
      ids.drop (effectiveWarmPoolSize - warmCount).toNat := by
  rw [handleInstances_fst]
  generalize ids.drop (effectiveWarmPoolSize - warmCount).toNat = l
  induction l with
  | nil => rfl
  | cons id rest ih =>
    simp only [stopCalls, List.map_cons, List.filterMap_cons] at ih ⊢
    rw [ih]

/-- C14: in a Provisioner tick whose first listing succeeded, an error of `CreateInstances`
(step 2) is returned as it is, after the telemetry call with `Success = false` and without
any later call; with steps 1 to 3 done, an error of `UpdatePathBasedRules` (step 4) is
returned as it is, after the telemetry call with `Success = false` and without any later
call; and which `StopInstance` calls fail (step 8) changes neither the return value nor the
sequence of instances for which `StopInstance` is called. -/
theorem provision_failure_semantics (f : ProvisionerFaults) (s : provisioner.Service)
    (appgwConfig : AppGWConfig)
    (range : List (String × VMInstance) → List (String × VMInstance))
    (started finished : Int) (cloudBefore cloudAfter cloudWarm : List VMInstance)
    (vmss : ScaleSet) (gateway : List URLPathMap) :
    (f.listBefore = false → ∀ created e,
      CreateInstances f.create vmss s.poolCapacity = some created → created.err = some e →
      provision f s appgwConfig range started finished cloudBefore cloudAfter cloudWarm vmss
        gateway =
        some { vmss := created.vmss, gateway := gateway, provisionedInstances := [],
               effects := [.listInstances {} true, .createInstances s.poolCapacity false,
                           .telemetry { Operation := "provision", Success := false,
                                        ErrorMessage := e,
                                        Duration := since finished started }
                             s.scalerConfig.GeoName],
               err := some e }) ∧
    (f.listBefore = false → f.listAfter = false → ∀ created e,
      CreateInstances f.create vmss s.poolCapacity = some created → created.err = none →
      (UpdatePathBasedRules f.appgw appgwConfig range gateway
        (ListInstances cloudAfter {})).err = some e →
      provision f s appgwConfig range started finished cloudBefore cloudAfter cloudWarm vmss
        gateway =
        some { vmss := created.vmss,
               gateway := (UpdatePathBasedRules f.appgw appgwConfig range gateway
                 (ListInstances cloudAfter {})).gateway,
               provisionedInstances := [],
               effects := [.listInstances {} true, .createInstances s.poolCapacity true,
                           .listInstances {} true,
                           .updatePathBasedRules (ListInstances cloudAfter {}) false,
                           .telemetry { Operation := "provision", Success := false,
                                        ErrorMessage := e,
                                        Duration := since finished started }
                             s.scalerConfig.GeoName],
               err := some e }) ∧
    (∀ stopInstance : String → Bool,
      (provision { f with stopInstance := stopInstance } s appgwConfig range started finished
        cloudBefore cloudAfter cloudWarm vmss gateway).map
          (fun out => (out.err, stopCalls out.effects)) =
      (provision f s appgwConfig range started finished cloudBefore cloudAfter cloudWarm vmss
        gateway).map (fun out => (out.err, stopCalls out.effects))) := by
  refine ⟨?_, ?_, ?_⟩
  · intro h1 created e hcreated herr
    unfold provision
    simp only [h1, hcreated, herr, Bool.false_eq_true, if_false]
  · intro h1 h2 created e hcreated herr hupd
    unfold provision
    simp only [h1, h2, hcreated, herr, hupd, Bool.false_eq_true, if_false]
  · intro stopInstance
    unfold provision
    simp only
    split
    · rfl
    · split
      · rfl
      · split
        · rfl
        · split
          · rfl
          · split
            · rfl
            · split
              · rfl
              · simp only [Option.map_some', Option.some.injEq, Prod.mk.injEq, true_and]
                simp only [stopCalls, List.filterMap_append, List.filterMap_cons,
                  List.filterMap_nil, List.nil_append, List.append_nil]
                exact (stopCalls_handleInstances _ _ _ _).trans
                  (stopCalls_handleInstances _ _ _ _).symm

/-- Witness for C14: a tick whose `Get` of the scale set fails returns that error after two
calls and the telemetry call with `Success = false`; so does, after four calls, a tick whose
`Get` of the gateway fails. -/
theorem provision_failure_semantics_witness :
    provision growthFaults serviceS1 testAppGWConfig id 0 5000000000 [] cloudS1 cloudS1
      (testScaleSet 0) defaultGateway =
      some { vmss := testScaleSet 0, gateway := defaultGateway, provisionedInstances := [],
             effects := [.listInstances {} true, .createInstances 2 false,
                         .telemetry { Operation := "provision", Success := false,
                                      ErrorMessage := "failed to get current VMSS",
                                      Duration := since 5000000000 0 } "westeurope"],
             err := some "failed to get current VMSS" } ∧
    provision routeFaults serviceS1 testAppGWConfig id 0 5000000000 [] cloudS1 cloudS1
      (testScaleSet 0) defaultGateway =
      some { vmss := testScaleSet 2, gateway := defaultGateway, provisionedInstances := [],
             effects := [.listInstances {} true, .createInstances 2 true,
                         .listInstances {} true, .updatePathBasedRules cloudS1 false,
                         .telemetry { Operation := "provision", Success := false,
                                      ErrorMessage := "failed to get app gateway",
                                      Duration := since 5000000000 0 } "westeurope"],
             err := some "failed to get app gateway" } :=
  ⟨(provision_failure_semantics growthFaults serviceS1 testAppGWConfig id 0 5000000000 []
      cloudS1 cloudS1 (testScaleSet 0) defaultGateway).1 rfl
      { vmss := testScaleSet 0, update := none, err := some "failed to get current VMSS" }
      "failed to get current VMSS" (by decide) rfl,
   (provision_failure_semantics routeFaults serviceS1 testAppGWConfig id 0 5000000000 []
      cloudS1 cloudS1 (testScaleSet 0) defaultGateway).2.1 rfl rfl
      { vmss := testScaleSet 2,
        update := some { Name := some "Standard_NV6", Tier := some "Standard",
                         Capacity := some 2 },
        err := none }
      "failed to get app gateway" (by decide) rfl (by decide)⟩

/-! ### `NewService` -/

theorem validateJob_eq_none_iff (scalerConfig : ScalerConfig) :
    validateJob scalerConfig = none ↔
      0 < scalerConfig.JobInterval ∧ 0 < scalerConfig.JobTimeout ∧ 0 < scalerConfig.JobDelay := by
  unfold validateJob
  by_cases h1 : scalerConfig.JobInterval ≤ 0
  · simp only [if_pos h1]
    constructor
    · intro h; cases h
    · intro h; omega
  · by_cases h2 : scalerConfig.JobTimeout ≤ 0
    · simp only [if_neg h1, if_pos h2]
      constructor
      · intro h; cases h
      · intro h; omega
    · by_cases h3 : scalerConfig.JobDelay ≤ 0
      · simp only [if_neg h1, if_neg h2, if_pos h3]
        constructor
        · intro h; cases h
        · intro h; omega
      · simp only [if_neg h1, if_neg h2, if_neg h3, true_iff]
        omega

theorem provisioner_NewService_err (scalerConfig : ScalerConfig)
    (appConfigProvider : Option AppConfigProvider) :
    (provisioner.NewService scalerConfig appConfigProvider).2 = validateJob scalerConfig ∧
    ((provisioner.NewService scalerConfig appConfigProvider).1 = none ↔
      validateJob scalerConfig ≠ none) := by
  unfold provisioner.NewService
  cases hv : validateJob scalerConfig with
  | some e => simp
  | none =>
    cases appConfigProvider with
    | none => simp
    | some p =>
      simp only
      cases ParseConfiguration p <;> simp

/-- C15: `NewService` of each of the five loops returns an error and no service if and only
if `JobInterval ≤ 0`, `JobTimeout ≤ 0` or `JobDelay ≤ 0` (for the Cleaner also
`VMRuntime ≤ 0`), and returns a service and no error if and only if all of them are
positive. -/
theorem NewService_validates (scalerConfig : ScalerConfig)
    (appConfigProvider : Option AppConfigProvider) :
    (((provisioner.NewService scalerConfig appConfigProvider).2 ≠ none ∧
        (provisioner.NewService scalerConfig appConfigProvider).1 = none) ↔
      (scalerConfig.JobInterval ≤ 0 ∨ scalerConfig.JobTimeout ≤ 0 ∨
        scalerConfig.JobDelay ≤ 0)) ∧
    (((provisioner.NewService scalerConfig appConfigProvider).2 = none ∧
        (provisioner.NewService scalerConfig appConfigProvider).1 ≠ none) ↔
      (0 < scalerConfig.JobInterval ∧ 0 < scalerConfig.JobTimeout ∧
        0 < scalerConfig.JobDelay)) ∧
    (((reconciler.NewService scalerConfig).2 ≠ none ∧
        (reconciler.NewService scalerConfig).1 = none) ↔
      (scalerConfig.JobInterval ≤ 0 ∨ scalerConfig.JobTimeout ≤ 0 ∨
        scalerConfig.JobDelay ≤ 0)) ∧
    (((reconciler.NewService scalerConfig).2 = none ∧
        (reconciler.NewService scalerConfig).1 ≠ none) ↔
      (0 < scalerConfig.JobInterval ∧ 0 < scalerConfig.JobTimeout ∧
        0 < scalerConfig.JobDelay)) ∧
    (((simulator.NewService scalerConfig).2 ≠ none ∧
        (simulator.NewService scalerConfig).1 = none) ↔
      (scalerConfig.JobInterval ≤ 0 ∨ scalerConfig.JobTimeout ≤ 0 ∨
        scalerConfig.JobDelay ≤ 0)) ∧
    (((simulator.NewService scalerConfig).2 = none ∧
        (simulator.NewService scalerConfig).1 ≠ none) ↔
      (0 < scalerConfig.JobInterval ∧ 0 < scalerConfig.JobTimeout ∧
        0 < scalerConfig.JobDelay)) ∧
    (((starter.NewService scalerConfig).2 ≠ none ∧
        (starter.NewService scalerConfig).1 = none) ↔
      (scalerConfig.JobInterval ≤ 0 ∨ scalerConfig.JobTimeout ≤ 0 ∨
        scalerConfig.JobDelay ≤ 0)) ∧
    (((starter.NewService scalerConfig).2 = none ∧
        (starter.NewService scalerConfig).1 ≠ none) ↔
      (0 < scalerConfig.JobInterval ∧ 0 < scalerConfig.JobTimeout ∧
        0 < scalerConfig.JobDelay)) ∧
    (((cleaner.NewService scalerConfig).2 ≠ none ∧
        (cleaner.NewService scalerConfig).1 = none) ↔
      (scalerConfig.JobInterval ≤ 0 ∨ scalerConfig.JobTimeout ≤ 0 ∨
        scalerConfig.JobDelay ≤ 0 ∨ scalerConfig.VMRuntime ≤ 0)) ∧
    (((cleaner.NewService scalerConfig).2 = none ∧
        (cleaner.NewService scalerConfig).1 ≠ none) ↔
      (0 < scalerConfig.JobInterval ∧ 0 < scalerConfig.JobTimeout ∧
        0 < scalerConfig.JobDelay ∧ 0 < scalerConfig.VMRuntime)) := by
  have hv := validateJob_eq_none_iff scalerConfig
  have hp := provisioner_NewService_err scalerConfig appConfigProvider
  refine ⟨?_, ?_, ?_, ?_, ?_, ?_, ?_, ?_, ?_, ?_⟩
  · rw [hp.1, hp.2]
    constructor
    · rintro ⟨h, -⟩
      by_contra hc
      exact h (hv.2 (by omega))
    · intro h
      have : validateJob scalerConfig ≠ none := fun e => by have := hv.1 e; omega
      exact ⟨this, this⟩
  · rw [hp.1, hv]
    constructor
    · exact fun h => h.1
    · intro h
      exact ⟨h, fun hn => hp.2.1 hn (hv.2 h)⟩
  all_goals
    first
    | (unfold reconciler.NewService)
    | (unfold simulator.NewService)
    | (unfold starter.NewService)
    | (unfold cleaner.NewService)
  all_goals
    cases hval : validateJob scalerConfig with
    | some e =>
      have hne : ¬ (0 < scalerConfig.JobInterval ∧ 0 < scalerConfig.JobTimeout ∧
          0 < scalerConfig.JobDelay) := fun h => by
        have := hv.2 h
        rw [hval] at this
        cases this
      simp only [ne_eq, not_true_eq_false, reduceCtorEq, not_false_eq_true, and_self,
        true_iff, false_and, and_false, false_iff]
      omega
    | none =>
      have hpos := hv.1 hval
      first
      | (simp only [ne_eq, not_true_eq_false, reduceCtorEq, not_false_eq_true, and_self,
          true_iff, false_and, and_false, false_iff]
         omega)
      | (by_cases hr : scalerConfig.VMRuntime ≤ 0
         · simp only [if_pos hr, ne_eq, not_true_eq_false, reduceCtorEq, not_false_eq_true,
             and_self, true_iff, false_and, and_false, false_iff]
           omega
         · simp only [if_neg hr, ne_eq, not_true_eq_false, reduceCtorEq, not_false_eq_true,
             and_self, true_iff, false_and, and_false, false_iff]
           omega)

/-- The default configuration gives all five services; with `VMRuntime = 0` the Cleaner is
refused and the Starter is not. -/
theorem NewService_validates_witness :
    (provisioner.NewService testConfig none).2 = none ∧
    (provisioner.NewService testConfig none).1 ≠ none ∧
    (cleaner.NewService testConfig).2 = none ∧
    (cleaner.NewService zeroRuntimeConfig) =
      (none, some "invalid VM runtime: 0, must be positive") ∧
    (starter.NewService zeroRuntimeConfig).2 = none :=
  ⟨((NewService_validates testConfig none).2.1.2 (by decide)).1,
   ((NewService_validates testConfig none).2.1.2 (by decide)).2,
   by decide, by decide, by decide⟩

theorem ParseConfiguration_ok (p : AppConfigProvider) (config : ScalerPoolConfig)
    (h : ParseConfiguration p = .ok config) :
    ∃ poolCapStr warmPoolStr enabledStr,
      p.GetSetting "SCALER_POOL_CAPACITY" = some (some poolCapStr) ∧
      p.scanInt poolCapStr = some config.PoolCapacity ∧
      p.GetSetting "SCALER_WARMPOOL_SIZE" = some (some warmPoolStr) ∧
      p.scanInt warmPoolStr = some config.WarmPoolSize ∧
      p.GetSetting "SCALER_WARMPOOL_ENABLED" = some (some enabledStr) ∧
      p.scanBool enabledStr = some config.WarmPoolEnabled := by
  have hget : ∀ key value, GetConfiguration p key = .ok value →
      p.GetSetting key = some (some value) := by
    intro key value hk
    unfold GetConfiguration at hk
    split at hk
    · cases hk
    · cases hk
    · rename_i v hv
      cases hk
      exact hv
  unfold ParseConfiguration at h
  split at h
  · cases h
  · rename_i a ha
    split at h
    · cases h
    · rename_i x hx
      split at h
      · cases h
      · rename_i b hb
        split at h
        · cases h
        · rename_i y hy
          split at h
          · cases h
          · rename_i c hc
            split at h
            · cases h
            · rename_i z hz
              cases h
              exact ⟨a, b, c, hget _ _ ha, hx, hget _ _ hb, hy, hget _ _ hc, hz⟩

/-- C16: for a configuration whose three durations are positive, the Provisioner's
`NewService` builds the service with `poolCapacity`, `warmPoolSize` and `warmPoolEnabled` all
three as `ParseConfiguration` returned them (read and scanned from the three keys of the
dynamic-configuration source) when it succeeds, and all three from the static `ScalerConfig`
when `ParseConfiguration` fails or no provider is given; and whatever the configuration, the
error `NewService` returns is the one it returns without a provider. -/
theorem NewService_pool_settings (scalerConfig : ScalerConfig) (p : AppConfigProvider)
    (hpos : 0 < scalerConfig.JobInterval ∧ 0 < scalerConfig.JobTimeout ∧
      0 < scalerConfig.JobDelay) :
    (∀ config, ParseConfiguration p = .ok config →
      (provisioner.NewService scalerConfig (some p)).1 =
        some { scalerConfig := scalerConfig, poolCapacity := config.PoolCapacity,
               warmPoolSize := config.WarmPoolSize,
               warmPoolEnabled := config.WarmPoolEnabled } ∧
      ∃ poolCapStr warmPoolStr enabledStr,
        p.GetSetting "SCALER_POOL_CAPACITY" = some (some poolCapStr) ∧
        p.scanInt poolCapStr = some config.PoolCapacity ∧
        p.GetSetting "SCALER_WARMPOOL_SIZE" = some (some warmPoolStr) ∧
        p.scanInt warmPoolStr = some config.WarmPoolSize ∧
        p.GetSetting "SCALER_WARMPOOL_ENABLED" = some (some enabledStr) ∧
        p.scanBool enabledStr = some config.WarmPoolEnabled) ∧
    (∀ e, ParseConfiguration p = .error e →
      (provisioner.NewService scalerConfig (some p)).1 =
        some { scalerConfig := scalerConfig, poolCapacity := scalerConfig.PoolCapacity,
               warmPoolSize := scalerConfig.WarmPoolSize,
               warmPoolEnabled := scalerConfig.WarmPoolEnabled }) ∧
    (provisioner.NewService scalerConfig none).1 =
      some { scalerConfig := scalerConfig, poolCapacity := scalerConfig.PoolCapacity,
             warmPoolSize := scalerConfig.WarmPoolSize,
             warmPoolEnabled := scalerConfig.WarmPoolEnabled } ∧
    (provisioner.NewService scalerConfig (some p)).2 = none ∧
    ∀ anyConfig : ScalerConfig,
      (provisioner.NewService anyConfig (some p)).2 = (provisioner.NewService anyConfig none).2 := by
  have hval := (validateJob_eq_none_iff scalerConfig).2 hpos
  refine ⟨?_, ?_, ?_, ?_, ?_⟩
  · intro config hc
    refine ⟨?_, ParseConfiguration_ok p config hc⟩
    unfold provisioner.NewService
    simp only [hval, hc]
  · intro e he
    unfold provisioner.NewService
    simp only [hval, he]
  · unfold provisioner.NewService
    simp only [hval]
  · rw [(provisioner_NewService_err scalerConfig (some p)).1, hval]
  · intro anyConfig
    rw [(provisioner_NewService_err anyConfig (some p)).1,
      (provisioner_NewService_err anyConfig none).1]

/-- Witness for C16: with the source holding `8`, `2`, `true` the service takes these three;
with a warm pool size that does not scan it takes the three static values 4, 0, false, also
the pool capacity, which did scan. -/
theorem NewService_pool_settings_witness :
    (provisioner.NewService testConfig (some testAppConfig)).1 =
      some { scalerConfig := testConfig, poolCapacity := 8, warmPoolSize := 2,
             warmPoolEnabled := true } ∧
    (provisioner.NewService testConfig (some brokenAppConfig)).1 =
      some { scalerConfig := testConfig, poolCapacity := 4, warmPoolSize := 0,
             warmPoolEnabled := false } :=
  ⟨((NewService_pool_settings testConfig testAppConfig (by decide)).1
      { PoolCapacity := 8, WarmPoolSize := 2, WarmPoolEnabled := true } rfl).1,
   (NewService_pool_settings testConfig brokenAppConfig (by decide)).2.1
      "invalid warm pool size value: two" rfl⟩

theorem identifyProvisioned_eq (oldInstanceMap : List String) (newInstances : List VMInstance) :
    identifyProvisioned oldInstanceMap newInstances =
      (newInstances.filter (fun v => v.InstanceID ∉ oldInstanceMap)).map
        (fun v => v.InstanceID) := by
  induction newInstances with
  | nil => rfl
  | cons inst rest ih =>
    unfold identifyProvisioned
    by_cases h : inst.InstanceID ∈ oldInstanceMap
    · rw [if_pos h, ih, List.filter_cons_of_neg (by simpa using h)]
    · rw [if_neg h, ih, List.filter_cons_of_pos (by simpa using h), List.map_cons]

theorem provision_provisionedInstances (f : ProvisionerFaults) (s : provisioner.Service)
    (appgwConfig : AppGWConfig)
    (range : List (String × VMInstance) → List (String × VMInstance))
    (started finished : Int) (cloudBefore cloudAfter cloudWarm : List VMInstance)
    (vmss : ScaleSet) (gateway : List URLPathMap) (out : ProvisionOutcome)
    (hout : provision f s appgwConfig range started finished cloudBefore cloudAfter cloudWarm
      vmss gateway = some out) :
    out.provisionedInstances = [] ∨
    out.provisionedInstances =
      identifyProvisioned ((ListInstances cloudBefore {}).map (fun inst => inst.InstanceID))
        (ListInstances cloudAfter {}) := by
  unfold provision at hout
  simp only at hout
  split at hout
  · cases hout; exact Or.inl rfl
  · split at hout
    · cases hout
    · split at hout
      · cases hout; exact Or.inl rfl
      · split at hout
        · cases hout; exact Or.inl rfl
        · split at hout
          · cases hout; exact Or.inl rfl
          · split at hout
            · cases hout; exact Or.inr rfl
            · cases hout; exact Or.inr rfl

/-- C17, amended: the list of newly provisioned instances of a Provisioner tick that returns
no error is `[v.instanceId for v in newList if v.instanceId ∉ oldSet]`, where `oldSet` is the
set of instanceIds of the snapshot taken before growth, for every pair of snapshots (in a
tick that returns an error it is that list or still empty); this is the list
`[v.instanceId for v in newList if v.vmId ∉ oldSet of vmIds]` whenever a VM of the new
snapshot and a VM of the old one have the same vmId exactly when they have the same
instanceId. -/
theorem provision_identifies_by_instanceID (f : ProvisionerFaults) (s : provisioner.Service)
    (appgwConfig : AppGWConfig)
    (range : List (String × VMInstance) → List (String × VMInstance))
    (started finished : Int) (cloudBefore cloudAfter cloudWarm : List VMInstance)
    (vmss : ScaleSet) (gateway : List URLPathMap) (out : ProvisionOutcome)
    (hout : provision f s appgwConfig range started finished cloudBefore cloudAfter cloudWarm
      vmss gateway = some out) :
    (out.err = none →
      out.provisionedInstances =
        (cloudAfter.filter
          (fun v => v.InstanceID ∉ cloudBefore.map (fun u => u.InstanceID))).map
          (fun v => v.InstanceID)) ∧
    (out.provisionedInstances = [] ∨
      out.provisionedInstances =
        (cloudAfter.filter
          (fun v => v.InstanceID ∉ cloudBefore.map (fun u => u.InstanceID))).map
          (fun v => v.InstanceID)) ∧
    ((∀ v ∈ cloudAfter, ∀ u ∈ cloudBefore, (v.VMID = u.VMID ↔ v.InstanceID = u.InstanceID)) →
      (cloudAfter.filter
        (fun v => v.InstanceID ∉ cloudBefore.map (fun u => u.InstanceID))).map
        (fun v => v.InstanceID) = specProvisioned cloudBefore cloudAfter) := by
  have hB : ListInstances cloudBefore {} = cloudBefore := ListInstances_all cloudBefore
  have hA : ListInstances cloudAfter {} = cloudAfter := ListInstances_all cloudAfter
  refine ⟨?_, ?_, ?_⟩
  · intro hok
    obtain ⟨-, -, -, -, created, -, -, rfl⟩ :=
      provision_of_ok f s appgwConfig range started finished cloudBefore cloudAfter cloudWarm
        vmss gateway out hout hok
    simp only [hA, hB, identifyProvisioned_eq]
  · rcases provision_provisionedInstances f s appgwConfig range started finished cloudBefore
      cloudAfter cloudWarm vmss gateway out hout with h | h
    · exact Or.inl h
    · right
      rw [h, hA, hB, identifyProvisioned_eq]
  · intro hcons
    unfold specProvisioned
    congr 1
    apply List.filter_congr
    intro v hv
    have : v.InstanceID ∈ cloudBefore.map (fun u => u.InstanceID) ↔
        v.VMID ∈ cloudBefore.map (fun u => u.VMID) := by
      simp only [List.mem_map]
      constructor
      · rintro ⟨u, hu, e⟩
        exact ⟨u, hu, ((hcons v hv u hu).2 e.symm).symm⟩
      · rintro ⟨u, hu, e⟩
        exact ⟨u, hu, ((hcons v hv u hu).1 e.symm).symm⟩
    simp only [this]

/-- Witness for C17, amended: the tick that grows `[Z]` to `cloudGrown` finds the instances
`0`, `1`, `2`. -/
theorem provision_identifies_by_instanceID_witness :
    outcomeWarm.provisionedInstances =
      (cloudGrown.filter
        (fun v => v.InstanceID ∉
          [testInstance "Z" "9" PowerStateDeallocated].map (fun u => u.InstanceID))).map
        (fun v => v.InstanceID) :=
  (provision_identifies_by_instanceID stopFaults serviceWarm testAppGWConfig id 0 5000000000
    [testInstance "Z" "9" PowerStateDeallocated] cloudGrown cloudGrown (testScaleSet 1)
    defaultGateway outcomeWarm (by decide)).1 (by decide)

/-- Counterexample to C17: before growth the scale set holds the VM `A` as instance `0`,
after it the VM `B` as instance `0`.  The vmId `B` is not in the old snapshot, so the claim
lists instance `0` as newly provisioned; the tick, which compares instanceIds, lists
nothing (and deallocates nothing). -/
theorem provision_misses_reimaged_instance :
    specProvisioned [testInstance "A" "0" PowerStateRunning] cloudReimaged = ["0"] ∧
    (provision noProvisionerFaults serviceS1 testAppGWConfig id 0 5000000000
      [testInstance "A" "0" PowerStateRunning] cloudReimaged cloudReimaged (testScaleSet 2)
      defaultGateway).map (fun out => (out.err, out.provisionedInstances, stopCalls out.effects))
      = some (none, [], []) := by
  decide

/-- C19, the code at three failing inputs: a tick whose first listing fails, one whose
listing after growth fails and one whose listing of the warm instances fails each return an
error, and the metrics of the telemetry call that ends the tick carry `Success = true`. -/
theorem provision_listing_failure_reports_success :
    (provision { noProvisionerFaults with listBefore := true } serviceS1 testAppGWConfig id 0
      5000000000 [] cloudS1 cloudS1 (testScaleSet 0) defaultGateway).map
        (fun out => (out.err, out.effects.getLast?)) =
      some (some "failed to list instances before scaling",
            some (.telemetry { Operation := "provision", Success := true,
                               Duration := 5000000000 } "westeurope")) ∧
    (provision { noProvisionerFaults with listAfter := true } serviceS1 testAppGWConfig id 0
      5000000000 [] cloudS1 cloudS1 (testScaleSet 0) defaultGateway).map
        (fun out => (out.err, out.effects.getLast?)) =
      some (some "failed to list instances after scaling",
            some (.telemetry { Operation := "provision", Success := true,
                               Duration := 5000000000 } "westeurope")) ∧
    (provision { noProvisionerFaults with listWarm := true } serviceS1 testAppGWConfig id 0
      5000000000 [] cloudS1 cloudS1 (testScaleSet 0) defaultGateway).map
        (fun out => (out.err, out.effects.getLast?)) =
      some (some "failed to list of warm instances",
            some (.telemetry { Operation := "provision", Success := true,
                               Duration := 5000000000 } "westeurope")) := by
  decide

/-! ### Starter and Simulator: the status-set invariant -/

theorem decide_eq_beq_iff (p : Prop) [Decidable p] (a b : Option StatusSet) :
    (decide p == (a == b)) = true ↔ (p ↔ a = b) := by
  by_cases hp : p <;> by_cases hab : a = b <;> simp [hp, hab]

theorem invariant1_iff (st : Store) :
    invariant1 st = true ↔
      ∀ key r, (st.get key).bind unmarshal = some r →
        ∀ s, (key ∈ st.members s ↔ statusSetOf r.Status = some s) := by
  unfold invariant1
  rw [List.all_eq_true]
  constructor
  · intro h key r hr s
    have hmem : key ∈ st.kv.map Prod.fst := by
      by_contra hn
      rw [(get_eq_none_iff st key).2 hn] at hr
      cases hr
    have := h key hmem
    rw [hr] at this
    simp only [statusSets, List.all_cons, List.all_nil, Bool.and_true, Bool.and_eq_true,
      decide_eq_beq_iff] at this
    cases s
    · exact this.1
    · exact this.2.1
    · exact this.2.2
  · intro h key _
    cases hr : (st.get key).bind unmarshal with
    | none => rfl
    | some r =>
      simp only [statusSets, List.all_cons, List.all_nil, Bool.and_true, Bool.and_eq_true,
        decide_eq_beq_iff]
      exact ⟨h key r hr .available, h key r hr .reserved, h key r hr .unavailable⟩

theorem disjointSets_iff (st : Store) :
    disjointSets st = true ↔
      ∀ key s t, key ∈ st.members s → key ∈ st.members t → s = t := by
  unfold disjointSets
  simp only [Bool.and_eq_true, List.all_eq_true, decide_eq_true_eq]
  constructor
  · rintro ⟨h1, h2⟩ key s t hs ht
    cases s <;> cases t <;> first
      | rfl
      | (exfalso
         simp only [Store.members] at hs ht
         first
         | exact (h1 key hs).1 ht
         | exact (h1 key hs).2 ht
         | exact (h1 key ht).1 hs
         | exact (h1 key ht).2 hs
         | exact h2 key hs ht
         | exact h2 key ht hs)
  · intro h
    refine ⟨fun key hk => ⟨fun hr => ?_, fun hu => ?_⟩, fun key hk hu => ?_⟩
    · have := h key .available .reserved hk hr
      cases this
    · have := h key .available .unavailable hk hu
      cases this
    · have := h key .reserved .unavailable hk hu
      cases this

theorem transitionStore_of_none (status : String) (target : StatusSet) (clock : Clock)
    (st : Store) (key : String) (h : (st.get key).bind unmarshal = none) :
    transitionStore status target clock st key = st := by
  unfold transitionStore
  rw [h]

/-- The loop of the Starter and of the Simulator over popped keys, with no store call
failing: when the keys still to visit are in no status set and every other record obeys
invariant 1, then after the loop the sets are pairwise disjoint and every record obeys
invariant 1. -/
theorem forEachKey_transition_invariant (body : Store → String → Store × List Effect)
    (status : String) (target : StatusSet) (clock : Clock)
    (hbody : ∀ st k, (body st k).1 = transitionStore status target clock st k)
    (htarget : statusSetOf status = some target)
    (keys : List String) (st : Store) (hnodup : keys.Nodup)
    (hdis : ∀ key s t, key ∈ st.members s → key ∈ st.members t → s = t)
    (hpend : ∀ key ∈ keys, ∀ s, key ∉ st.members s)
    (hgood : ∀ key, key ∉ keys → ∀ r, (st.get key).bind unmarshal = some r →
      ∀ s, (key ∈ st.members s ↔ statusSetOf r.Status = some s)) :
    (∀ key s t, key ∈ (forEachKey body keys st).1.members s →
      key ∈ (forEachKey body keys st).1.members t → s = t) ∧
    (∀ key r, ((forEachKey body keys st).1.get key).bind unmarshal = some r →
      ∀ s, (key ∈ (forEachKey body keys st).1.members s ↔ statusSetOf r.Status = some s)) := by
  induction keys generalizing st with
  | nil => exact ⟨hdis, fun key r hr s => hgood key (List.not_mem_nil _) r hr s⟩
  | cons k ks ih =>
    have hstep : (forEachKey body (k :: ks) st).1 = (forEachKey body ks (body st k).1).1 := by
      simp only [forEachKey]
    rw [hstep, hbody]
    have hk : ∀ s, k ∉ st.members s := hpend k (List.mem_cons_self _ _)
    have hnk : k ∉ ks := (List.nodup_cons.1 hnodup).1
    apply ih _ (List.nodup_cons.1 hnodup).2
    · intro key s t hs ht
      rw [transitionStore_mem] at hs ht
      rcases hs with hs | ⟨hs, hkey, -⟩ <;> rcases ht with ht | ⟨ht, hkey', -⟩
      · exact hdis key s t hs ht
      · subst hkey'
        exact absurd hs (hk s)
      · subst hkey
        exact absurd ht (hk t)
      · rw [hs, ht]
    · intro key hkey s hmem
      rw [transitionStore_mem] at hmem
      rcases hmem with hmem | ⟨-, e, -⟩
      · exact hpend key (List.mem_cons_of_mem _ hkey) s hmem
      · subst e
        exact hnk hkey
    · intro key hkey r hr s
      by_cases e : key = k
      · subst e
        cases hp : (st.get key).bind unmarshal with
        | none =>
          rw [transitionStore_of_none _ _ _ _ _ hp, hp] at hr
          cases hr
        | some r0 =>
          rw [transitionStore_get_self _ _ _ _ _ r0 hp] at hr
          have hr' : r = { r0 with Status := status,
                                   UpdatedAt := clock.format (clock.now key) } := by
            simpa [marshal, unmarshal] using hr.symm
          rw [transitionStore_mem, hr', htarget]
          constructor
          · rintro (hm | ⟨hs, -, -⟩)
            · exact absurd hm (hk s)
            · rw [hs]
          · intro hs
            right
            refine ⟨(Option.some.inj hs).symm, rfl, ?_⟩
            rw [hp]
            simp
      · have hnot : key ∉ k :: ks := fun h => by
          rcases List.mem_cons.1 h with h | h
          · exact e h
          · exact hkey h
        rw [transitionStore_get_other _ _ _ _ _ _ (fun h => e h.symm)] at hr
        rw [transitionStore_mem, ← hgood key hnot r hr s]
        constructor
        · rintro (hm | ⟨-, h, -⟩)
          · exact hm
          · exact absurd h e
        · exact Or.inl

/-- A pop, followed by the loop over the popped keys with no store call failing, keeps the
status sets pairwise disjoint and invariant 1. -/
theorem SPop_transition_invariant (body : Store → String → Store × List Effect)
    (status : String) (source target : StatusSet) (clock : Clock)
    (hbody : ∀ st k, (body st k).1 = transitionStore status target clock st k)
    (htarget : statusSetOf status = some target) (n : Nat) (st : Store)
    (hdis : disjointSets st = true) (hinv : invariant1 st = true) :
    disjointSets (forEachKey body (st.SPop source n).1 (st.SPop source n).2).1 = true ∧
    invariant1 (forEachKey body (st.SPop source n).1 (st.SPop source n).2).1 = true := by
  rw [disjointSets_iff] at hdis ⊢
  rw [invariant1_iff] at hinv ⊢
  have hpopped : ∀ key ∈ (st.SPop source n).1, key ∈ st.members source := by
    intro key hkey
    have : key ∈ st.SMembers source := List.mem_of_mem_take hkey
    exact List.mem_dedup.1 this
  apply forEachKey_transition_invariant body status target clock hbody htarget
  · exact List.Nodup.sublist (List.take_sublist _ _) (List.nodup_dedup _)
  · intro key s t hs ht
    exact hdis key s t ((mem_SPop_members _ _ _ _ _).1 hs).1 ((mem_SPop_members _ _ _ _ _).1 ht).1
  · intro key hkey s hmem
    obtain ⟨hm, hnot⟩ := (mem_SPop_members _ _ _ _ _).1 hmem
    have hs : source = s := hdis key source s (hpopped key hkey) hm
    exact hnot hs.symm hkey
  · intro key hkey r hr s
    rw [SPop_get] at hr
    rw [mem_SPop_members, ← hinv key r hr s]
    constructor
    · exact fun h => h.1
    · exact fun h => ⟨h, fun _ => hkey⟩

/-- C18, amended: when no load (`GET`) and no batch write of the tick fails, a Starter tick
and a Simulator tick (from a step index within the schedule) keep the status-set invariant:
if before the tick the three status sets are pairwise disjoint and the key of every record
is a member of exactly the set its status field names, the same holds after the tick. -/
theorem transitions_keep_invariant (fs : StarterFaults) (fm : SimulatorFaults) (clock : Clock)
    (cfg : ScalerConfig) (currentStep : Nat)
    (hs : (∀ key, fs.get key = false) ∧ ∀ key, fs.exec key = none)
    (hm : (∀ key, fm.get key = false) ∧ ∀ key, fm.exec key = none)
    (hstep : currentStep < 6) :
    (∀ st, disjointSets st = true → invariant1 st = true →
      disjointSets (start fs clock cfg st).1 = true ∧
      invariant1 (start fs clock cfg st).1 = true) ∧
    (∀ st, disjointSets st = true → invariant1 st = true →
      ∃ out, simulate fm clock currentStep st = some out ∧
        disjointSets out.store = true ∧ invariant1 out.store = true) := by
  refine ⟨?_, ?_⟩
  · intro st hdis hinv
    by_cases hpop : fs.spop = true
    · have : (start fs clock cfg st).1 = st := by
        unfold start
        rw [if_pos hpop]
      rw [this]
      exact ⟨hdis, hinv⟩
    · have hpop' : fs.spop = false := by simpa using hpop
      rw [(start_store fs clock cfg st hpop').1]
      exact SPop_transition_invariant (startOne fs clock cfg) VMStatusUnavailable .reserved
        .unavailable clock
        (fun st' k => startOne_store fs clock cfg st' k ⟨hpop', hs.1, hs.2⟩) rfl 100 st hdis
        hinv
  · intro st hdis hinv
    have hget : schedule[currentStep]? = some (schedule[currentStep]) :=
      List.getElem?_eq_getElem (show currentStep < schedule.length from hstep)
    by_cases hpop : fm.spop = true
    · refine ⟨{ currentStep := currentStep, store := st, effects := [],
                err := some "failed to pop available instances" }, ?_, hdis, hinv⟩
      unfold simulate
      rw [hget]
      simp only [hpop, if_true]
    · have hpop' : fm.spop = false := by simpa using hpop
      refine ⟨_, simulate_store fm clock currentStep st _ hget hpop', ?_⟩
      exact SPop_transition_invariant (simulateOne fm clock) VMStatusReserved .available
        .reserved clock
        (fun st' k => simulateOne_store fm clock st' k ⟨hpop', hm.1, hm.2⟩) rfl _ st hdis hinv

/-- Witness for C18, amended: the Starter tick on the store with the reserved keys `E`, `G`,
`F` and the Simulator tick of scenario S6 keep the invariant. -/
theorem transitions_keep_invariant_witness :
    (disjointSets (start noStarterFaults testClock testConfig storeReserved).1 = true ∧
      invariant1 (start noStarterFaults testClock testConfig storeReserved).1 = true) ∧
    ∃ out, simulate noSimulatorFaults testClock 2 storeS6 = some out ∧
      disjointSets out.store = true ∧ invariant1 out.store = true :=
  ⟨(transitions_keep_invariant noStarterFaults noSimulatorFaults testClock testConfig 2
      ⟨fun _ => rfl, fun _ => rfl⟩ ⟨fun _ => rfl, fun _ => rfl⟩ (by decide)).1 storeReserved
      (by decide) (by decide),
   (transitions_keep_invariant noStarterFaults noSimulatorFaults testClock testConfig 2
      ⟨fun _ => rfl, fun _ => rfl⟩ ⟨fun _ => rfl, fun _ => rfl⟩ (by decide)).2 storeS6
      (by decide) (by decide)⟩

/-- Counterexample to C18: the store with the reserved keys `E`, `G`, `F` has pairwise
disjoint sets and obeys invariant 1.  In a Starter tick whose `GET` of `E` fails, `E` is
popped from the reserved set and skipped: afterwards its record still says `Reserved` and its
key is in no status set. -/
theorem start_get_failure_breaks_invariant :
    disjointSets storeReserved = true ∧ invariant1 storeReserved = true ∧
    (start getFaults testClock testConfig storeReserved).2.2 = none ∧
    (start getFaults testClock testConfig storeReserved).1.get "vmss:instance:E" =
      some (marshal (testRecord "E" "5" VMStatusReserved "950" false)) ∧
    (∀ s ∈ statusSets,
      "vmss:instance:E" ∉ (start getFaults testClock testConfig storeReserved).1.members s) ∧
    invariant1 (start getFaults testClock testConfig storeReserved).1 = false := by
  decide

/-! ### The timestamps of written records -/

theorem apply_get_some (st : Store) (c : Cmd) (k : String) (v : Blob)
    (h : (st.apply c).get k = some v) : st.get k = some v ∨ c = Cmd.set k v := by
  cases c with
  | set key value =>
    simp only [Store.apply, get_set] at h
    by_cases e : k = key
    · rw [if_pos e] at h
      right
      rw [e, Option.some.inj h]
    · rw [if_neg e] at h
      exact Or.inl h
  | del key =>
    simp only [Store.apply, get_del] at h
    by_cases e : k = key
    · rw [if_pos e] at h; cases h
    · rw [if_neg e] at h
      exact Or.inl h
  | sadd s m =>
    simp only [Store.apply, get_sadd] at h
    exact Or.inl h
  | srem s m =>
    simp only [Store.apply, get_srem] at h
    exact Or.inl h

/-- A value found after a batch, whether it failed or not, was there before or is the value
of a `SET` of the batch. -/
theorem Exec_get_some (st : Store) (fault : ExecFault) (cmds : List Cmd) (k : String)
    (v : Blob) (h : (st.Exec fault cmds).1.get k = some v) :
    st.get k = some v ∨ Cmd.set k v ∈ cmds := by
  cases fault with
  | none =>
    simp only [Store.Exec] at h
    induction cmds generalizing st with
    | nil => exact Or.inl h
    | cons c cs ih =>
      rw [List.foldl_cons] at h
      rcases ih _ h with h' | h'
      · rcases apply_get_some st c k v h' with h'' | h''
        · exact Or.inl h''
        · exact Or.inr (h'' ▸ List.mem_cons_self _ _)
      · exact Or.inr (List.mem_cons_of_mem _ h')
  | some mask =>
    simp only [Store.Exec] at h
    induction cmds generalizing st mask with
    | nil => exact Or.inl h
    | cons c cs ih =>
      cases mask with
      | nil => exact Or.inl h
      | cons b bs =>
        simp only [List.zip_cons_cons, List.foldl_cons] at h
        rcases ih _ _ h with h' | h'
        · cases b
          · exact Or.inl h'
          · rcases apply_get_some st c k v h' with h'' | h''
            · exact Or.inl h''
            · exact Or.inr (h'' ▸ List.mem_cons_self _ _)
        · exact Or.inr (List.mem_cons_of_mem _ h')

theorem reconcile_store_shape (f : ReconcilerFaults) (clock : Clock) (cfg : ScalerConfig)
    (cloud : List VMInstance) (st : Store) :
    ∃ st1, (st1 = st ∨
        st1 = (st.Exec f.execOrphans
          (queueOrphans (cloud.map (fun inst => inst.VMID)) (st.Keys "vmss:instance:")).1).1) ∧
      ((reconcile f clock cfg cloud st).1 = st1 ∨
        ∃ keys, (reconcile f clock cfg cloud st).1 =
          (st1.Exec f.execNew (queueNewRecords clock cfg keys
            (ListInstances cloud
              { VMPowerStates := [PowerStateStopped, PowerStateDeallocated] })).1).1) := by
  unfold reconcile
  simp only [ListInstances_all]
  split
  · exact ⟨st, Or.inl rfl, Or.inl rfl⟩
  · split
    · exact ⟨st, Or.inl rfl, Or.inl rfl⟩
    · split
      · rename_i st1 e rest heq
        refine ⟨st1, ?_, Or.inl rfl⟩
        split at heq
        · split at heq
          · exact Or.inr (Prod.mk.inj heq).1.symm
          · split at heq
            · exact Or.inr (Prod.mk.inj heq).1.symm
            · exact Or.inr (Prod.mk.inj heq).1.symm
        · exact Or.inl (Prod.mk.inj heq).1.symm
      · rename_i st1 redisRecords heq
        refine ⟨st1, ?_, ?_⟩
        · split at heq
          · split at heq
            · exact Or.inr (Prod.mk.inj heq).1.symm
            · split at heq
              · exact Or.inr (Prod.mk.inj heq).1.symm
              · exact Or.inr (Prod.mk.inj heq).1.symm
          · exact Or.inl (Prod.mk.inj heq).1.symm
        · split
          · exact Or.inl rfl
          · split
            · split
              · exact Or.inr ⟨redisRecords, rfl⟩
              · exact Or.inr ⟨redisRecords, rfl⟩
            · exact Or.inl rfl

/-- A value found after a Reconciler tick, whatever failed, was there before or is the new
record of a cloud VM under its key. -/
theorem reconcile_get_some (f : ReconcilerFaults) (clock : Clock) (cfg : ScalerConfig)
    (cloud : List VMInstance) (st : Store) (key : String) (v : Blob)
    (h : (reconcile f clock cfg cloud st).1.get key = some v) :
    st.get key = some v ∨
    ∃ inst ∈ cloud, key = instanceKey inst.VMID ∧ v = marshal (newRecord clock cfg inst) := by
  obtain ⟨st1, hst1, hres⟩ := reconcile_store_shape f clock cfg cloud st
  have h1 : st1.get key = some v → st.get key = some v := by
    intro hg
    rcases hst1 with e | e
    · rw [e] at hg; exact hg
    · rw [e] at hg
      rcases Exec_get_some _ _ _ _ _ hg with h' | h'
      · exact h'
      · obtain ⟨k, -, -, hc | ⟨s, hc⟩⟩ := (mem_queueOrphans_cmds _ _ _).1 h'
        · cases hc
        · cases hc
  rcases hres with e | ⟨keys, e⟩
  · rw [e] at h
    exact Or.inl (h1 h)
  · rw [e] at h
    rcases Exec_get_some _ _ _ _ _ h with h' | h'
    · exact Or.inl (h1 h')
    · obtain ⟨inst, hinst, -, hc | hc⟩ := (mem_queueNewRecords_cmds _ _ _ _ _).1 h'
      · injection hc with hk hv
        exact Or.inr ⟨inst, ((mem_ListInstances_inactive cloud inst).1 hinst).1, hk, hv⟩
      · cases hc

/-- The loop of the Starter or the Simulator, whatever fails: a value found afterwards was
there before the loop or is the stored record with the new status and `updatedAt`. -/
theorem forEachKey_rewrite_get_some (body : Store → String → Store × List Effect)
    (exec : String → ExecFault) (status : String) (target : StatusSet) (clock : Clock)
    (hbody : ∀ st k, (body st k).1 = st ∨
      ∃ parsed, (st.get k).bind unmarshal = some parsed ∧
        (body st k).1 =
          (st.Exec (exec k)
            [Cmd.set k (marshal { parsed with Status := status,
                                              UpdatedAt := clock.format (clock.now k) }),
             Cmd.sadd target k]).1)
    (keys : List String) (st0 st : Store) (hst : ∀ k, st.get k = st0.get k) (key : String)
    (v : Blob) (h : (forEachKey body keys st).1.get key = some v) :
    st0.get key = some v ∨
    ∃ r, (st0.get key).bind unmarshal = some r ∧
      v = marshal { r with Status := status, UpdatedAt := clock.format (clock.now key) } := by
  have hP := forEachKey_preserves body
    (fun st' => ∀ key v, st'.get key = some v → st0.get key = some v ∨
      ∃ r, (st0.get key).bind unmarshal = some r ∧
        v = marshal { r with Status := status, UpdatedAt := clock.format (clock.now key) })
    keys ?_ st (fun key v hg => Or.inl (by rw [← hst]; exact hg))
  · exact hP key v h
  · intro st' k _ hP key v hg
    rcases hbody st' k with e | ⟨parsed, hparsed, e⟩
    · rw [e] at hg
      exact hP key v hg
    · rw [e] at hg
      rcases Exec_get_some _ _ _ _ _ hg with h' | h'
      · exact hP key v h'
      · simp only [List.mem_cons, Cmd.set.injEq, List.mem_singleton, reduceCtorEq, or_false,
          List.not_mem_nil] at h'
        obtain ⟨hk, hv⟩ := h'
        subst hk
        right
        cases hd : st'.get key with
        | none => rw [hd] at hparsed; cases hparsed
        | some d =>
          rw [hd] at hparsed
          rcases hP key d hd with h0 | ⟨r, hr, hdr⟩
          · exact ⟨parsed, by rw [h0]; exact hparsed, hv⟩
          · refine ⟨r, hr, ?_⟩
            rw [hdr] at hparsed
            have hp : parsed = { r with Status := status,
                                        UpdatedAt := clock.format (clock.now key) } := by
              simpa [marshal, unmarshal] using hparsed.symm
            rw [hv, hp]

theorem startOne_store_cases (f : StarterFaults) (clock : Clock) (cfg : ScalerConfig)
    (st : Store) (k : String) :
    (startOne f clock cfg st k).1 = st ∨
    ∃ parsed, (st.get k).bind unmarshal = some parsed ∧
      (startOne f clock cfg st k).1 =
        (st.Exec (f.exec k)
          [Cmd.set k (marshal { parsed with Status := VMStatusUnavailable,
                                            UpdatedAt := clock.format (clock.now k) }),
           Cmd.sadd .unavailable k]).1 := by
  unfold startOne
  split
  · exact Or.inl rfl
  · split
    · exact Or.inl rfl
    · rename_i d hd
      split
      · exact Or.inl rfl
      · rename_i parsed hparsed
        right
        refine ⟨parsed, by rw [hd]; exact hparsed, ?_⟩
        simp only
        split
        · rfl
        · split <;> rfl

theorem simulateOne_store_cases (f : SimulatorFaults) (clock : Clock) (st : Store)
    (k : String) :
    (simulateOne f clock st k).1 = st ∨
    ∃ parsed, (st.get k).bind unmarshal = some parsed ∧
      (simulateOne f clock st k).1 =
        (st.Exec (f.exec k)
          [Cmd.set k (marshal { parsed with Status := VMStatusReserved,
                                            UpdatedAt := clock.format (clock.now k) }),
           Cmd.sadd .reserved k]).1 := by
  unfold simulateOne
  split
  · exact Or.inl rfl
  · split
    · exact Or.inl rfl
    · rename_i d hd
      split
      · exact Or.inl rfl
      · rename_i parsed hparsed
        right
        refine ⟨parsed, by rw [hd]; exact hparsed, ?_⟩
        simp only
        split <;> rfl

theorem start_get_some (f : StarterFaults) (clock : Clock) (cfg : ScalerConfig) (st : Store)
    (key : String) (v : Blob) (h : (start f clock cfg st).1.get key = some v) :
    st.get key = some v ∨
    ∃ r, (st.get key).bind unmarshal = some r ∧
      v = marshal { r with Status := VMStatusUnavailable,
                           UpdatedAt := clock.format (clock.now key) } := by
  by_cases hpop : f.spop = true
  · have : (start f clock cfg st).1 = st := by
      unfold start
      rw [if_pos hpop]
    rw [this] at h
    exact Or.inl h
  · rw [(start_store f clock cfg st (by simpa using hpop)).1] at h
    exact forEachKey_rewrite_get_some (startOne f clock cfg) f.exec VMStatusUnavailable
      .unavailable clock (startOne_store_cases f clock cfg) _ st _
      (fun k => SPop_get st .reserved 100 k) key v h

theorem simulate_get_some (f : SimulatorFaults) (clock : Clock) (currentStep : Nat)
    (st : Store) (out : SimulateOutcome) (hout : simulate f clock currentStep st = some out)
    (key : String) (v : Blob) (h : out.store.get key = some v) :
    st.get key = some v ∨
    ∃ r, (st.get key).bind unmarshal = some r ∧
      v = marshal { r with Status := VMStatusReserved,
                           UpdatedAt := clock.format (clock.now key) } := by
  cases hstep : schedule[currentStep]? with
  | none =>
    unfold simulate at hout
    rw [hstep] at hout
    cases hout
  | some n =>
    by_cases hpop : f.spop = true
    · unfold simulate at hout
      rw [hstep] at hout
      simp only [hpop, if_true, Option.some.injEq] at hout
      rw [← hout] at h
      exact Or.inl h
    · rw [simulate_store f clock currentStep st n hstep (by simpa using hpop)] at hout
      simp only [Option.some.injEq] at hout
      rw [← hout] at h
      exact forEachKey_rewrite_get_some (simulateOne f clock) f.exec VMStatusReserved
        .reserved clock (simulateOne_store_cases f clock) _ st _
        (fun k => SPop_get st .available n k) key v h

/-- C20, amended: whatever fails, every value a tick leaves in the state store that was not
there before is, after a Reconciler tick, a record whose `createdAt` is the RFC 3339 UTC text
of the clock reading and whose `updatedAt` is empty; after a Starter tick and after a
Simulator tick, the stored record with `updatedAt` set to the RFC 3339 UTC text of the clock
reading and `createdAt` as it was stored. -/
theorem written_records_timestamps (fr : ReconcilerFaults) (fs : StarterFaults)
    (fm : SimulatorFaults) (clock : Clock) (cfg : ScalerConfig) (cloud : List VMInstance)
    (currentStep : Nat) (st : Store) (key : String) (v : Blob) (hnew : st.get key ≠ some v) :
    ((reconcile fr clock cfg cloud st).1.get key = some v →
      ∃ r, v = marshal r ∧ r.CreatedAt = clock.format (clock.now key) ∧ r.UpdatedAt = "") ∧
    ((start fs clock cfg st).1.get key = some v →
      ∃ stored r, (st.get key).bind unmarshal = some stored ∧ v = marshal r ∧
        r.UpdatedAt = clock.format (clock.now key) ∧ r.CreatedAt = stored.CreatedAt) ∧
    (∀ out, simulate fm clock currentStep st = some out → out.store.get key = some v →
      ∃ stored r, (st.get key).bind unmarshal = some stored ∧ v = marshal r ∧
        r.UpdatedAt = clock.format (clock.now key) ∧ r.CreatedAt = stored.CreatedAt) := by
  refine ⟨?_, ?_, ?_⟩
  · intro h
    rcases reconcile_get_some fr clock cfg cloud st key v h with h' | ⟨inst, -, hk, hv⟩
    · exact absurd h' hnew
    · exact ⟨newRecord clock cfg inst, hv, by rw [hk]; rfl, rfl⟩
  · intro h
    rcases start_get_some fs clock cfg st key v h with h' | ⟨r, hr, hv⟩
    · exact absurd h' hnew
    · exact ⟨r, _, hr, hv, rfl, rfl⟩
  · intro out hout h
    rcases simulate_get_some fm clock currentStep st out hout key v h with h' | ⟨r, hr, hv⟩
    · exact absurd h' hnew
    · exact ⟨r, _, hr, hv, rfl, rfl⟩

/-- Witness for C20, amended (scenario S2): the record the Reconciler creates for the stopped
VM `A` has `createdAt` = the text of the clock reading and an empty `updatedAt`. -/
theorem written_records_timestamps_witness :
    ∃ r, marshal (newRecord testClock testConfig (testInstance "A" "0" PowerStateStopped)) =
        marshal r ∧
      r.CreatedAt = testClock.format (testClock.now "vmss:instance:A") ∧ r.UpdatedAt = "" :=
  (written_records_timestamps noReconcilerFaults noStarterFaults noSimulatorFaults testClock
    testConfig cloudS2 0 emptyStore "vmss:instance:A"
    (marshal (newRecord testClock testConfig (testInstance "A" "0" PowerStateStopped)))
    (by decide)).1 (by decide)

/-- Counterexample to C20 (scenario S2): the record the Reconciler writes for the stopped VM
`A` has `createdAt` = `1000` (the text of the clock reading) and `updatedAt` = the empty
string, which is no timestamp. -/
theorem reconcile_leaves_updatedAt_empty :
    emptyStore.get "vmss:instance:A" = none ∧
    (((reconcile noReconcilerFaults testClock testConfig cloudS2 emptyStore).1.get
      "vmss:instance:A").bind unmarshal).map (fun r => (r.CreatedAt, r.UpdatedAt)) =
      some ("1000", "") ∧
    testClock.parse "" = none := by
  decide

/-! ### Gateway route diff: when it publishes -/

/-- The counters and the publish decision of a run that found its path map. -/
theorem UpdatePathBasedRules_counters (f : AppGWFaults) (cfg : AppGWConfig)
    (range : List (String × VMInstance) → List (String × VMInstance))
    (gateway : List URLPathMap) (instances : List VMInstance) (pathMap : URLPathMap)
    (hget : f.get = false)
    (hfind : gateway.find? (fun pm => pm.Name = cfg.PathMapName) = some pathMap) :
    (UpdatePathBasedRules f cfg range gateway instances).added =
      (filterRules (buildActive instances) pathMap.PathRules).2.1.length ∧
    (UpdatePathBasedRules f cfg range gateway instances).removed =
      (filterRules (buildActive instances) pathMap.PathRules).2.2.2 ∧
    ((UpdatePathBasedRules f cfg range gateway instances).published = true ↔
      0 < (filterRules (buildActive instances) pathMap.PathRules).2.1.length ∨
      0 < (filterRules (buildActive instances) pathMap.PathRules).2.2.2) := by
  have hflag := (filterRules_spec pathMap.PathRules (buildActive instances)).2.2.2.2.2
  unfold UpdatePathBasedRules
  simp only [hget, Bool.false_eq_true, if_false, hfind]
  generalize filterRules (buildActive instances) pathMap.PathRules = F at hflag ⊢
  obtain ⟨kept, remaining, flag, removed⟩ := F
  simp only at hflag ⊢
  rw [hflag]
  cases remaining with
  | nil =>
    simp only [List.length_nil, lt_self_iff_false, if_false, false_or]
    by_cases hr : 0 < removed
    · simp only [hr, decide_True, if_true]
      split <;> simp
    · simp only [hr, decide_False, Bool.false_eq_true, if_false]
      simp
  | cons p ps =>
    simp only [List.length_cons, Nat.zero_lt_succ, if_true, true_or, iff_true]
    split <;> simp

/-- What the filter keeps is a sublist of the rules that have a path, and it keeps or counts
as removed each of them. -/
theorem filterRules_kept (rules : List PathRule) (a : List (String × VMInstance)) :
    (filterRules a rules).1.Sublist (rules.filter (fun r => decide (r.Paths ≠ []))) ∧
    (filterRules a rules).1.length + (filterRules a rules).2.2.2 =
      (rules.filter (fun r => decide (r.Paths ≠ []))).length := by
  induction rules generalizing a with
  | nil => simp [filterRules]
  | cons rule rest ih =>
    rcases ruleVMID_cases a rule with h | h | ⟨k, h, hd, hk⟩ | ⟨k, h, hd, hk⟩
    · have hp : rule.Paths = [] := by
        cases hP : rule.Paths with
        | nil => rfl
        | cons p ps => simp [ruleVMID, hP] at h
      rw [filterRules_cons_nopath a rule rest h, List.filter_cons_of_neg (by simp [hp])]
      exact ih a
    all_goals
      have hp : rule.Paths ≠ [] := by
        intro hP
        simp [ruleVMID, hP] at h
      rw [List.filter_cons_of_pos (by simpa using hp)]
    · rw [filterRules_cons_default a rule rest h]
      obtain ⟨h1, h2⟩ := ih a
      exact ⟨h1.cons₂ _, by simp only [List.length_cons]; omega⟩
    · rw [filterRules_cons_keep a rule rest k h hd hk]
      obtain ⟨h1, h2⟩ := ih (mapDelete a k)
      exact ⟨h1.cons₂ _, by simp only [List.length_cons]; omega⟩
    · rw [filterRules_cons_remove a rule rest k h hd hk]
      obtain ⟨h1, h2⟩ := ih a
      exact ⟨h1.cons _, by simp only [List.length_cons]; omega⟩

/-- A removal leaves a trace in the keys of the existing rules: a key that is not active, or
a key that occurs twice. -/
theorem filterRules_removed_pos (rules : List PathRule) (a : List (String × VMInstance))
    (h : 0 < (filterRules a rules).2.2.2) :
    ∃ k, k ∈ vmRuleKeys rules ∧ (k ∉ a.map Prod.fst ∨ 2 ≤ (vmRuleKeys rules).count k) := by
  induction rules generalizing a with
  | nil => simp [filterRules] at h
  | cons rule rest ih =>
    rcases ruleVMID_cases a rule with hv | hv | ⟨k, hv, hd, hk⟩ | ⟨k, hv, hd, hk⟩
    · rw [filterRules_cons_nopath a rule rest hv] at h
      rw [vmRuleKeys_cons_skip rule rest (Or.inl hv)]
      exact ih a h
    · rw [filterRules_cons_default a rule rest hv] at h
      rw [vmRuleKeys_cons_skip rule rest (Or.inr hv)]
      exact ih a h
    · rw [filterRules_cons_keep a rule rest k hv hd hk] at h
      rw [vmRuleKeys_cons_key rule rest k hv hd]
      obtain ⟨k', hk', hor⟩ := ih (mapDelete a k) h
      refine ⟨k', List.mem_cons_of_mem _ hk', ?_⟩
      rcases hor with hor | hor
      · rw [keys_mapDelete, List.mem_filter] at hor
        by_cases e : k' = k
        · subst e
          right
          rw [List.count_cons_self]
          have := List.count_pos_iff.2 hk'
          omega
        · left
          intro hm
          exact hor ⟨hm, by simpa using e⟩
      · right
        have := List.count_le_count_cons (a := k') (b := k) (l := vmRuleKeys rest)
        omega
    · rw [vmRuleKeys_cons_key rule rest k hv hd]
      exact ⟨k, List.mem_cons_self _ _, Or.inl hk⟩

theorem vmRuleKeys_filter_paths (rules : List PathRule) :
    vmRuleKeys (rules.filter (fun r => decide (r.Paths ≠ []))) = vmRuleKeys rules := by
  induction rules with
  | nil => rfl
  | cons rule rest ih =>
    by_cases hp : rule.Paths = []
    · rw [List.filter_cons_of_neg (by simp [hp]),
        vmRuleKeys_cons_skip rule rest (Or.inl (by simp [ruleVMID, hp])), ih]
    · rw [List.filter_cons_of_pos (by simpa using hp)]
      simp only [vmRuleKeys, List.filterMap_cons] at ih ⊢
      rw [ih]

theorem vmRuleKeys_newRules_filter (cfg : AppGWConfig) (l : List (String × VMInstance)) :
    vmRuleKeys (l.map (fun p => newRule cfg p.1 p.2)) =
      (l.map Prod.fst).filter (fun k => decide (k ≠ "default")) := by
  induction l with
  | nil => rfl
  | cons p ps ih =>
    rw [List.map_cons, List.map_cons]
    by_cases hp : p.1 = "default"
    · rw [vmRuleKeys_cons_skip _ _ (Or.inr (by rw [ruleVMID_newRule, hp])), ih,
        List.filter_cons_of_neg (by simp [hp])]
    · rw [vmRuleKeys_cons_key _ _ p.1 (ruleVMID_newRule cfg p.1 p.2) hp, ih,
        List.filter_cons_of_pos (by simpa using hp)]

/-- The keys of the computed rule list are active and pairwise distinct. -/
theorem vmRuleKeys_computed (cfg : AppGWConfig)
    (range : List (String × VMInstance) → List (String × VMInstance))
    (a : List (String × VMInstance)) (rules : List PathRule)
    (hrange : ∀ m, (range m).Perm m) (ha : (a.map Prod.fst).Nodup) :
    (vmRuleKeys ((filterRules a rules).1 ++
      (range (filterRules a rules).2.1).map (fun p => newRule cfg p.1 p.2))).Nodup ∧
    ∀ k ∈ vmRuleKeys ((filterRules a rules).1 ++
      (range (filterRules a rules).2.1).map (fun p => newRule cfg p.1 p.2)),
      k ∈ a.map Prod.fst := by
  obtain ⟨h1, -, h3, h4, h5, -⟩ := filterRules_spec rules a
  have hperm : ((range (filterRules a rules).2.1).map Prod.fst).Perm
      ((filterRules a rules).2.1.map Prod.fst) := (hrange _).map _
  rw [vmRuleKeys_append, vmRuleKeys_newRules_filter]
  constructor
  · refine List.Nodup.append h3 ?_ ?_
    · exact List.Nodup.filter _ (hperm.nodup_iff.2 (List.Nodup.sublist h5 ha))
    · intro x hx hx'
      have hx'' := hperm.subset (List.mem_of_mem_filter hx')
      exact ((h4 x).1 hx'').2 hx
  · intro k hk
    rcases List.mem_append.1 hk with hk | hk
    · obtain ⟨hd, r, hr, hrk⟩ := (mem_vmRuleKeys _ k).1 hk
      obtain ⟨-, k', hk', hor⟩ := h1 r hr
      rw [hrk] at hk'
      cases hk'
      rcases hor with hor | hor
      · exact absurd hor hd
      · exact hor
    · exact ((h4 k).1 (hperm.subset (List.mem_of_mem_filter hk))).1

/-- C21, amended: a run of `UpdatePathBasedRules` that finds its path map calls the gateway
update exactly when it removed at least one existing rule that has a path or added at least
one rule: the rule list it computed is what it kept of the existing rules that have a path,
followed by the added ones, and it publishes exactly when it kept fewer rules than there are
existing rules with a path or added one.  It skips the publish exactly when the computed
list is the list of the existing rules that have a path, and so whenever the computed list
is the existing one.  An existing rule without a path is left out of the computed list and
does not count as removed. -/
theorem UpdatePathBasedRules_publishes_iff (f : AppGWFaults) (cfg : AppGWConfig)
    (range : List (String × VMInstance) → List (String × VMInstance))
    (gateway : List URLPathMap) (instances : List VMInstance) (pathMap : URLPathMap)
    (hget : f.get = false)
    (hfind : gateway.find? (fun pm => pm.Name = cfg.PathMapName) = some pathMap)
    (hrange : ∀ m, (range m).Perm m) :
    ((UpdatePathBasedRules f cfg range gateway instances).published = true ↔
      0 < (UpdatePathBasedRules f cfg range gateway instances).removed ∨
      0 < (UpdatePathBasedRules f cfg range gateway instances).added) ∧
    (∃ kept new,
      (UpdatePathBasedRules f cfg range gateway instances).validRules = kept ++ new ∧
      kept.Sublist (pathMap.PathRules.filter (fun r => decide (r.Paths ≠ []))) ∧
      kept.length + (UpdatePathBasedRules f cfg range gateway instances).removed =
        (pathMap.PathRules.filter (fun r => decide (r.Paths ≠ []))).length ∧
      new.length = (UpdatePathBasedRules f cfg range gateway instances).added ∧
      ((UpdatePathBasedRules f cfg range gateway instances).published = true ↔
        kept.length < (pathMap.PathRules.filter (fun r => decide (r.Paths ≠ []))).length ∨
        new ≠ [])) ∧
    ((UpdatePathBasedRules f cfg range gateway instances).published = false ↔
      (UpdatePathBasedRules f cfg range gateway instances).validRules =
        pathMap.PathRules.filter (fun r => decide (r.Paths ≠ []))) ∧
    ((UpdatePathBasedRules f cfg range gateway instances).validRules = pathMap.PathRules →
      (UpdatePathBasedRules f cfg range gateway instances).published = false) := by
  obtain ⟨hadd, hrem, hpub⟩ :=
    UpdatePathBasedRules_counters f cfg range gateway instances pathMap hget hfind
  have hvalid :=
    UpdatePathBasedRules_validRules f cfg range gateway instances pathMap hget hfind hrange
  obtain ⟨hsub, hlen⟩ := filterRules_kept pathMap.PathRules (buildActive instances)
  have hnewlen : ((range (filterRules (buildActive instances) pathMap.PathRules).2.1).map
      (fun p => newRule cfg p.1 p.2)).length =
      (filterRules (buildActive instances) pathMap.PathRules).2.1.length := by
    rw [List.length_map, (hrange _).length_eq]
  have hquiet : (UpdatePathBasedRules f cfg range gateway instances).published = false ↔
      (UpdatePathBasedRules f cfg range gateway instances).validRules =
        pathMap.PathRules.filter (fun r => decide (r.Paths ≠ [])) := by
    constructor
    · intro hp
      have hno : ¬ (0 < (filterRules (buildActive instances) pathMap.PathRules).2.1.length ∨
          0 < (filterRules (buildActive instances) pathMap.PathRules).2.2.2) := by
        intro h
        rw [hpub.2 h] at hp
        cases hp
      have h0 : (filterRules (buildActive instances) pathMap.PathRules).2.1 = [] :=
        List.eq_nil_of_length_eq_zero (by omega)
      rw [hvalid, h0, List.Perm.eq_nil (hrange []), List.map_nil, List.append_nil]
      exact hsub.eq_of_length (by omega)
    · intro heq
      by_contra hp
      have hp' : (UpdatePathBasedRules f cfg range gateway instances).published = true := by
        simpa using hp
      have hlen2 := congrArg List.length heq
      rw [hvalid, List.length_append, hnewlen] at hlen2
      have hpos : 0 < (filterRules (buildActive instances) pathMap.PathRules).2.2.2 := by
        rcases hpub.1 hp' with h | h <;> omega
      obtain ⟨k, hk, hor⟩ := filterRules_removed_pos _ _ hpos
      obtain ⟨hnd, hact⟩ := vmRuleKeys_computed cfg range (buildActive instances)
        pathMap.PathRules hrange (buildActive_nodup instances)
      rw [← hvalid, heq, vmRuleKeys_filter_paths] at hnd hact
      rcases hor with hor | hor
      · exact hor (hact k hk)
      · have := List.nodup_iff_count_le_one.1 hnd k
        omega
  refine ⟨?_, ?_, hquiet, ?_⟩
  · rw [hadd, hrem, hpub]
    exact Or.comm
  · refine ⟨_, _, hvalid, hsub, by rw [hrem]; exact hlen, by rw [hadd]; exact hnewlen, ?_⟩
    rw [hpub]
    constructor
    · rintro (h | h)
      · right
        intro hnil
        have hl := congrArg List.length hnil
        rw [hnewlen, List.length_nil] at hl
        omega
      · left
        omega
    · rintro (h | h)
      · right
        omega
      · left
        rw [← hnewlen]
        exact List.length_pos.2 h
  · intro heq
    apply hquiet.2
    rw [heq]
    have hall : ∀ r ∈ pathMap.PathRules, r.Paths ≠ [] := by
      intro r hr hP
      rw [← heq, hvalid] at hr
      rcases List.mem_append.1 hr with hr | hr
      · obtain ⟨-, k, hk, -⟩ :=
          (filterRules_spec pathMap.PathRules (buildActive instances)).1 r hr
        simp [ruleVMID, hP] at hk
      · obtain ⟨p, -, rfl⟩ := List.mem_map.1 hr
        simp [newRule] at hP
    exact (List.filter_eq_self.2 (fun r hr => by simpa using hall r hr)).symm

/-- Witness for C21, amended: on the test gateway the run removes two rules, adds one and publishes;
on the gateway that run left it changes nothing and does not publish; on a path map with the
default rule and a rule without paths, with no VM, it does not publish, and the list it
computed is the default rule alone. -/
theorem UpdatePathBasedRules_publishes_iff_witness :
    ((UpdatePathBasedRules noAppGWFaults testAppGWConfig id testGateway testInventory).published
        = true ↔
      0 < (UpdatePathBasedRules noAppGWFaults testAppGWConfig id testGateway
        testInventory).removed ∨
      0 < (UpdatePathBasedRules noAppGWFaults testAppGWConfig id testGateway
        testInventory).added) ∧
    (UpdatePathBasedRules noAppGWFaults testAppGWConfig id testGateway testInventory).published
      = true ∧
    (UpdatePathBasedRules noAppGWFaults testAppGWConfig id testGateway testInventory).removed
      = 2 ∧
    (UpdatePathBasedRules noAppGWFaults testAppGWConfig id testGateway testInventory).added = 1 ∧
    (UpdatePathBasedRules noAppGWFaults testAppGWConfig id pathlessGateway []).published
      = false ∧
    (UpdatePathBasedRules noAppGWFaults testAppGWConfig id pathlessGateway []).validRules =
      [testRule "default" "/default"] :=
  ⟨(UpdatePathBasedRules_publishes_iff noAppGWFaults testAppGWConfig id testGateway
      testInventory { Name := "pm",
                      PathRules := [testRule "default" "/default", testRule "instance0" "/A",
                                    testRule "dup" "/A", testRule "instance9" "/Q"] }
      rfl (by decide) (fun m => List.Perm.refl m)).1,
   by decide, by decide, by decide, by decide, by decide⟩

/-- Counterexample to C21: the path map holds the default rule and a rule without paths, and
there is no VM.  The list the run computes is the default rule alone, so it differs from
the existing list, from which the rule without paths has gone; yet no counter moves, the
run does not publish, and the gateway keeps both rules. -/
theorem UpdatePathBasedRules_drops_pathless_unpublished :
    pathlessGateway.find? (fun pm => pm.Name = testAppGWConfig.PathMapName) =
      some { Name := "pm",
             PathRules := [testRule "default" "/default",
                           { Name := "empty", Paths := [], BackendAddressPool := "pool",
                             BackendHTTPSettings := "wss" }] } ∧
    (UpdatePathBasedRules noAppGWFaults testAppGWConfig id pathlessGateway []).validRules =
      [testRule "default" "/default"] ∧
    (UpdatePathBasedRules noAppGWFaults testAppGWConfig id pathlessGateway []).validRules ≠
      [testRule "default" "/default",
       { Name := "empty", Paths := [], BackendAddressPool := "pool",
         BackendHTTPSettings := "wss" }] ∧
    (UpdatePathBasedRules noAppGWFaults testAppGWConfig id pathlessGateway []).removed = 0 ∧
    (UpdatePathBasedRules noAppGWFaults testAppGWConfig id pathlessGateway []).added = 0 ∧
    (UpdatePathBasedRules noAppGWFaults testAppGWConfig id pathlessGateway []).published =
      false ∧
    (UpdatePathBasedRules noAppGWFaults testAppGWConfig id pathlessGateway []).err = none ∧
    (UpdatePathBasedRules noAppGWFaults testAppGWConfig id pathlessGateway []).gateway =
      pathlessGateway := by
  decide

/-! ### Gateway route diff: the synthesized rule -/

theorem mem_buildActive (instances : List VMInstance) (p : String × VMInstance)
    (hp : p ∈ buildActive instances) :
    p.2 ∈ instances ∧ p.2.VMID = p.1 ∧ p.2.PrivateIP ≠ "" := by
  have key : ∀ (l : List VMInstance) (m : List (String × VMInstance)),
      (∀ q ∈ m, q.2 ∈ instances ∧ q.2.VMID = q.1 ∧ q.2.PrivateIP ≠ "") →
      (∀ i ∈ l, i ∈ instances) →
      ∀ q ∈ l.foldl (fun m inst =>
        if inst.PrivateIP ≠ "" then mapInsert m inst.VMID inst else m) m,
        q.2 ∈ instances ∧ q.2.VMID = q.1 ∧ q.2.PrivateIP ≠ "" := by
    intro l
    induction l with
    | nil => intro m hm _; exact hm
    | cons i is ih =>
      intro m hm hl
      rw [List.foldl_cons]
      apply ih _ _ (fun j hj => hl j (List.mem_cons_of_mem _ hj))
      by_cases hi : i.PrivateIP ≠ ""
      · rw [if_pos hi]
        intro q hq
        unfold mapInsert at hq
        rcases List.mem_append.1 hq with hq | hq
        · exact hm q (List.mem_of_mem_filter hq)
        · rw [List.mem_singleton] at hq
          subst hq
          exact ⟨hl i (List.mem_cons_self _ _), rfl, hi⟩
      · rw [if_neg hi]
        exact hm
  exact key instances [] (fun q hq => by cases hq) (fun i hi => hi) p hp

theorem filterRules_remaining_sublist (rules : List PathRule)
    (a : List (String × VMInstance)) : (filterRules a rules).2.1.Sublist a := by
  induction rules generalizing a with
  | nil => simp [filterRules]
  | cons rule rest ih =>
    rcases ruleVMID_cases a rule with h | h | ⟨k, h, hd, hk⟩ | ⟨k, h, hd, hk⟩
    · rw [filterRules_cons_nopath a rule rest h]
      exact ih a
    · rw [filterRules_cons_default a rule rest h]
      exact ih a
    · rw [filterRules_cons_keep a rule rest k h hd hk]
      exact (ih (mapDelete a k)).trans (List.filter_sublist _)
    · rw [filterRules_cons_remove a rule rest k h hd hk]
      exact ih a

/-- C22: in a run of `UpdatePathBasedRules` that finds its path map, for every inventory
instance with a non-empty privateIp whose vmId no other such instance has and for which no
existing rule stands, the computed list holds a rule that is not an existing one, with the
single path `/` + vmId, the name `instance` + instanceId, the backend address pool id of
the gateway ending in the privateIp with every dot replaced by a dash, and the backend HTTP
settings id of the gateway ending in `wss`; and the run publishes. -/
theorem UpdatePathBasedRules_synthesizes (f : AppGWFaults) (cfg : AppGWConfig)
    (range : List (String × VMInstance) → List (String × VMInstance))
    (gateway : List URLPathMap) (instances : List VMInstance) (pathMap : URLPathMap)
    (hget : f.get = false)
    (hfind : gateway.find? (fun pm => pm.Name = cfg.PathMapName) = some pathMap)
    (hrange : ∀ m, (range m).Perm m)
    (inst : VMInstance) (hinst : inst ∈ instances) (hip : inst.PrivateIP ≠ "")
    (huniq : ∀ other ∈ instances, other.PrivateIP ≠ "" → other.VMID = inst.VMID → other = inst)
    (hnone : ∀ r ∈ pathMap.PathRules, ruleVMID r ≠ some inst.VMID) :
    (UpdatePathBasedRules f cfg range gateway instances).published = true ∧
    ∃ r ∈ (UpdatePathBasedRules f cfg range gateway instances).validRules,
      r ∉ pathMap.PathRules ∧
      r.Paths = ["/" ++ inst.VMID] ∧
      r.Name = "instance" ++ inst.InstanceID ∧
      r.BackendAddressPool =
        "/subscriptions/" ++ cfg.SubscriptionID ++ "/resourceGroups/" ++ cfg.ResourceGroup ++
          "/providers/Microsoft.Network/applicationGateways/" ++ cfg.GWName ++
          "/backendAddressPools/" ++ replaceDots inst.PrivateIP ∧
      (replaceDots inst.PrivateIP).data <:+ r.BackendAddressPool.data ∧
      (replaceDots inst.PrivateIP).data =
        inst.PrivateIP.data.map (fun c => if c = '.' then '-' else c) ∧
      r.BackendHTTPSettings =
        "/subscriptions/" ++ cfg.SubscriptionID ++ "/resourceGroups/" ++ cfg.ResourceGroup ++
          "/providers/Microsoft.Network/applicationGateways/" ++ cfg.GWName ++
          "/backendHttpSettingsCollection/wss" ∧
      "wss".data <:+ r.BackendHTTPSettings.data := by
  obtain ⟨h1, -, -, h4, -, -⟩ := filterRules_spec pathMap.PathRules (buildActive instances)
  have hkey : inst.VMID ∈ (filterRules (buildActive instances) pathMap.PathRules).2.1.map
      Prod.fst := by
    rw [h4]
    refine ⟨(mem_buildActive_keys instances inst.VMID).2 ⟨inst, hinst, rfl, hip⟩, ?_⟩
    intro hk
    obtain ⟨-, r, hr, hrk⟩ := (mem_vmRuleKeys _ _).1 hk
    exact hnone r (h1 r hr).1 hrk
  obtain ⟨p, hp, hpk⟩ := List.mem_map.1 hkey
  obtain ⟨hp2, hp1, hpip⟩ := mem_buildActive instances p
    ((filterRules_remaining_sublist pathMap.PathRules (buildActive instances)).subset hp)
  have hpinst : p.2 = inst := huniq p.2 hp2 hpip (hp1.trans hpk)
  have hpeq : p = (inst.VMID, inst) := Prod.ext hpk hpinst
  obtain ⟨hadd, -, hpub⟩ :=
    UpdatePathBasedRules_counters f cfg range gateway instances pathMap hget hfind
  refine ⟨hpub.2 (Or.inl (List.length_pos_of_mem hp)), newRule cfg inst.VMID inst, ?_, ?_,
    rfl, rfl, rfl, ?_, rfl, rfl, ?_⟩
  · rw [UpdatePathBasedRules_validRules f cfg range gateway instances pathMap hget hfind hrange]
    apply List.mem_append_right
    exact List.mem_map.2 ⟨p, (hrange _).mem_iff.2 hp, by rw [hpeq]⟩
  · intro hmem
    exact hnone _ hmem (ruleVMID_newRule cfg inst.VMID inst)
  · simp only [newRule, String.data_append]
    exact List.suffix_append _ _
  · have hwss : "wss".data <:+ "/backendHttpSettingsCollection/wss".data :=
      ⟨"/backendHttpSettingsCollection/".data, rfl⟩
    simp only [newRule, String.data_append]
    exact hwss.trans (List.suffix_append _ _)

/-- Witness for C22: for the VM `B` (instance `1`, private IP `10.0.0.5`) of the test
inventory, which has no rule on the test gateway, the computed list holds the rule
`instance1` with the path `/B`, pool `10-0-0-5` and settings `wss`. -/
theorem UpdatePathBasedRules_synthesizes_witness :
    (UpdatePathBasedRules noAppGWFaults testAppGWConfig id testGateway testInventory).published
      = true ∧
    { Name := "instance1", Paths := ["/B"],
      BackendAddressPool :=
        "/subscriptions/sub/resourceGroups/rg/providers/Microsoft.Network/" ++
          "applicationGateways/gw/backendAddressPools/10-0-0-5",
      BackendHTTPSettings :=
        "/subscriptions/sub/resourceGroups/rg/providers/Microsoft.Network/" ++
          "applicationGateways/gw/backendHttpSettingsCollection/wss" } ∈
      (UpdatePathBasedRules noAppGWFaults testAppGWConfig id testGateway
        testInventory).validRules :=
  ⟨(UpdatePathBasedRules_synthesizes noAppGWFaults testAppGWConfig id testGateway
      testInventory { Name := "pm",
                      PathRules := [testRule "default" "/default", testRule "instance0" "/A",
                                    testRule "dup" "/A", testRule "instance9" "/Q"] }
      rfl (by decide) (fun m => List.Perm.refl m)
      { testInstance "B" "1" PowerStateRunning with PrivateIP := "10.0.0.5" }
      (by decide) (by decide) (by decide) (by decide)).1,
   by decide⟩

/-! ### Work on one key is local to that key -/

theorem agreeAt_refl (key : String) (st : Store) : agreeAt key st st :=
  ⟨rfl, fun _ => Iff.rfl⟩

theorem agreeAt_symm {key : String} {st st' : Store} (h : agreeAt key st st') :
    agreeAt key st' st :=
  ⟨h.1.symm, fun s => (h.2 s).symm⟩

theorem agreeAt_trans {key : String} {st₁ st₂ st₃ : Store} (h : agreeAt key st₁ st₂)
    (h' : agreeAt key st₂ st₃) : agreeAt key st₁ st₃ :=
  ⟨h'.1.trans h.1, fun s => (h'.2 s).trans (h.2 s)⟩

theorem apply_agreeAt (key : String) (st st' : Store) (c : Cmd) (h : agreeAt key st st') :
    agreeAt key (st.apply c) (st'.apply c) := by
  refine ⟨?_, fun s => ?_⟩
  · cases c with
    | set k v => simp only [Store.apply, get_set, h.1]
    | del k => simp only [Store.apply, get_del, h.1]
    | sadd t m => simp only [Store.apply, get_sadd, h.1]
    | srem t m => simp only [Store.apply, get_srem, h.1]
  · rw [mem_members_apply, mem_members_apply, h.2 s]

theorem Exec_agreeAt (key : String) (st st' : Store) (fault : ExecFault) (cmds : List Cmd)
    (h : agreeAt key st st') :
    agreeAt key (st.Exec fault cmds).1 (st'.Exec fault cmds).1 ∧
    (st'.Exec fault cmds).2 = (st.Exec fault cmds).2 := by
  cases fault with
  | none =>
    refine ⟨?_, rfl⟩
    simp only [Store.Exec]
    induction cmds generalizing st st' with
    | nil => exact h
    | cons c cs ih => exact ih _ _ (apply_agreeAt key st st' c h)
  | some mask =>
    refine ⟨?_, rfl⟩
    simp only [Store.Exec]
    induction cmds generalizing st st' mask with
    | nil => exact h
    | cons c cs ih =>
      cases mask with
      | nil => exact h
      | cons b bs =>
        simp only [List.zip_cons_cons, List.foldl_cons]
        cases b
        · exact ih _ _ h _
        · exact ih _ _ (apply_agreeAt key st st' c h) _

/-- A loop over distinct keys whose body does not touch the other keys, and acts on its own
key by what the store holds for that key alone: what the loop does to `key` is what the body
does to it on the first store. -/
theorem forEachKey_local (body : Store → String → Store × List Effect) (key : String)
    (hother : ∀ st k, k ≠ key → agreeAt key st (body st k).1)
    (hcongr : ∀ st st', agreeAt key st st' →
      agreeAt key (body st key).1 (body st' key).1 ∧ (body st' key).2 = (body st key).2)
    (keys : List String) (hnd : keys.Nodup) (hkey : key ∈ keys) (st0 st : Store)
    (h : agreeAt key st0 st) :
    agreeAt key (body st0 key).1 (forEachKey body keys st).1 ∧
    ∃ pre post, (forEachKey body keys st).2 = pre ++ (body st0 key).2 ++ post := by
  induction keys generalizing st with
  | nil => cases hkey
  | cons k ks ih =>
    by_cases hk : k = key
    · subst hk
      have hnot : k ∉ ks := (List.nodup_cons.1 hnd).1
      obtain ⟨hag, heff⟩ := hcongr st0 st h
      constructor
      · have := forEachKey_preserves body (fun st' => agreeAt k (body st0 k).1 st') ks
          (fun st' k' hk' hP =>
            agreeAt_trans hP (hother st' k' (fun e => hnot (e ▸ hk')))) _ hag
        simpa only [forEachKey] using this
      · exact ⟨[], (forEachKey body ks (body st k).1).2, by simp [forEachKey, heff]⟩
    · rcases List.mem_cons.1 hkey with e | hmem
      · exact absurd e.symm hk
      · obtain ⟨hag, pre, post, heff⟩ := ih (List.nodup_cons.1 hnd).2 hmem (body st k).1
          (agreeAt_trans h (hother st k hk))
        refine ⟨by simpa only [forEachKey] using hag, (body st k).2 ++ pre, post, ?_⟩
        simp only [forEachKey, heff, List.append_assoc]

/-! ### Cleaner: one bad record does not affect the others -/

/-- What the Cleaner's loop body does to `key` and emits depends only on what the store holds
for `key` and on the failures of the calls made for `key`. -/
theorem cleanOne_congr (f f' : CleanerFaults) (clock : Clock) (cfg : ScalerConfig)
    (st st' : Store) (key : String) (h : agreeAt key st st')
    (hget : f'.get key = f.get key) (hexec : f'.exec key = f.exec key)
    (hdel : ∀ r, (st.get key).bind unmarshal = some r →
      f'.deleteInstance r.InstanceID = f.deleteInstance r.InstanceID) :
    agreeAt key (cleanOne f clock cfg st key).1 (cleanOne f' clock cfg st' key).1 ∧
    (cleanOne f' clock cfg st' key).2 = (cleanOne f clock cfg st key).2 := by
  unfold cleanOne
  rw [hget, h.1, hexec]
  by_cases hg : f.get key = true
  · simp only [hg, if_true]
    exact ⟨h, trivial⟩
  · simp only [hg, if_false]
    cases hd : st.get key with
    | none => exact ⟨h, rfl⟩
    | some data =>
      simp only
      cases hu : unmarshal data with
      | none => exact ⟨h, rfl⟩
      | some record =>
        simp only
        have hdel' := hdel record (by rw [hd]; exact hu)
        by_cases hc : shouldCleanup clock cfg key record = true
        · simp only [hc, Bool.not_true, Bool.false_eq_true, if_false]
          obtain ⟨hag, hok⟩ := Exec_agreeAt key st st' (f.exec key)
            [Cmd.srem .unavailable key, Cmd.del key] h
          rw [hok, hdel']
          refine ⟨?_, ?_⟩
          · split
            · exact hag
            · split <;> exact hag
          · split
            · rfl
            · split <;> rfl
        · simp only [hc, Bool.not_false, if_true]
          exact ⟨h, rfl⟩

/-- What a Cleaner tick does to a member `key` of the unavailable set is what the loop body
does to it on the store the tick started on. -/
theorem clean_local (f : CleanerFaults) (clock : Clock) (cfg : ScalerConfig) (st : Store)
    (key : String) (hsm : f.smembers = false) (hkey : key ∈ st.members .unavailable) :
    agreeAt key (cleanOne f clock cfg st key).1 (clean f clock cfg st).1 ∧
    ∃ pre post, (clean f clock cfg st).2.1 = pre ++ (cleanOne f clock cfg st key).2 ++ post := by
  obtain ⟨hs, he, -⟩ := clean_store f clock cfg st hsm
  rw [hs, he]
  exact forEachKey_local (cleanOne f clock cfg) key
    (fun st' k hk => ⟨cleanOne_get_other f clock cfg st' k key hk,
      fun s => cleanOne_mem_other f clock cfg st' k key s hk⟩)
    (fun st₁ st₂ hag => cleanOne_congr f f clock cfg st₁ st₂ key hag rfl rfl (fun _ _ => rfl))
    _ (List.nodup_dedup _) (List.mem_dedup.2 hkey) st st (agreeAt_refl key st)

/-- C23: take two Cleaner ticks (the reading of the member list succeeds in both) on two
stores that hold the same record and the same set memberships for `key`, a member of the
unavailable set, with the same outcome of the calls made for `key`.  Whatever the other
members are in the two stores (records that fail to load, that do not parse, whose
`updatedAt` is no timestamp, or good ones) and whatever fails for them, both ticks return no
error, leave the same value under `key` and `key` in the same sets, and make the same calls
for `key`. -/
theorem clean_bad_records_isolated (f f' : CleanerFaults) (clock : Clock) (cfg : ScalerConfig)
    (st st' : Store) (key : String) (hsm : f.smembers = false) (hsm' : f'.smembers = false)
    (hkey : key ∈ st.members .unavailable)
    (hrec : st'.get key = st.get key)
    (hmem : ∀ s, key ∈ st'.members s ↔ key ∈ st.members s)
    (hget : f'.get key = f.get key) (hexec : f'.exec key = f.exec key)
    (hdel : ∀ r, (st.get key).bind unmarshal = some r →
      f'.deleteInstance r.InstanceID = f.deleteInstance r.InstanceID) :
    (clean f clock cfg st).2.2 = none ∧ (clean f' clock cfg st').2.2 = none ∧
    (clean f' clock cfg st').1.get key = (clean f clock cfg st).1.get key ∧
    (∀ s, key ∈ (clean f' clock cfg st').1.members s ↔ key ∈ (clean f clock cfg st).1.members s) ∧
    ∃ pre post pre' post',
      (clean f clock cfg st).2.1 = pre ++ (cleanOne f clock cfg st key).2 ++ post ∧
      (clean f' clock cfg st').2.1 = pre' ++ (cleanOne f clock cfg st key).2 ++ post' := by
  have hkey' : key ∈ st'.members .unavailable := (hmem _).2 hkey
  obtain ⟨hag, pre, post, heff⟩ := clean_local f clock cfg st key hsm hkey
  obtain ⟨hag', pre', post', heff'⟩ := clean_local f' clock cfg st' key hsm' hkey'
  obtain ⟨hc, hce⟩ := cleanOne_congr f f' clock cfg st st' key ⟨hrec, hmem⟩ hget hexec hdel
  have hfinal := agreeAt_trans (agreeAt_trans (agreeAt_symm hag) hc) hag'
  refine ⟨(clean_store f clock cfg st hsm).2.2, (clean_store f' clock cfg st' hsm').2.2,
    hfinal.1, hfinal.2, pre, post, pre', post', heff, ?_⟩
  rw [heff', hce]

/-- Witness for C23: `W` (age exactly 360 s) is cleaned in the store of scenario S4 and, in
the same way, in the store where the record of `Y` has an `updatedAt` that is no timestamp,
the value of `Z` does not parse and `U` has no record. -/
theorem clean_bad_records_isolated_witness :
    (clean noCleanerFaults testClock testConfig storeS4Bad).2.2 = none ∧
    (clean noCleanerFaults testClock testConfig storeS4Bad).1.get "vmss:instance:W" =
      (clean noCleanerFaults testClock testConfig storeS4).1.get "vmss:instance:W" ∧
    (clean noCleanerFaults testClock testConfig storeS4).1.get "vmss:instance:W" = none ∧
    (clean noCleanerFaults testClock testConfig storeS4Bad).2.1 =
      [.exec [Cmd.srem .unavailable "vmss:instance:W", Cmd.del "vmss:instance:W"] true,
       .deleteInstance "3" true,
       .telemetry { Operation := "clean", Success := true, ResourceID := "3" } "westeurope"] :=
  ⟨(clean_bad_records_isolated noCleanerFaults noCleanerFaults testClock testConfig storeS4
      storeS4Bad "vmss:instance:W" rfl rfl (by decide) (by decide)
      (fun s => by cases s <;> decide) rfl rfl
      (fun _ _ => rfl)).2.1,
   (clean_bad_records_isolated noCleanerFaults noCleanerFaults testClock testConfig storeS4
      storeS4Bad "vmss:instance:W" rfl rfl (by decide) (by decide)
      (fun s => by cases s <;> decide) rfl rfl
      (fun _ _ => rfl)).2.2.1,
   by decide, by decide⟩

/-! ### Reconciler: records of present VMs are left alone -/

/-- The store after a Reconciler tick, whatever fails: the store `st1` after the orphan batch
(or the first store, when the batch was not run), or the batch of new records, computed
against the keys of `st1`, run on `st1`. -/
theorem reconcile_store_shape_keys (f : ReconcilerFaults) (clock : Clock) (cfg : ScalerConfig)
    (cloud : List VMInstance) (st : Store) :
    ∃ st1, (st1 = st ∨
        st1 = (st.Exec f.execOrphans
          (queueOrphans (cloud.map (fun inst => inst.VMID)) (st.Keys "vmss:instance:")).1).1) ∧
      ((reconcile f clock cfg cloud st).1 = st1 ∨
        (reconcile f clock cfg cloud st).1 =
          (st1.Exec f.execNew (queueNewRecords clock cfg (st1.Keys "vmss:instance:")
            (ListInstances cloud
              { VMPowerStates := [PowerStateStopped, PowerStateDeallocated] })).1).1) := by
  unfold reconcile
  simp only [ListInstances_all]
  split
  · exact ⟨st, Or.inl rfl, Or.inl rfl⟩
  · split
    · exact ⟨st, Or.inl rfl, Or.inl rfl⟩
    · split
      · rename_i st1 e rest heq
        refine ⟨st1, ?_, Or.inl rfl⟩
        split at heq
        · split at heq
          · exact Or.inr (Prod.mk.inj heq).1.symm
          · split at heq
            · exact Or.inr (Prod.mk.inj heq).1.symm
            · exact Or.inr (Prod.mk.inj heq).1.symm
        · exact Or.inl (Prod.mk.inj heq).1.symm
      · rename_i st1 redisRecords heq
        have hkeys : redisRecords = st1.Keys "vmss:instance:" := by
          split at heq
          · split at heq
            · cases (Prod.mk.inj (Prod.mk.inj heq).2).1
            · split at heq
              · cases (Prod.mk.inj (Prod.mk.inj heq).2).1
              · rw [← (Prod.mk.inj heq).1, ← (Prod.mk.inj (Prod.mk.inj heq).2).2]
          · rw [← (Prod.mk.inj heq).1, ← (Prod.mk.inj (Prod.mk.inj heq).2).2]
        subst hkeys
        refine ⟨st1, ?_, ?_⟩
        · split at heq
          · split at heq
            · exact Or.inr (Prod.mk.inj heq).1.symm
            · split at heq
              · exact Or.inr (Prod.mk.inj heq).1.symm
              · exact Or.inr (Prod.mk.inj heq).1.symm
          · exact Or.inl (Prod.mk.inj heq).1.symm
        · split
          · exact Or.inl rfl
          · split
            · split
              · exact Or.inr rfl
              · exact Or.inr rfl
            · exact Or.inl rfl

/-- C24: a Reconciler tick, whatever fails in it, leaves every record whose key scans to a
vmId of the cloud inventory as it is: the value under the key is the same (not rewritten,
not deleted) and the key is in the same status sets, whatever the record's status field
says. -/
theorem reconcile_frame (f : ReconcilerFaults) (clock : Clock) (cfg : ScalerConfig)
    (cloud : List VMInstance) (st : Store) (key vmID : String)
    (hrec : st.get key ≠ none) (hscan : sscanfVMID key = some vmID)
    (hcloud : vmID ∈ cloud.map (fun inst => inst.VMID)) :
    (reconcile f clock cfg cloud st).1.get key = st.get key ∧
    ∀ s, (key ∈ (reconcile f clock cfg cloud st).1.members s ↔ key ∈ st.members s) := by
  obtain ⟨st1, hst1, hres⟩ := reconcile_store_shape_keys f clock cfg cloud st
  have h1 : st1.get key = st.get key ∧ ∀ s, (key ∈ st1.members s ↔ key ∈ st.members s) := by
    rcases hst1 with e | e
    · rw [e]
      exact ⟨rfl, fun _ => Iff.rfl⟩
    · rw [e]
      have hno : ∀ c ∈ (queueOrphans (cloud.map (fun inst => inst.VMID))
          (st.Keys "vmss:instance:")).1, c ≠ Cmd.del key ∧ ∀ s, c ≠ Cmd.srem s key := by
        intro c hc
        obtain ⟨k, -, ⟨v, hv, hnv⟩, hor⟩ := (mem_queueOrphans_cmds _ _ _).1 hc
        have hk : k ≠ key := by
          intro e'
          rw [e', hscan] at hv
          cases hv
          exact hnv hcloud
        rcases hor with hor | ⟨s', hor⟩
        · rw [hor]
          exact ⟨fun e' => hk (Cmd.del.inj e'), fun s e' => by cases e'⟩
        · rw [hor]
          exact ⟨fun e' => (by cases e'), fun s e' => hk (Cmd.srem.inj e').2⟩
      refine ⟨Exec_get_frame _ _ _ _ ?_, fun s => Exec_mem_frame _ _ _ _ _ ?_⟩
      · intro c hc hw
        obtain ⟨k, -, -, hor⟩ := (mem_queueOrphans_cmds _ _ _).1 hc
        rcases hor with hor | ⟨s', hor⟩
        · rw [hor] at hw
          exact (hno c hc).1 (by rw [hor]; exact congrArg Cmd.del hw)
        · rw [hor] at hw
          exact hw
      · intro c hc
        refine ⟨(hno c hc).2 s, ?_⟩
        obtain ⟨k, -, -, hor⟩ := (mem_queueOrphans_cmds _ _ _).1 hc
        rcases hor with hor | ⟨s', hor⟩ <;> rw [hor] <;> intro e' <;> cases e'
  rcases hres with e | e
  · rw [e]
    exact h1
  · rw [e]
    have hin : key ∈ st1.Keys "vmss:instance:" := by
      have hne : st1.get key ≠ none := by rw [h1.1]; exact hrec
      exact (mem_Keys st1 _ key).2 ⟨by
        by_contra h
        exact hne ((get_eq_none_iff st1 key).2 h), hasPrefix_of_sscanfVMID hscan⟩
    have hno : ∀ c ∈ (queueNewRecords clock cfg (st1.Keys "vmss:instance:")
        (ListInstances cloud
          { VMPowerStates := [PowerStateStopped, PowerStateDeallocated] })).1,
        ¬ c.writes key ∧ ∀ s, c ≠ Cmd.srem s key ∧ c ≠ Cmd.sadd s key := by
      intro c hc
      obtain ⟨inst, -, hnk, hor⟩ := (mem_queueNewRecords_cmds _ _ _ _ _).1 hc
      have hk : instanceKey inst.VMID ≠ key := fun e' => hnk (e' ▸ hin)
      rcases hor with hor | hor
      · rw [hor]
        exact ⟨fun hw => hk hw, fun s => ⟨fun e' => (by cases e'), fun e' => (by cases e')⟩⟩
      · rw [hor]
        exact ⟨fun hw => hw, fun s => ⟨fun e' => (by cases e'),
          fun e' => hk (Cmd.sadd.inj e').2⟩⟩
    refine ⟨(Exec_get_frame _ _ _ _ (fun c hc => (hno c hc).1)).trans h1.1, fun s => ?_⟩
    rw [Exec_mem_frame _ _ _ _ _ (fun c hc => (hno c hc).2 s)]
    exact h1.2 s

/-- Witness for C24: the running VM `A`, whose record says `Available` while its key is in
the reserved set, keeps its record and the set of its key through a tick. -/
theorem reconcile_frame_witness :
    (reconcile noReconcilerFaults testClock testConfig driftCloud driftStore).1.get
        "vmss:instance:A" = driftStore.get "vmss:instance:A" ∧
    ∀ s, ("vmss:instance:A" ∈
        (reconcile noReconcilerFaults testClock testConfig driftCloud driftStore).1.members s ↔
      "vmss:instance:A" ∈ driftStore.members s) :=
  reconcile_frame noReconcilerFaults testClock testConfig driftCloud driftStore
    "vmss:instance:A" "A" (by decide) (by decide) (by decide)

/-! ### Telemetry -/

/-- C25, amended: the event built by `TrackVMSSOperation` is named `VMSSOperation` and
carries, as properties, the operation and the resourceId of the metrics it is given, their
duration in whole seconds, and the region it is given as `geoName`. -/
theorem TrackVMSSOperation_properties (operationID : String) (wholeSeconds : Int → Int)
    (metrics : VMMetrics) (geoName : String) :
    (TrackVMSSOperation operationID wholeSeconds metrics geoName).Name = "VMSSOperation" ∧
    (TrackVMSSOperation operationID wholeSeconds metrics geoName).Properties.lookup "operation"
      = some metrics.Operation ∧
    (TrackVMSSOperation operationID wholeSeconds metrics geoName).Properties.lookup "resourceId"
      = some metrics.ResourceID ∧
    (TrackVMSSOperation operationID wholeSeconds metrics geoName).Properties.lookup "duration"
      = some (toString (wholeSeconds metrics.Duration)) ∧
    (TrackVMSSOperation operationID wholeSeconds metrics geoName).Properties.lookup "region"
      = some geoName := by
  refine ⟨rfl, ?_, ?_, ?_, ?_⟩ <;> simp [TrackVMSSOperation, List.lookup]

/-- Counterexample to C25: for metrics with `Success = false` and region `eastus`, tracked
with `geoName = westeurope`, the event has no property `success`, it is the event of the same
metrics with `Success = true`, and its region is `westeurope`, not the region of the
metrics. -/
theorem TrackVMSSOperation_drops_success :
    (TrackVMSSOperation "op-1" (fun d => d / 1000000000) testMetrics "westeurope").Properties =
      [("operationId", "op-1"), ("operation", "provision"), ("resourceId", "7"),
       ("region", "westeurope"), ("duration", "5")] ∧
    (TrackVMSSOperation "op-1" (fun d => d / 1000000000) testMetrics
      "westeurope").Properties.lookup "success" = none ∧
    TrackVMSSOperation "op-1" (fun d => d / 1000000000) { testMetrics with Success := true }
        "westeurope" =
      TrackVMSSOperation "op-1" (fun d => d / 1000000000) testMetrics "westeurope" ∧
    (TrackVMSSOperation "op-1" (fun d => d / 1000000000) testMetrics
      "westeurope").Properties.lookup "region" ≠ some testMetrics.Region := by
  decide

/-! ### Simulator: the step index stays in range -/

theorem simulate_currentStep_lt (f : SimulatorFaults) (clock : Clock) (currentStep : Nat)
    (st : Store) (h : currentStep < 6) :
    ∃ out, simulate f clock currentStep st = some out ∧ out.currentStep < 6 := by
  have hget : schedule[currentStep]? = some (schedule[currentStep]) :=
    List.getElem?_eq_getElem (show currentStep < schedule.length from h)
  by_cases hpop : f.spop = true
  · refine ⟨{ currentStep := currentStep, store := st, effects := [],
              err := some "failed to pop available instances" }, ?_, h⟩
    unfold simulate
    rw [hget]
    simp only [hpop, if_true]
  · exact ⟨_, simulate_store f clock currentStep st _ hget (by simpa using hpop),
      Nat.mod_lt _ (by decide)⟩

theorem simulateTicks_lt (ticks : List (SimulatorFaults × Clock × Store)) (currentStep : Nat)
    (h : currentStep < 6) : ∃ k, simulateTicks ticks currentStep = some k ∧ k < 6 := by
  induction ticks generalizing currentStep with
  | nil => exact ⟨currentStep, rfl, h⟩
  | cons t rest ih =>
    obtain ⟨f, clock, st⟩ := t
    obtain ⟨out, hout, hlt⟩ := simulate_currentStep_lt f clock currentStep st h
    obtain ⟨k, hk, hk6⟩ := ih out.currentStep hlt
    exact ⟨k, by simp only [simulateTicks, hout, hk], hk6⟩

/-- C26: the service `NewService` builds has the step index 0 and the schedule
`[1,0,2,1,0,2]`; after any run of ticks from there, whatever fails and whatever the store
holds at each tick, no tick has panicked on the schedule lookup and the step index is within
0..5; and a tick at step index `i` whose pop does not fail pops with the count that is the
`i`-th element of `[1,0,2,1,0,2]`. -/
theorem simulate_step_in_range (scalerConfig : ScalerConfig) (s : simulator.Service)
    (hs : (simulator.NewService scalerConfig).1 = some s) :
    s.currentStep = 0 ∧ s.schedule = [1, 0, 2, 1, 0, 2] ∧
    (∀ ticks, ∃ k, simulateTicks ticks s.currentStep = some k ∧ k < 6) ∧
    (∀ (f : SimulatorFaults) (clock : Clock) (st : Store) (i n : Nat),
      [1, 0, 2, 1, 0, 2][i]? = some n → f.spop = false →
      simulate f clock i st =
        some { currentStep := (i + 1) % 6
               store := (forEachKey (simulateOne f clock) (st.SPop .available n).1
                 (st.SPop .available n).2).1
               effects := (forEachKey (simulateOne f clock) (st.SPop .available n).1
                 (st.SPop .available n).2).2
               err := none }) := by
  have hs' : s = { currentStep := 0, schedule := schedule, scalerConfig := scalerConfig } := by
    unfold simulator.NewService at hs
    split at hs
    · cases hs
    · exact (Option.some.inj hs).symm
  subst hs'
  refine ⟨rfl, rfl, fun ticks => simulateTicks_lt ticks 0 (by decide), ?_⟩
  intro f clock st i n hi hpop
  exact simulate_store f clock i st n hi hpop

/-- Witness for C26: seven ticks from the new service, the third with a failing pop, leave
the step index at 0 (six advances). -/
theorem simulate_step_in_range_witness :
    simulateTicks
      [(noSimulatorFaults, testClock, storeS6), (noSimulatorFaults, testClock, emptyStore),
       (failingPop, testClock, storeS6), (noSimulatorFaults, testClock, storeS6),
       (noSimulatorFaults, testClock, emptyStore), (noSimulatorFaults, testClock, storeS6),
       (noSimulatorFaults, testClock, emptyStore)] 0 = some 0 ∧
    ∃ k, simulateTicks [(noSimulatorFaults, testClock, storeS6)] 0 = some k ∧ k < 6 :=
  ⟨by decide,
   (simulate_step_in_range testConfig
      { currentStep := 0, schedule := schedule, scalerConfig := testConfig }
      (by decide)).2.2.1 [(noSimulatorFaults, testClock, storeS6)]⟩

/-! ### Starter and Simulator: a popped key whose processing fails -/

theorem startOne_rewriteStore (f : StarterFaults) (clock : Clock) (cfg : ScalerConfig)
    (st : Store) (key : String) :
    (startOne f clock cfg st key).1 =
      rewriteStore f.get f.exec VMStatusUnavailable .unavailable clock st key := by
  unfold startOne rewriteStore
  split
  · rfl
  · cases hd : st.get key with
    | none => rfl
    | some data =>
      cases hu : unmarshal data with
      | none => simp [hu]
      | some parsed =>
        simp only [Option.some_bind, hu]
        split
        · rfl
        · split <;> rfl

theorem simulateOne_rewriteStore (f : SimulatorFaults) (clock : Clock) (st : Store)
    (key : String) :
    (simulateOne f clock st key).1 =
      rewriteStore f.get f.exec VMStatusReserved .reserved clock st key := by
  unfold simulateOne rewriteStore
  split
  · rfl
  · cases hd : st.get key with
    | none => rfl
    | some data =>
      cases hu : unmarshal data with
      | none => simp [hu]
      | some parsed =>
        simp only [Option.some_bind, hu]
        split <;> rfl

theorem rewriteStore_other (getFails : String → Bool) (exec : String → ExecFault)
    (status : String) (target : StatusSet) (clock : Clock) (st : Store) (k key : String)
    (hk : k ≠ key) :
    agreeAt key st (rewriteStore getFails exec status target clock st k) := by
  unfold rewriteStore
  split
  · exact agreeAt_refl key st
  · split
    · exact agreeAt_refl key st
    · refine ⟨Exec_get_frame _ _ _ _ ?_, fun s => Exec_mem_frame _ _ _ _ _ ?_⟩
      · intro c hc hw
        simp only [List.mem_cons, List.mem_singleton, List.not_mem_nil, or_false] at hc
        rcases hc with rfl | rfl
        · exact hk hw
        · exact hw
      · intro c hc
        simp only [List.mem_cons, List.mem_singleton, List.not_mem_nil, or_false] at hc
        rcases hc with rfl | rfl
        · exact ⟨fun e => (by cases e), fun e => (by cases e)⟩
        · exact ⟨fun e => (by cases e), fun e => hk (Cmd.sadd.inj e).2⟩

theorem rewriteStore_congr (getFails : String → Bool) (exec : String → ExecFault)
    (status : String) (target : StatusSet) (clock : Clock) (st st' : Store) (key : String)
    (h : agreeAt key st st') :
    agreeAt key (rewriteStore getFails exec status target clock st key)
      (rewriteStore getFails exec status target clock st' key) := by
  unfold rewriteStore
  rw [h.1]
  split
  · exact h
  · split
    · exact h
    · exact (Exec_agreeAt key st st' _ _ h).1

theorem Exec_mask_false (st : Store) (mask : List Bool) (cmds : List Cmd)
    (h : ∀ b ∈ mask, b = false) : (st.Exec (some mask) cmds).1 = st := by
  simp only [Store.Exec]
  induction cmds generalizing mask with
  | nil => rfl
  | cons c cs ih =>
    cases mask with
    | nil => rfl
    | cons b bs =>
      simp only [List.zip_cons_cons, List.foldl_cons, h b (List.mem_cons_self _ _),
        Bool.false_eq_true, if_false]
      exact ih bs (fun b' hb' => h b' (List.mem_cons_of_mem _ hb'))

/-- The failed processing of a key leaves the store as it is. -/
theorem rewriteStore_of_failure (getFails : String → Bool) (exec : String → ExecFault)
    (status : String) (target : StatusSet) (clock : Clock) (st : Store) (key : String)
    (hfail : getFails key = true ∨ (st.get key).bind unmarshal = none ∨
      ∃ mask, exec key = some mask ∧ ∀ b ∈ mask, b = false) :
    rewriteStore getFails exec status target clock st key = st := by
  unfold rewriteStore
  rcases hfail with h | h | ⟨mask, hm, hall⟩
  · rw [if_pos h]
  · rw [h]
    split <;> rfl
  · split
    · rfl
    · split
      · rfl
      · rw [hm]
        exact Exec_mask_false _ _ _ hall

/-- A loop over distinct keys whose body does not touch the other keys, and acts on its own
key by what the store holds for that key alone, leaves for `key` what its body leaves on the
first store. -/
theorem forEachKey_local_store (body : Store → String → Store × List Effect) (key : String)
    (hother : ∀ st k, k ≠ key → agreeAt key st (body st k).1)
    (hcongr : ∀ st st', agreeAt key st st' → agreeAt key (body st key).1 (body st' key).1)
    (keys : List String) (hnd : keys.Nodup) (hkey : key ∈ keys) (st0 st : Store)
    (h : agreeAt key st0 st) :
    agreeAt key (body st0 key).1 (forEachKey body keys st).1 := by
  induction keys generalizing st with
  | nil => cases hkey
  | cons k ks ih =>
    by_cases hk : k = key
    · subst hk
      have hnot : k ∉ ks := (List.nodup_cons.1 hnd).1
      have := forEachKey_preserves body (fun st' => agreeAt k (body st0 k).1 st') ks
        (fun st' k' hk' hP =>
          agreeAt_trans hP (hother st' k' (fun e => hnot (e ▸ hk')))) _ (hcongr st0 st h)
      simpa only [forEachKey] using this
    · rcases List.mem_cons.1 hkey with e | hmem
      · exact absurd e.symm hk
      · have := ih (List.nodup_cons.1 hnd).2 hmem (body st k).1
          (agreeAt_trans h (hother st k hk))
        simpa only [forEachKey] using this

/-- A pop followed by the loop over the popped keys: a popped key whose processing fails
without effect keeps its value and is in the sets it was in, the source set apart. -/
theorem SPop_rewrite_failure (body : Store → String → Store × List Effect)
    (getFails : String → Bool) (exec : String → ExecFault) (status : String)
    (source target : StatusSet) (clock : Clock)
    (hbody : ∀ st k, (body st k).1 = rewriteStore getFails exec status target clock st k)
    (n : Nat) (st : Store) (key : String) (hkey : key ∈ (st.SPop source n).1)
    (hfail : getFails key = true ∨ (st.get key).bind unmarshal = none ∨
      ∃ mask, exec key = some mask ∧ ∀ b ∈ mask, b = false) :
    (forEachKey body (st.SPop source n).1 (st.SPop source n).2).1.get key = st.get key ∧
    ∀ s, (key ∈ (forEachKey body (st.SPop source n).1 (st.SPop source n).2).1.members s ↔
      key ∈ st.members s ∧ s ≠ source) := by
  have hloc := forEachKey_local_store body key
    (fun st' k hk => by rw [hbody]; exact rewriteStore_other _ _ _ _ _ _ _ _ hk)
    (fun st₁ st₂ hag => by rw [hbody, hbody]; exact rewriteStore_congr _ _ _ _ _ _ _ _ hag)
    (st.SPop source n).1
    (List.Nodup.sublist (List.take_sublist _ _) (List.nodup_dedup _)) hkey
    (st.SPop source n).2 (st.SPop source n).2 (agreeAt_refl _ _)
  rw [hbody, rewriteStore_of_failure _ _ _ _ _ _ _ (by rw [SPop_get]; exact hfail)] at hloc
  refine ⟨hloc.1.trans (SPop_get st source n key), fun s => ?_⟩
  rw [hloc.2 s, mem_SPop_members]
  constructor
  · rintro ⟨hm, hnot⟩
    exact ⟨hm, fun e => hnot e hkey⟩
  · rintro ⟨hm, hne⟩
    exact ⟨hm, fun e => absurd e hne⟩
/-- C27, amended: in a Starter tick and in a Simulator tick, when a key has been popped from
its source set and the load or the parse for that key fails, or its batch write fails
without any of its commands having taken effect, the key is not put back: the tick returns
no error, the value stored under the key is as before, and the key is in the sets it was in
before, the source set apart; so a key that was in no other set is in none of the three
sets. -/
theorem popped_key_not_put_back (fs : StarterFaults) (fm : SimulatorFaults) (clock : Clock)
    (cfg : ScalerConfig) (currentStep n : Nat) (st : Store) (key : String) :
    (fs.spop = false → key ∈ (st.SPop .reserved 100).1 →
      (fs.get key = true ∨ (st.get key).bind unmarshal = none ∨
        ∃ mask, fs.exec key = some mask ∧ ∀ b ∈ mask, b = false) →
      (start fs clock cfg st).2.2 = none ∧
      (start fs clock cfg st).1.get key = st.get key ∧
      (∀ s, (key ∈ (start fs clock cfg st).1.members s ↔
        key ∈ st.members s ∧ s ≠ .reserved)) ∧
      ((∀ s, s ≠ .reserved → key ∉ st.members s) →
        ∀ s, key ∉ (start fs clock cfg st).1.members s)) ∧
    (fm.spop = false → schedule[currentStep]? = some n → key ∈ (st.SPop .available n).1 →
      (fm.get key = true ∨ (st.get key).bind unmarshal = none ∨
        ∃ mask, fm.exec key = some mask ∧ ∀ b ∈ mask, b = false) →
      ∃ out, simulate fm clock currentStep st = some out ∧ out.err = none ∧
        out.store.get key = st.get key ∧
        (∀ s, (key ∈ out.store.members s ↔ key ∈ st.members s ∧ s ≠ .available)) ∧
        ((∀ s, s ≠ .available → key ∉ st.members s) → ∀ s, key ∉ out.store.members s)) := by
  refine ⟨?_, ?_⟩
  · intro hpop hkey hfail
    obtain ⟨hs, -, herr⟩ := start_store fs clock cfg st hpop
    obtain ⟨hg, hm⟩ := SPop_rewrite_failure (startOne fs clock cfg) fs.get fs.exec
      VMStatusUnavailable .reserved .unavailable clock
      (startOne_rewriteStore fs clock cfg) 100 st key hkey hfail
    rw [hs]
    exact ⟨herr, hg, hm, fun hother s hmem =>
      hother s ((hm s).1 hmem).2 ((hm s).1 hmem).1⟩
  · intro hpop hstep hkey hfail
    obtain ⟨hg, hm⟩ := SPop_rewrite_failure (simulateOne fm clock) fm.get fm.exec
      VMStatusReserved .available .reserved clock
      (simulateOne_rewriteStore fm clock) n st key hkey hfail
    exact ⟨_, simulate_store fm clock currentStep st n hstep hpop, rfl, hg, hm,
      fun hother s hmem => hother s ((hm s).1 hmem).2 ((hm s).1 hmem).1⟩

/-- Witness for C27, amended: in the Starter tick whose `GET` of `E` fails, the record of
`E` is as before and `E`, popped from the reserved set, is in none of the three sets. -/
theorem popped_key_not_put_back_witness :
    (start getFaults testClock testConfig storeReserved).2.2 = none ∧
    (start getFaults testClock testConfig storeReserved).1.get "vmss:instance:E" =
      storeReserved.get "vmss:instance:E" ∧
    ∀ s, "vmss:instance:E" ∉ (start getFaults testClock testConfig storeReserved).1.members s :=
  ⟨((popped_key_not_put_back getFaults noSimulatorFaults testClock testConfig 0 1
      storeReserved "vmss:instance:E").1 rfl (by decide) (Or.inl (by decide))).1,
   ((popped_key_not_put_back getFaults noSimulatorFaults testClock testConfig 0 1
      storeReserved "vmss:instance:E").1 rfl (by decide) (Or.inl (by decide))).2.1,
   ((popped_key_not_put_back getFaults noSimulatorFaults testClock testConfig 0 1
      storeReserved "vmss:instance:E").1 rfl (by decide) (Or.inl (by decide))).2.2.2
      (fun s hs => by cases s <;> first | exact absurd rfl hs | decide)⟩

/-- Counterexample to C27: in a Starter tick the batch for the popped key `E` returns an
error after its record write took effect (a pipeline is no transaction).  The tick logs the
failure and goes on; afterwards the stored record of `E` is the rewritten one, with status
`Unavailable`, not the one stored before, and `E` is in none of the three sets. -/
theorem start_failed_batch_rewrites_record :
    "vmss:instance:E" ∈ (storeReserved.SPop .reserved 100).1 ∧
    storeReserved.get "vmss:instance:E" =
      some (marshal (testRecord "E" "5" VMStatusReserved "950" false)) ∧
    Effect.exec [Cmd.set "vmss:instance:E"
        (marshal (testRecord "E" "5" VMStatusUnavailable "1000" false)),
      Cmd.sadd .unavailable "vmss:instance:E"] false ∈
      (start execFaults testClock testConfig storeReserved).2.1 ∧
    (start execFaults testClock testConfig storeReserved).1.get "vmss:instance:E" =
      some (marshal (testRecord "E" "5" VMStatusUnavailable "1000" false)) ∧
    (∀ s ∈ statusSets,
      "vmss:instance:E" ∉ (start execFaults testClock testConfig storeReserved).1.members s) := by
  decide

/-! ### C28: `CreateInstances` on a scale set without SKU -/

/-- C28: `CreateInstances` does dereference a missing SKU.  It fails on an absent value
exactly when `Get` succeeds, the scale set it returns has no SKU and `desiredCount` is
positive: the capacity is then read as 0 behind the nil check, and `vmss.SKU.Name` is
evaluated without one.  So with no SKU and `desiredCount` 1 there is no return, while a SKU
without capacity, or no SKU with `desiredCount` 0, returns. -/
theorem CreateInstances_nil_SKU_panics :
    (∀ (f : CreateFaults) (vmss : ScaleSet) (desiredCount : Int),
      CreateInstances f vmss desiredCount = none ↔
        f.get = false ∧ vmss.SKU = none ∧ 0 < desiredCount) ∧
    currentCount { SKU := none } = 0 ∧
    CreateInstances noCreateFaults { SKU := none } 1 = none ∧
    CreateInstances noCreateFaults { SKU := none } 0 =
      some { vmss := { SKU := none }, update := none, err := none } ∧
    CreateInstances noCreateFaults
        { SKU := some { Name := some "Standard_NV6", Tier := none, Capacity := none } } 1 =
      some { vmss := { SKU := some { Name := some "Standard_NV6", Tier := none,
                                     Capacity := some 1 } },
             update := some { Name := some "Standard_NV6", Tier := none, Capacity := some 1 },
             err := none } := by
  refine ⟨?_, rfl, by decide, by decide, by decide⟩
  intro f vmss desiredCount
  constructor
  · intro h
    unfold CreateInstances at h
    split at h
    · cases h
    · rename_i hget
      split at h
      · cases h
      · rename_i hlt
        cases hsku : vmss.SKU with
        | none =>
          have hc : currentCount vmss = 0 := by simp [currentCount, hsku]
          rw [hc] at hlt
          exact ⟨by simpa using hget, rfl, by omega⟩
        | some sku =>
          rw [hsku] at h
          simp only at h
          split at h
          · cases h
          · split at h <;> cases h
  · rintro ⟨hget, hsku, hpos⟩
    have hc : currentCount vmss = 0 := by simp [currentCount, hsku]
    unfold CreateInstances
    rw [if_neg (by simp [hget]), if_neg (by rw [hc]; omega), hsku]

/-! ### C29: a second Reconciler tick changes nothing -/

theorem queueOrphans_of_invariant2 (cloud : List VMInstance) (keys : List String)
    (h : ∀ key ∈ keys, ∀ vmID, sscanfVMID key = some vmID →
      vmID ∈ cloud.map (fun inst => inst.VMID)) :
    queueOrphans (cloud.map (fun inst => inst.VMID)) keys = ([], []) := by
  induction keys with
  | nil => rfl
  | cons key rest ih =>
    rw [queueOrphans_cons_skip _ key rest (h key (List.mem_cons_self _ _))]
    exact ih (fun k hk => h k (List.mem_cons_of_mem _ hk))

theorem queueNewRecords_of_all_known (clock : Clock) (cfg : ScalerConfig)
    (redisMap : List String) (insts : List VMInstance)
    (h : ∀ inst ∈ insts, instanceKey inst.VMID ∈ redisMap) :
    queueNewRecords clock cfg redisMap insts = ([], []) := by
  induction insts with
  | nil => rfl
  | cons inst rest ih =>
    simp only [queueNewRecords]
    rw [ih (fun i hi => h i (List.mem_cons_of_mem _ hi)),
      if_pos (h inst (List.mem_cons_self _ _))]

/-- A tick over a store on which invariants 2 and 3 hold queues nothing and returns the
store as it was, whichever calls fail. -/
theorem reconcile_of_invariants (f : ReconcilerFaults) (clock : Clock) (cfg : ScalerConfig)
    (cloud : List VMInstance) (st : Store)
    (h2 : invariant2 cloud st = true) (h3 : invariant3 cloud st = true) :
    queueOrphans (cloud.map (fun inst => inst.VMID)) (st.Keys "vmss:instance:") = ([], []) ∧
    queueNewRecords clock cfg (st.Keys "vmss:instance:")
      (ListInstances cloud { VMPowerStates := [PowerStateStopped, PowerStateDeallocated] }) =
      ([], []) ∧
    (reconcile f clock cfg cloud st).1 = st ∧
    (f.listAll = false → f.keys = false → f.listInactive = false →
      (reconcile f clock cfg cloud st).2 = none) := by
  have hq1 := queueOrphans_of_invariant2 cloud (st.Keys "vmss:instance:")
    ((invariant2_iff cloud st).1 h2)
  have hq2 : queueNewRecords clock cfg (st.Keys "vmss:instance:")
      (ListInstances cloud { VMPowerStates := [PowerStateStopped, PowerStateDeallocated] }) =
      ([], []) := by
    apply queueNewRecords_of_all_known
    intro inst hinst
    obtain ⟨hmem, hstate⟩ := (mem_ListInstances_inactive cloud inst).1 hinst
    have hne := (invariant3_iff cloud st).1 h3 inst hmem hstate
    refine (mem_Keys st _ _).2 ⟨?_, instanceKey_hasPrefix inst.VMID⟩
    by_contra hk
    exact hne ((get_eq_none_iff st _).2 hk)
  refine ⟨hq1, hq2, ?_, ?_⟩
  · unfold reconcile
    simp only [ListInstances_all, hq1, hq2]
    by_cases h1 : f.listAll = true <;> by_cases hk : f.keys = true <;>
      by_cases hl : f.listInactive = true <;> simp [h1, hk, hl, hq2]
  · intro h1 hk hl
    unfold reconcile
    simp only [ListInstances_all, hq1, hq2]
    simp [h1, hk, hl, hq2]

/-- C29: if a Reconciler tick returns no error, every vmId of the cloud inventory is free of
white space, and the cloud inventory and the store stay as they are, then in a second tick
the loop over the record keys queues no `DEL` and no `SREM` and finds no orphan, the loop
over the inactive instances queues no `SET` and no `SADD` and finds no new record, and the
tick leaves the store identical (whichever of its calls fail) and returns no error when its
listings and its `KEYS` succeed. -/
theorem reconcile_idempotent (f₁ f₂ : ReconcilerFaults) (clock₁ clock₂ : Clock)
    (cfg : ScalerConfig) (cloud : List VMInstance) (st : Store)
    (hok : (reconcile f₁ clock₁ cfg cloud st).2 = none)
    (hws : ∀ inst ∈ cloud, ∀ c ∈ inst.VMID.data, isSpace c = false) :
    queueOrphans (cloud.map (fun inst => inst.VMID))
      ((reconcile f₁ clock₁ cfg cloud st).1.Keys "vmss:instance:") = ([], []) ∧
    queueNewRecords clock₂ cfg ((reconcile f₁ clock₁ cfg cloud st).1.Keys "vmss:instance:")
      (ListInstances cloud { VMPowerStates := [PowerStateStopped, PowerStateDeallocated] }) =
      ([], []) ∧
    (reconcile f₂ clock₂ cfg cloud (reconcile f₁ clock₁ cfg cloud st).1).1 =
      (reconcile f₁ clock₁ cfg cloud st).1 ∧
    (f₂.listAll = false → f₂.keys = false → f₂.listInactive = false →
      (reconcile f₂ clock₂ cfg cloud (reconcile f₁ clock₁ cfg cloud st).1).2 = none) :=
  reconcile_of_invariants f₂ clock₂ cfg cloud _
    (reconcile_invariants f₁ clock₁ cfg cloud st hok hws).1
    (reconcile_invariants f₁ clock₁ cfg cloud st hok hws).2

/-- Witness for C29: scenario S3's store (an orphan record) under scenario S2's cloud (a
stopped VM without record): the first tick deletes one record and creates one, the second
tick leaves the store as the first one left it. -/
theorem reconcile_idempotent_witness :
    (reconcile noReconcilerFaults testClock testConfig cloudS2 storeS3).1 ≠ storeS3 ∧
    (reconcile noReconcilerFaults testClock testConfig cloudS2
      (reconcile noReconcilerFaults testClock testConfig cloudS2 storeS3).1).1 =
      (reconcile noReconcilerFaults testClock testConfig cloudS2 storeS3).1 ∧
    (reconcile noReconcilerFaults testClock testConfig cloudS2
      (reconcile noReconcilerFaults testClock testConfig cloudS2 storeS3).1).2 = none :=
  ⟨by decide,
   (reconcile_idempotent noReconcilerFaults noReconcilerFaults testClock testClock testConfig
      cloudS2 storeS3 (by decide) (by decide)).2.2.1,
   (reconcile_idempotent noReconcilerFaults noReconcilerFaults testClock testClock testConfig
      cloudS2 storeS3 (by decide) (by decide)).2.2.2 rfl rfl rfl⟩

/-! ### C30: a rewrite changes `status` and `updatedAt` only -/

theorem otherFields_rewrite (r : VMRedisRecord) (status updatedAt : String) :
    otherFields { r with Status := status, UpdatedAt := updatedAt } = otherFields r := rfl

theorem startOne_set_cmds (f : StarterFaults) (clock : Clock) (cfg : ScalerConfig) (st : Store)
    (key : String) (cmds : List Cmd) (ok : Bool)
    (h : Effect.exec cmds ok ∈ (startOne f clock cfg st key).2) :
    ∃ stored, (st.get key).bind unmarshal = some stored ∧
      cmds = [Cmd.set key (marshal { stored with Status := VMStatusUnavailable,
                                                 UpdatedAt := clock.format (clock.now key) }),
              Cmd.sadd .unavailable key] := by
  unfold startOne at h
  split at h
  · cases h
  · split at h
    · cases h
    · rename_i d hd
      split at h
      · cases h
      · rename_i parsed hparsed
        refine ⟨parsed, by rw [hd]; exact hparsed, ?_⟩
        simp only at h
        split at h
        · simp only [List.mem_singleton, Effect.exec.injEq] at h
          exact h.1
        · split at h
          · simp only [List.mem_cons, Effect.exec.injEq, reduceCtorEq, List.mem_singleton,
              List.not_mem_nil, or_false] at h
            exact h.1
          · simp only [List.mem_cons, Effect.exec.injEq, reduceCtorEq, List.mem_singleton,
              List.not_mem_nil, or_false] at h
            exact h.1

theorem simulateOne_set_cmds (f : SimulatorFaults) (clock : Clock) (st : Store)
    (key : String) (cmds : List Cmd) (ok : Bool)
    (h : Effect.exec cmds ok ∈ (simulateOne f clock st key).2) :
    ∃ stored, (st.get key).bind unmarshal = some stored ∧
      cmds = [Cmd.set key (marshal { stored with Status := VMStatusReserved,
                                                 UpdatedAt := clock.format (clock.now key) }),
              Cmd.sadd .reserved key] := by
  unfold simulateOne at h
  split at h
  · cases h
  · split at h
    · cases h
    · rename_i d hd
      split at h
      · cases h
      · rename_i parsed hparsed
        refine ⟨parsed, by rw [hd]; exact hparsed, ?_⟩
        simp only at h
        split at h
        · simp only [List.mem_singleton, Effect.exec.injEq] at h
          exact h.1
        · simp only [List.mem_singleton, Effect.exec.injEq] at h
          exact h.1

/-- C30: when the Starter or the Simulator rewrites a record, only `status` and `updatedAt`
change.  In the pass over one key, every `SET` the batch holds is under that same key and
its value is a record whose fields `vmId`, `instanceId`, `publicIp`, `clientIp`,
`sessionId`, `createdAt`, `region`, `used` and `warm` equal those of the record parsed from
the value stored under the key.  Over a whole tick, whatever fails, a value found under a
key afterwards that differs from the one before is such a record of the record stored under
that key before the tick. -/
theorem rewrite_keeps_other_fields (fs : StarterFaults) (fm : SimulatorFaults) (clock : Clock)
    (cfg : ScalerConfig) (currentStep : Nat) (st : Store) (key : String) :
    (∀ cmds ok k v, Effect.exec cmds ok ∈ (startOne fs clock cfg st key).2 →
      Cmd.set k v ∈ cmds →
      k = key ∧ ∃ stored written, (st.get key).bind unmarshal = some stored ∧
        v = marshal written ∧ otherFields written = otherFields stored) ∧
    (∀ cmds ok k v, Effect.exec cmds ok ∈ (simulateOne fm clock st key).2 →
      Cmd.set k v ∈ cmds →
      k = key ∧ ∃ stored written, (st.get key).bind unmarshal = some stored ∧
        v = marshal written ∧ otherFields written = otherFields stored) ∧
    (∀ v, (start fs clock cfg st).1.get key = some v → st.get key ≠ some v →
      ∃ stored written, (st.get key).bind unmarshal = some stored ∧
        v = marshal written ∧ otherFields written = otherFields stored) ∧
    (∀ out v, simulate fm clock currentStep st = some out → out.store.get key = some v →
      st.get key ≠ some v →
      ∃ stored written, (st.get key).bind unmarshal = some stored ∧
        v = marshal written ∧ otherFields written = otherFields stored) := by
  refine ⟨?_, ?_, ?_, ?_⟩
  · intro cmds ok k v hexec hset
    obtain ⟨stored, hstored, rfl⟩ := startOne_set_cmds fs clock cfg st key cmds ok hexec
    simp only [List.mem_cons, Cmd.set.injEq, reduceCtorEq, List.mem_singleton,
      List.not_mem_nil, or_false] at hset
    exact ⟨hset.1, stored, _, hstored, hset.2, otherFields_rewrite _ _ _⟩
  · intro cmds ok k v hexec hset
    obtain ⟨stored, hstored, rfl⟩ := simulateOne_set_cmds fm clock st key cmds ok hexec
    simp only [List.mem_cons, Cmd.set.injEq, reduceCtorEq, List.mem_singleton,
      List.not_mem_nil, or_false] at hset
    exact ⟨hset.1, stored, _, hstored, hset.2, otherFields_rewrite _ _ _⟩
  · intro v h hnew
    rcases start_get_some fs clock cfg st key v h with h' | ⟨r, hr, hv⟩
    · exact absurd h' hnew
    · exact ⟨r, _, hr, hv, otherFields_rewrite _ _ _⟩
  · intro out v hout h hnew
    rcases simulate_get_some fm clock currentStep st out hout key v h with h' | ⟨r, hr, hv⟩
    · exact absurd h' hnew
    · exact ⟨r, _, hr, hv, otherFields_rewrite _ _ _⟩

/-- Witness for C30: the Starter tick over two reserved records rewrites the record of `E`;
the nine other fields of the new record are those of the stored one. -/
theorem rewrite_keeps_other_fields_witness :
    (start noStarterFaults testClock testConfig storeReserved).1.get "vmss:instance:E" =
      some (marshal (testRecord "E" "5" VMStatusUnavailable "1000" false)) ∧
    ∃ stored written, (storeReserved.get "vmss:instance:E").bind unmarshal = some stored ∧
      marshal (testRecord "E" "5" VMStatusUnavailable "1000" false) = marshal written ∧
      otherFields written = otherFields stored :=
  ⟨by decide,
   (rewrite_keeps_other_fields noStarterFaults noSimulatorFaults testClock testConfig 0
      storeReserved "vmss:instance:E").2.2.1
      (marshal (testRecord "E" "5" VMStatusUnavailable "1000" false)) (by decide) (by decide)⟩

end Scaler
